import Mathlib

/-!
# Place recognition, loop closing and map merging (`src/LoopClosing.cc`)

A shallow embedding of the `LoopClosing` worker of MORB_SLAM.

* Pointers (`KeyFrame*`, `MapPoint*`, `std::shared_ptr<Map>`) are addresses, i.e. natural
  numbers, and `0` is `nullptr`.  Containers ordered by pointer (`std::set`, `std::map`)
  are ordered by address.
* The members of `LoopClosing` are the fields of `State`, with the names of the source.
* Everything the worker calls but does not define (KeyFrame, Map, ORBmatcher, Sim3Solver,
  Optimizer, g2o, Sophus) is a field of `World` or of `Geometry`: the value the call returns.
  Single and double precision are not told apart.
* Calls to collaborators are recorded, in program order, as `Event`s.
-/

namespace MORB_SLAM

/-- Address of a `KeyFrame`; `0` is `nullptr`. -/
abbrev KeyFramePtr := Nat

/-- Address of a `MapPoint`; `0` is `nullptr`. -/
abbrev MapPointPtr := Nat

/-- Address of a `Map`; `0` is `nullptr`. -/
abbrev MapPtr := Nat

/-- The sensor tags `mpTracker->mSensor` is compared with. -/
inductive CameraType
  | MONOCULAR
  | STEREO
  | RGBD
  | IMU_MONOCULAR
  | IMU_STEREO
  | IMU_RGBD
  deriving DecidableEq, Repr

/-- The operations of `Sophus::SE3` and `g2o::Sim3` the worker uses. -/
structure Geometry (SE3 Sim3 Vec3 : Type) where
  /-- `T1 * T2` on `Sophus::SE3`. -/
  seMul : SE3 → SE3 → SE3
  /-- `g2o::Sim3(T.unit_quaternion(), T.translation(), 1.0)`. -/
  ofSE3 : SE3 → Sim3
  /-- `S1 * S2` on `g2o::Sim3`. -/
  mul : Sim3 → Sim3 → Sim3
  /-- `S.inverse()`. -/
  inverse : Sim3 → Sim3
  /-- `S.map(p)`. -/
  map : Sim3 → Vec3 → Vec3
  /-- `S.scale()`. -/
  scale : Sim3 → ℚ
  /-- `g2o::Sim3(S.rotation(), S.translation(), 1.0)`. -/
  unitScale : Sim3 → Sim3
  /-- `Sophus::SE3d(S.rotation(), S.translation() / S.scale())`. -/
  toSE3 : Sim3 → SE3
  /-- `LogSO3(S.rotation().toRotationMatrix())`. -/
  LogSO3 : Sim3 → ℚ × ℚ × ℚ
  /-- `S.translation()`. -/
  translation : Sim3 → Vec3
  /-- `g2o::Sim3(ExpSO3(phi), t, s)`. -/
  ofExpSO3 : ℚ × ℚ × ℚ → Vec3 → ℚ → Sim3
  /-- `g2o::Sim3()`, the default-constructed similarity. -/
  identity : Sim3

/-- Lines 132-135 of `Run` (and 212-214): `phi = LogSO3(S.rotation()); phi(0) = 0;
phi(1) = 0; g2o::Sim3(ExpSO3(phi), S.translation(), 1.0)`. -/
def Geometry.yawOnly {SE3 Sim3 Vec3 : Type} (G : Geometry SE3 Sim3 Vec3) (S : Sim3) : Sim3 :=
  let phi := G.LogSO3 S
  G.ofExpSO3 (0, 0, phi.2.2) (G.translation S) 1

/-- Result of a projection search: the number of matches and the two vectors written. -/
structure ProjResult where
  num : Int
  vpMapPoints : List MapPointPtr
  vpMatchedMapPoints : List MapPointPtr
  deriving DecidableEq, Repr

/-- The values returned by the collaborators of the worker during one iteration of `Run`. -/
structure World (SE3 Sim3 : Type) where
  /-- `pKF->GetPose()`. -/
  GetPose : KeyFramePtr → SE3
  /-- `pKF->GetPoseInverse()`. -/
  GetPoseInverse : KeyFramePtr → SE3
  /-- `pKF->GetMap()`. -/
  GetMap : KeyFramePtr → MapPtr
  /-- `pKF->isBad()`. -/
  isBad : KeyFramePtr → Bool
  /-- `pMP->isBad()`. -/
  isBadMP : MapPointPtr → Bool
  /-- `pKF->GetBestCovisibilityKeyFrames(N)`. -/
  GetBestCovisibilityKeyFrames : KeyFramePtr → Nat → List KeyFramePtr
  /-- `pKF->GetConnectedKeyFrames()`. -/
  GetConnectedKeyFrames : KeyFramePtr → List KeyFramePtr
  /-- `pKF->GetVectorCovisibleKeyFrames()`. -/
  GetVectorCovisibleKeyFrames : KeyFramePtr → List KeyFramePtr
  /-- `pKF->GetMapPointMatches()`. -/
  GetMapPointMatches : KeyFramePtr → List MapPointPtr
  /-- `pMP->GetReferenceKeyFrame()`. -/
  GetReferenceKeyFrame : MapPointPtr → KeyFramePtr
  /-- `pMap->GetIniertialBA1()`. -/
  GetIniertialBA1 : MapPtr → Bool
  /-- `pMap->GetIniertialBA2()`. -/
  GetIniertialBA2 : MapPtr → Bool
  /-- `pMap->isImuInitialized()`. -/
  isImuInitialized : MapPtr → Bool
  /-- `pMap->GetAllKeyFrames().size()`. -/
  numKeyFrames : MapPtr → Nat
  /-- `pKF->mnId`. -/
  mnId : KeyFramePtr → Nat
  /-- `matcher.SearchByProjection(pKF, Scw, vpPoints, vpMatched, th, ratioHamming)`:
  the count returned and the vector `vpMatched` written. -/
  SearchByProjection : KeyFramePtr → Sim3 → List MapPointPtr → Nat → ℚ → Int × List MapPointPtr
  /-- `matcher.SearchByProjection(pKF, Scw, vpPoints, vpPointsKFs, vpMatched, vpMatchedKF, th,
  ratioHamming)`: the count returned and the vector `vpMatched` written. -/
  SearchByProjectionKF :
    KeyFramePtr → Sim3 → List MapPointPtr → List KeyFramePtr → Nat → ℚ → Int × List MapPointPtr
  /-- `matcherBoW.SearchByBoW(pKF1, pKF2, vpMatches12)`: the vector `vpMatches12` written. -/
  SearchByBoW : KeyFramePtr → KeyFramePtr → List MapPointPtr
  /-- `Optimizer::OptimizeSim3(pKF1, pKF2, vpMatches1, g2oS12, 10, bFixScale, H, true)`:
  the count returned, and `g2oS12` and `vpMatches1` as left by the call. -/
  OptimizeSim3 :
    KeyFramePtr → KeyFramePtr → List MapPointPtr → Sim3 → Bool → Int × Sim3 × List MapPointPtr
  /-- `Sim3Solver(pKF1, pKF2, vpMatched12, bFixScale, vpKeyFrameMatchedMP)` with
  `SetRansacParameters(0.99, 15, 300)`, iterated by `iterate(20, ...)` until `bConverge` or
  `bNoMore`: the flag `bConverge` at the exit of the loop and the estimated similarity. -/
  Sim3Solver :
    KeyFramePtr → KeyFramePtr → List MapPointPtr → Bool → List KeyFramePtr → Bool × Sim3
  /-- `mpKeyFrameDB->DetectNBestCandidates(pKF, vpLoopCand, vpMergeCand, 3)`. -/
  DetectNBestCandidates : KeyFramePtr → List KeyFramePtr × List KeyFramePtr

/-- Calls to the collaborators of the worker, in program order. -/
inductive Event (Sim3 : Type)
  /-- `pKF->SetNotErase()`. -/
  | SetNotErase (pKF : KeyFramePtr)
  /-- `pKF->SetErase()`. -/
  | SetErase (pKF : KeyFramePtr)
  /-- `mpKeyFrameDB->add(pKF)`. -/
  | KeyFrameDB_add (pKF : KeyFramePtr)
  /-- `pKF->mvpLoopCandKFs.clear(); pKF->mvpMergeCandKFs.clear()`. -/
  | ClearCandKFs (pKF : KeyFramePtr)
  /-- A call `matcher.SearchByProjection(pKF, Scw, ...)`, of either variant. -/
  | SearchByProjection (pKF : KeyFramePtr) (Scw : Sim3)
  /-- `matcherBoW.SearchByBoW(pKF1, pKF2, ...)`. -/
  | SearchByBoW (pKF1 pKF2 : KeyFramePtr)
  /-- Construction and run of a `Sim3Solver` for the pair. -/
  | Sim3Solver (pKF1 pKF2 : KeyFramePtr) (bFixScale : Bool)
  /-- `Optimizer::OptimizeSim3(pKF1, pKF2, ..., bFixScale, ...)`. -/
  | OptimizeSim3 (pKF1 pKF2 : KeyFramePtr) (bFixScale : Bool)
  /-- `CorrectLoop()`, with the value of `mnLoopNumCoincidences` at the call. -/
  | CorrectLoop (mnLoopNumCoincidences : Nat)
  /-- `MergeLocal()`, with the value of `mnMergeNumCoincidences` at the call. -/
  | MergeLocal (mnMergeNumCoincidences : Nat)
  /-- `MergeLocal2()`, with the value of `mnMergeNumCoincidences` at the call. -/
  | MergeLocal2 (mnMergeNumCoincidences : Nat)
  deriving DecidableEq, Repr

/-- The construction parameters and the sensor of the tracker. -/
structure Config where
  mbFixScale : Bool
  mbActiveLC : Bool
  mbInertial : Bool
  /-- `mpTracker->mSensor`. -/
  mSensor : CameraType
  deriving DecidableEq, Repr

/-- The members of `LoopClosing` used by the detector and by `Run`. -/
structure State (Sim3 : Type) where
  mlpLoopKeyFrameQueue : List KeyFramePtr
  mpCurrentKF : KeyFramePtr
  mpLastCurrentKF : KeyFramePtr
  mpLastMap : MapPtr
  mbLoopDetected : Bool
  mnLoopNumCoincidences : Nat
  mnLoopNumNotFound : Nat
  mpLoopLastCurrentKF : KeyFramePtr
  mpLoopMatchedKF : KeyFramePtr
  mg2oLoopSlw : Sim3
  mg2oLoopScw : Sim3
  mvpLoopMPs : List MapPointPtr
  mvpLoopMatchedMPs : List MapPointPtr
  mvpLoopMapPoints : List MapPointPtr
  mbMergeDetected : Bool
  mnMergeNumCoincidences : Nat
  mnMergeNumNotFound : Nat
  mpMergeLastCurrentKF : KeyFramePtr
  mpMergeMatchedKF : KeyFramePtr
  mg2oMergeSlw : Sim3
  mg2oMergeSmw : Sim3
  mg2oMergeScw : Sim3
  mSold_new : Sim3
  mvpMergeMPs : List MapPointPtr
  mvpMergeMatchedMPs : List MapPointPtr
  mvpMergeConnectedKFs : List KeyFramePtr
  mnNumCorrection : Nat
  mbResetRequested : Bool
  mbResetActiveMapRequested : Bool
  mpMapToReset : MapPtr
  mbFinishRequested : Bool
  mbFinished : Bool
  deriving DecidableEq, Repr

section Detector

variable {SE3 Sim3 Vec3 : Type}

/-- The loop of `FindMatchesByProjection` (lines 798-808) over `i < nInitialCov`: the inner loop
inserts into `spCheckKFs` up to `nNumCovisibles` KeyFrames that are neither checked nor
covisible with the current one; all of `vpKFs` is appended to `vpCovKFm`. -/
def FindMatchesByProjection.expand (W : World SE3 Sim3) (spCurrentCovisbles : List KeyFramePtr)
    (nNumCovisibles : Nat) :
    List KeyFramePtr → List KeyFramePtr × List KeyFramePtr → List KeyFramePtr × List KeyFramePtr
  | [], acc => acc
  | pKFi :: rest, (spCheckKFs, vpCovKFm) =>
    let vpKFs := W.GetBestCovisibilityKeyFrames pKFi nNumCovisibles
    let inner := vpKFs.foldl
      (fun (st : List KeyFramePtr × Nat) pKFj =>
        if st.2 < nNumCovisibles then
          if pKFj ∉ st.1 ∧ pKFj ∉ spCurrentCovisbles then (pKFj :: st.1, st.2 + 1) else st
        else st)
      (spCheckKFs, 0)
    FindMatchesByProjection.expand W spCurrentCovisbles nNumCovisibles rest
      (inner.1, vpCovKFm ++ vpKFs)

/-- The MapPoints of the KeyFrames of `vpCovKFm`, non-null and not bad, each once, in order of
first appearance (lines 810-822). -/
def collectMapPoints (W : World SE3 Sim3) (vpCovKFm : List KeyFramePtr) : List MapPointPtr :=
  vpCovKFm.foldl
    (fun vpMapPoints pKFi =>
      (W.GetMapPointMatches pKFi).foldl
        (fun acc pMPij =>
          if pMPij = 0 ∨ W.isBadMP pMPij = true then acc
          else if pMPij ∈ acc then acc else acc ++ [pMPij])
        vpMapPoints)
    []

/-- `LoopClosing::FindMatchesByProjection` (lines 789-831). -/
def FindMatchesByProjection (W : World SE3 Sim3) (pCurrentKF pMatchedKFw : KeyFramePtr)
    (g2oScw : Sim3) : ProjResult :=
  let nNumCovisibles := 10
  let vpCovKFm0 := W.GetBestCovisibilityKeyFrames pMatchedKFw nNumCovisibles
  let nInitialCov := vpCovKFm0.length
  let vpCovKFm1 := vpCovKFm0 ++ [pMatchedKFw]
  let spCurrentCovisbles := W.GetConnectedKeyFrames pCurrentKF
  let vpCovKFm :=
    if nInitialCov < nNumCovisibles then
      (FindMatchesByProjection.expand W spCurrentCovisbles nNumCovisibles vpCovKFm0
        (vpCovKFm1, vpCovKFm1)).2
    else vpCovKFm1
  let vpMapPoints := collectMapPoints W vpCovKFm
  let r := W.SearchByProjection pCurrentKF g2oScw vpMapPoints 3 (3 / 2)
  ⟨r.1, vpMapPoints, r.2⟩

/-- What `DetectAndReffineSim3FromLastKF` returns and leaves in its reference arguments. -/
structure RefineResult (Sim3 : Type) where
  ret : Bool
  gScw : Sim3
  nNumProjMatches : Int
  vpMPs : List MapPointPtr
  vpMatchedMPs : List MapPointPtr
  events : List (Event Sim3)

/-- `LoopClosing::DetectAndReffineSim3FromLastKF` (lines 463-500).  `mpCurrentKF` is the member,
`pCurrentKF` the argument. -/
def DetectAndReffineSim3FromLastKF (cfg : Config) (G : Geometry SE3 Sim3 Vec3)
    (W : World SE3 Sim3) (mpCurrentKF pCurrentKF pMatchedKF : KeyFramePtr) (gScw : Sim3) :
    RefineResult Sim3 :=
  let r1 := FindMatchesByProjection W pCurrentKF pMatchedKF gScw
  let e1 : List (Event Sim3) := [Event.SearchByProjection pCurrentKF gScw]
  let nProjMatches : Int := 30
  let nProjOptMatches : Int := 50
  let nProjMatchesRep : Int := 100
  if r1.num ≥ nProjMatches then
    let gSwm := G.ofSE3 (W.GetPoseInverse pMatchedKF)
    let gScm := G.mul gScw gSwm
    let bFixedScale :=
      if cfg.mSensor = CameraType.IMU_MONOCULAR ∧ W.GetIniertialBA2 (W.GetMap pCurrentKF) = false
      then false else cfg.mbFixScale
    let o := W.OptimizeSim3 mpCurrentKF pMatchedKF r1.vpMatchedMapPoints gScm bFixedScale
    let e2 := e1 ++ [Event.OptimizeSim3 mpCurrentKF pMatchedKF bFixedScale]
    if o.1 > nProjOptMatches then
      let gScw_estimation := G.unitScale gScw
      let r2 := FindMatchesByProjection W pCurrentKF pMatchedKF gScw_estimation
      let e3 := e2 ++ [Event.SearchByProjection pCurrentKF gScw_estimation]
      if r2.num ≥ nProjMatchesRep then
        ⟨true, gScw_estimation, r2.num, r2.vpMapPoints, r2.vpMatchedMapPoints, e3⟩
      else
        ⟨false, gScw, r2.num, r2.vpMapPoints, r2.vpMatchedMapPoints, e3⟩
    else
      ⟨false, gScw, r1.num, r1.vpMapPoints, o.2.2, e2⟩
  else
    ⟨false, gScw, r1.num, r1.vpMapPoints, r1.vpMatchedMapPoints, e1⟩

/-- `LoopClosing::DetectCommonRegionsFromLastKF` (lines 782-787): the flag returned and the
vector `vpMPs` as rewritten by the projection search. -/
def DetectCommonRegionsFromLastKF (W : World SE3 Sim3) (pCurrentKF pMatchedKF : KeyFramePtr)
    (gScw : Sim3) : Bool × List MapPointPtr :=
  let r := FindMatchesByProjection W pCurrentKF pMatchedKF gScw
  (decide (r.num ≥ 30), r.vpMapPoints)

/-- The candidate selected so far by `DetectCommonRegionsFromBoW` (lines 518-523). -/
structure BoWBest (Sim3 : Type) where
  pBestMatchedKF : KeyFramePtr
  nBestMatchesReproj : Int
  nBestNumCoindicendes : Nat
  g2oBestScw : Sim3
  vpBestMapPoints : List MapPointPtr
  vpBestMatchedMapPoints : List MapPointPtr

/-- The variables written by the loop over the BoW matches (lines 582-595). -/
structure BoWMatches where
  spMatchedMPi : List MapPointPtr
  numBoWMatches : Nat
  vpMatchedPoints : List MapPointPtr
  vpKeyFrameMatchedMP : List KeyFramePtr

/-- The body of the loop of lines 582-595 for one `j`: `vvpMatchedMPs[j]` is `vpMatches`,
`vpCovKFi[j]` is `pKFj`. -/
def DetectCommonRegionsFromBoW.gather (W : World SE3 Sim3) (pKFj : KeyFramePtr)
    (vpMatches : List MapPointPtr) (acc : BoWMatches) : BoWMatches :=
  vpMatches.enum.foldl
    (fun (a : BoWMatches) (km : Nat × MapPointPtr) =>
      if km.2 = 0 ∨ W.isBadMP km.2 = true then a
      else if km.2 ∈ a.spMatchedMPi then a
      else
        { spMatchedMPi := km.2 :: a.spMatchedMPi
          numBoWMatches := a.numBoWMatches + 1
          vpMatchedPoints := a.vpMatchedPoints.set km.1 km.2
          vpKeyFrameMatchedMP := a.vpKeyFrameMatchedMP.set km.1 pKFj })
    acc

/-- The MapPoints of the KeyFrames of `vpCovKFi` with the KeyFrame each was first seen in
(lines 630-643). -/
def DetectCommonRegionsFromBoW.collect (W : World SE3 Sim3) (vpCovKFi : List KeyFramePtr) :
    List MapPointPtr × List KeyFramePtr :=
  vpCovKFi.foldl
    (fun st pCovKFi =>
      (W.GetMapPointMatches pCovKFi).foldl
        (fun (acc : List MapPointPtr × List KeyFramePtr) pCovMPij =>
          if pCovMPij = 0 ∨ W.isBadMP pCovMPij = true then acc
          else if pCovMPij ∈ acc.1 then acc else (acc.1 ++ [pCovMPij], acc.2 ++ [pCovKFi]))
        st)
    ([], [])

/-- The loop of lines 714-730 over the best covisible KeyFrames of the current KeyFrame: it
stops once `nNumKFs` is 3; each call rewrites `vpMapPoints`. -/
def DetectCommonRegionsFromBoW.consensus (G : Geometry SE3 Sim3 Vec3) (W : World SE3 Sim3)
    (mpCurrentKF pMostBoWMatchesKF : KeyFramePtr) (gScw : Sim3) :
    List KeyFramePtr → Nat × List MapPointPtr × List (Event Sim3) →
      Nat × List MapPointPtr × List (Event Sim3)
  | [], st => st
  | pKFj :: rest, (nNumKFs, vpMapPoints, ev) =>
    if nNumKFs < 3 then
      let gSjc := G.ofSE3 (G.seMul (W.GetPose pKFj) (W.GetPoseInverse mpCurrentKF))
      let gSjw := G.mul gSjc gScw
      let r := DetectCommonRegionsFromLastKF W pKFj pMostBoWMatchesKF gSjw
      DetectCommonRegionsFromBoW.consensus G W mpCurrentKF pMostBoWMatchesKF gScw rest
        (if r.1 = true then nNumKFs + 1 else nNumKFs, r.2,
          ev ++ [Event.SearchByProjection pKFj gSjw])
    else (nNumKFs, vpMapPoints, ev)

/-- The block "Geometric validation" of the loop over `vpBowCand` (lines 599-749) for the
candidate `pKFi`, entered with at least 20 BoW matches `bow`: the Sim3 solver, the projection
with the solved similarity, the optimisation, the projection with the optimised similarity,
the consensus of the covisible KeyFrames and the update of the best candidate.  The bounding
box of lines 681-706 and the stage counters are written and never read; they are left out. -/
def DetectCommonRegionsFromBoW.geometric (cfg : Config) (G : Geometry SE3 Sim3 Vec3)
    (W : World SE3 Sim3) (mpCurrentKF : KeyFramePtr) (pKFi : KeyFramePtr) (bow : BoWMatches)
    (st : BoWBest Sim3 × List (Event Sim3)) : BoWBest Sim3 × List (Event Sim3) :=
  let nSim3Inliers : Int := 20
  let nProjMatches : Int := 50
  let nProjOptMatches : Int := 100
  let nNumCovisibles := 10
  let pMostBoWMatchesKF := pKFi
  let bFixedScale := cfg.mbFixScale &&
    !(decide (cfg.mSensor = CameraType.IMU_MONOCULAR) &&
      !W.GetIniertialBA2 (W.GetMap mpCurrentKF))
  let solver := W.Sim3Solver mpCurrentKF pMostBoWMatchesKF bow.vpMatchedPoints bFixedScale
    bow.vpKeyFrameMatchedMP
  let e2 := st.2 ++ [Event.Sim3Solver mpCurrentKF pMostBoWMatchesKF bFixedScale]
  if solver.1 = true then
    let vpCovKFi2 :=
      W.GetBestCovisibilityKeyFrames pMostBoWMatchesKF nNumCovisibles ++ [pMostBoWMatchesKF]
    let pts := DetectCommonRegionsFromBoW.collect W vpCovKFi2
    let gScm := solver.2
    let gSmw := G.ofSE3 (W.GetPose pMostBoWMatchesKF)
    let gScw := G.mul gScm gSmw
    let p1 := W.SearchByProjectionKF mpCurrentKF gScw pts.1 pts.2 8 (3 / 2)
    let e3 := e2 ++ [Event.SearchByProjection mpCurrentKF gScw]
    if p1.1 ≥ nProjMatches then
      let o := W.OptimizeSim3 mpCurrentKF pKFi p1.2 gScm cfg.mbFixScale
      let e4 := e3 ++ [Event.OptimizeSim3 mpCurrentKF pKFi cfg.mbFixScale]
      if o.1 ≥ nSim3Inliers then
        let gScwOpt := G.mul o.2.1 gSmw
        let p2 := W.SearchByProjection mpCurrentKF gScwOpt pts.1 5 1
        let e5 := e4 ++ [Event.SearchByProjection mpCurrentKF gScwOpt]
        if p2.1 ≥ nProjOptMatches then
          let vpCurrentCovKFs := W.GetBestCovisibilityKeyFrames mpCurrentKF nNumCovisibles
          let c := DetectCommonRegionsFromBoW.consensus G W mpCurrentKF pMostBoWMatchesKF
            gScwOpt vpCurrentCovKFs (0, pts.1, e5)
          if st.1.nBestMatchesReproj < p2.1 then
            ({ pBestMatchedKF := pMostBoWMatchesKF
               nBestMatchesReproj := p2.1
               nBestNumCoindicendes := c.1
               g2oBestScw := gScwOpt
               vpBestMapPoints := c.2.1
               vpBestMatchedMapPoints := p2.2 }, c.2.2)
          else (st.1, c.2.2)
        else (st.1, e5)
      else (st.1, e4)
    else (st.1, e3)
  else (st.1, e2)

/-- The body of the loop over `vpBowCand` (lines 531-751) for the candidate `pKFi`: the
rejection of a candidate that is null or bad, the rejection of a candidate in the
neighbourhood of the current KeyFrame, the BoW matching, and, with 20 matches or more, the
geometric validation. -/
def DetectCommonRegionsFromBoW.candidate (cfg : Config) (G : Geometry SE3 Sim3 Vec3)
    (W : World SE3 Sim3) (mpCurrentKF : KeyFramePtr) (pKFi : KeyFramePtr)
    (st : BoWBest Sim3 × List (Event Sim3)) : BoWBest Sim3 × List (Event Sim3) :=
  let nBoWMatches := 20
  let nNumCovisibles := 10
  let spConnectedKeyFrames := W.GetConnectedKeyFrames mpCurrentKF
  if pKFi = 0 ∨ W.isBad pKFi = true then st
  else
    let vpCovKFi : List KeyFramePtr :=
      match W.GetBestCovisibilityKeyFrames pKFi nNumCovisibles with
      | [] => [pKFi]
      | c0 :: cs => pKFi :: cs ++ [c0]
    if vpCovKFi.any (fun k => decide (k ∈ spConnectedKeyFrames)) = true then st
    else
      let searched := vpCovKFi.filter (fun k => !(decide (k = 0) || W.isBad k))
      let e1 := st.2 ++ searched.map (fun k => Event.SearchByBoW mpCurrentKF k)
      let n := (W.GetMapPointMatches mpCurrentKF).length
      let bow := vpCovKFi.foldl
        (fun acc k =>
          DetectCommonRegionsFromBoW.gather W k
            (if k = 0 ∨ W.isBad k = true then [] else W.SearchByBoW mpCurrentKF k) acc)
        (BoWMatches.mk [] 0 (List.replicate n 0) (List.replicate n 0))
      if bow.numBoWMatches ≥ nBoWMatches then
        DetectCommonRegionsFromBoW.geometric cfg G W mpCurrentKF pKFi bow (st.1, e1)
      else (st.1, e1)

/-- The loop over `vpBowCand` (lines 531-751): the candidate selected and the calls made.
`pBestMatchedKF` is not initialised by the source and is read only after it was written. -/
def DetectCommonRegionsFromBoW.best (cfg : Config) (G : Geometry SE3 Sim3 Vec3)
    (W : World SE3 Sim3) (mpCurrentKF : KeyFramePtr) (vpBowCand : List KeyFramePtr) :
    BoWBest Sim3 × List (Event Sim3) :=
  vpBowCand.foldl
    (fun st pKFi => DetectCommonRegionsFromBoW.candidate cfg G W mpCurrentKF pKFi st)
    (⟨0, 0, 0, G.identity, [], []⟩, [])

/-- What `DetectCommonRegionsFromBoW` returns and leaves in its reference arguments. -/
structure BoWResult (Sim3 : Type) where
  ret : Bool
  pMatchedKF2 : KeyFramePtr
  pLastCurrentKF : KeyFramePtr
  g2oScw : Sim3
  nNumCoincidences : Nat
  vpMPs : List MapPointPtr
  vpMatchedMPs : List MapPointPtr
  events : List (Event Sim3)

/-- `LoopClosing::DetectCommonRegionsFromBoW` (lines 502-780).  The arguments after
`vpBowCand` are the values of the reference arguments at the call. -/
def DetectCommonRegionsFromBoW (cfg : Config) (G : Geometry SE3 Sim3 Vec3) (W : World SE3 Sim3)
    (mpCurrentKF : KeyFramePtr) (vpBowCand : List KeyFramePtr)
    (pMatchedKF2 pLastCurrentKF : KeyFramePtr) (g2oScw : Sim3) (nNumCoincidences : Nat)
    (vpMPs vpMatchedMPs : List MapPointPtr) : BoWResult Sim3 :=
  let r := DetectCommonRegionsFromBoW.best cfg G W mpCurrentKF vpBowCand
  let best := r.1
  if best.nBestMatchesReproj > 0 then
    { ret := decide (best.nBestNumCoindicendes ≥ 3)
      pMatchedKF2 := best.pBestMatchedKF
      pLastCurrentKF := mpCurrentKF
      g2oScw := best.g2oBestScw
      nNumCoincidences := best.nBestNumCoindicendes
      vpMPs := best.vpBestMapPoints
      vpMatchedMPs := best.vpBestMatchedMapPoints
      events := r.2 ++ [Event.SetNotErase best.pBestMatchedKF] }
  else
    { ret := false
      pMatchedKF2 := pMatchedKF2
      pLastCurrentKF := pLastCurrentKF
      g2oScw := g2oScw
      nNumCoincidences := nNumCoincidences
      vpMPs := vpMPs
      vpMatchedMPs := vpMatchedMPs
      events := r.2 }

/-- The prediction and the refinement of the loop track (lines 327-332): the similarity
predicted from the last verified KeyFrame, refined against `mpLoopMatchedKF`. -/
def NewDetectCommonRegions.loopRefine (cfg : Config) (G : Geometry SE3 Sim3 Vec3)
    (W : World SE3 Sim3) (s : State Sim3) : RefineResult Sim3 :=
  let mTcl := G.seMul (W.GetPose s.mpCurrentKF) (W.GetPoseInverse s.mpLoopLastCurrentKF)
  let gScl := G.ofSE3 mTcl
  let gScw := G.mul gScl s.mg2oLoopSlw
  DetectAndReffineSim3FromLastKF cfg G W s.mpCurrentKF s.mpCurrentKF s.mpLoopMatchedKF gScw

/-- The prediction and the refinement of the merge track (lines 367-373). -/
def NewDetectCommonRegions.mergeRefine (cfg : Config) (G : Geometry SE3 Sim3 Vec3)
    (W : World SE3 Sim3) (s : State Sim3) : RefineResult Sim3 :=
  let mTcl := G.seMul (W.GetPose s.mpCurrentKF) (W.GetPoseInverse s.mpMergeLastCurrentKF)
  let gScl := G.ofSE3 mTcl
  let gScw := G.mul gScl s.mg2oMergeSlw
  DetectAndReffineSim3FromLastKF cfg G W s.mpCurrentKF s.mpCurrentKF s.mpMergeMatchedKF gScw

/-- The loop track of `NewDetectCommonRegions` (lines 318-361): the flag `bLoopDetectedInKF`,
the members afterwards and the calls made.  `mvpLoopMPs` is the reference argument `vpMPs`
of the refinement. -/
def NewDetectCommonRegions.loopTrack (cfg : Config) (G : Geometry SE3 Sim3 Vec3)
    (W : World SE3 Sim3) (s : State Sim3) : Bool × State Sim3 × List (Event Sim3) :=
  if s.mnLoopNumCoincidences > 0 then
    let r := NewDetectCommonRegions.loopRefine cfg G W s
    if r.ret = true then
      (true,
        { s with
          mvpLoopMPs := r.vpMPs
          mnLoopNumCoincidences := s.mnLoopNumCoincidences + 1
          mpLoopLastCurrentKF := s.mpCurrentKF
          mg2oLoopSlw := r.gScw
          mvpLoopMatchedMPs := r.vpMatchedMPs
          mbLoopDetected := decide (s.mnLoopNumCoincidences + 1 ≥ 3)
          mnLoopNumNotFound := 0 },
        r.events ++ [Event.SetErase s.mpLoopLastCurrentKF])
    else
      if s.mnLoopNumNotFound + 1 ≥ 2 then
        (false,
          { s with
            mnLoopNumCoincidences := 0
            mvpLoopMatchedMPs := []
            mvpLoopMPs := []
            mnLoopNumNotFound := 0 },
          r.events ++ [Event.SetErase s.mpLoopLastCurrentKF, Event.SetErase s.mpLoopMatchedKF])
      else
        (false,
          { s with
            mvpLoopMPs := r.vpMPs
            mnLoopNumNotFound := s.mnLoopNumNotFound + 1 },
          r.events)
  else (false, s, [])

/-- The merge track of `NewDetectCommonRegions` (lines 363-399): the flag `bMergeDetectedInKF`,
the members afterwards and the calls made.  `mvpMergeMPs` is the reference argument `vpMPs`
of the refinement. -/
def NewDetectCommonRegions.mergeTrack (cfg : Config) (G : Geometry SE3 Sim3 Vec3)
    (W : World SE3 Sim3) (s : State Sim3) : Bool × State Sim3 × List (Event Sim3) :=
  if s.mnMergeNumCoincidences > 0 then
    let r := NewDetectCommonRegions.mergeRefine cfg G W s
    if r.ret = true then
      (true,
        { s with
          mvpMergeMPs := r.vpMPs
          mnMergeNumCoincidences := s.mnMergeNumCoincidences + 1
          mpMergeLastCurrentKF := s.mpCurrentKF
          mg2oMergeSlw := r.gScw
          mvpMergeMatchedMPs := r.vpMatchedMPs
          mbMergeDetected := decide (s.mnMergeNumCoincidences + 1 ≥ 3) },
        r.events ++ [Event.SetErase s.mpMergeLastCurrentKF])
    else
      if s.mnMergeNumNotFound + 1 ≥ 2 then
        (false,
          { s with
            mbMergeDetected := false
            mnMergeNumCoincidences := 0
            mvpMergeMatchedMPs := []
            mvpMergeMPs := []
            mvpMergeConnectedKFs := []
            mnMergeNumNotFound := 0 },
          r.events ++
            [Event.SetErase s.mpMergeLastCurrentKF, Event.SetErase s.mpMergeMatchedKF])
      else
        (false,
          { s with
            mvpMergeMPs := r.vpMPs
            mbMergeDetected := false
            mnMergeNumNotFound := s.mnMergeNumNotFound + 1 },
          r.events)
  else (false, s, [])

/-- The fresh search of the loop track (lines 438-440). -/
def NewDetectCommonRegions.loopBoW (cfg : Config) (G : Geometry SE3 Sim3 Vec3)
    (W : World SE3 Sim3) (vpLoopBowCand : List KeyFramePtr) (s : State Sim3) :
    State Sim3 × List (Event Sim3) :=
  let r := DetectCommonRegionsFromBoW cfg G W s.mpCurrentKF vpLoopBowCand s.mpLoopMatchedKF
    s.mpLoopLastCurrentKF s.mg2oLoopSlw s.mnLoopNumCoincidences s.mvpLoopMPs s.mvpLoopMatchedMPs
  ({ s with
      mbLoopDetected := r.ret
      mpLoopMatchedKF := r.pMatchedKF2
      mpLoopLastCurrentKF := r.pLastCurrentKF
      mg2oLoopSlw := r.g2oScw
      mnLoopNumCoincidences := r.nNumCoincidences
      mvpLoopMPs := r.vpMPs
      mvpLoopMatchedMPs := r.vpMatchedMPs },
    r.events)

/-- The fresh search of the merge track (lines 442-444). -/
def NewDetectCommonRegions.mergeBoW (cfg : Config) (G : Geometry SE3 Sim3 Vec3)
    (W : World SE3 Sim3) (vpMergeBowCand : List KeyFramePtr) (s : State Sim3) :
    State Sim3 × List (Event Sim3) :=
  let r := DetectCommonRegionsFromBoW cfg G W s.mpCurrentKF vpMergeBowCand s.mpMergeMatchedKF
    s.mpMergeLastCurrentKF s.mg2oMergeSlw s.mnMergeNumCoincidences s.mvpMergeMPs
    s.mvpMergeMatchedMPs
  ({ s with
      mbMergeDetected := r.ret
      mpMergeMatchedKF := r.pMatchedKF2
      mpMergeLastCurrentKF := r.pLastCurrentKF
      mg2oMergeSlw := r.g2oScw
      mnMergeNumCoincidences := r.nNumCoincidences
      mvpMergeMPs := r.vpMPs
      mvpMergeMatchedMPs := r.vpMatchedMPs },
    r.events)

/-- The part of `NewDetectCommonRegions` after the three early exits (lines 316-461), for the
dequeued KeyFrame `s.mpCurrentKF`. -/
def NewDetectCommonRegions.detect (cfg : Config) (G : Geometry SE3 Sim3 Vec3)
    (W : World SE3 Sim3) (s : State Sim3) : Bool × State Sim3 × List (Event Sim3) :=
  let l := NewDetectCommonRegions.loopTrack cfg G W s
  let bLoopDetectedInKF := l.1
  let m := NewDetectCommonRegions.mergeTrack cfg G W l.2.1
  let bMergeDetectedInKF := m.1
  let s2 := m.2.1
  let e2 := l.2.2 ++ m.2.2
  if s2.mbMergeDetected = true ∨ s2.mbLoopDetected = true then
    (true, s2, e2 ++ [Event.KeyFrameDB_add s2.mpCurrentKF])
  else
    let cand : List KeyFramePtr × List KeyFramePtr :=
      if bMergeDetectedInKF = false ∨ bLoopDetectedInKF = false then
        W.DetectNBestCandidates s2.mpCurrentKF
      else ([], [])
    let vpLoopBowCand := cand.1
    let vpMergeBowCand := cand.2
    let lb :=
      if bLoopDetectedInKF = false ∧ vpLoopBowCand ≠ [] then
        NewDetectCommonRegions.loopBoW cfg G W vpLoopBowCand s2
      else (s2, [])
    let mb :=
      if bMergeDetectedInKF = false ∧ vpMergeBowCand ≠ [] then
        NewDetectCommonRegions.mergeBoW cfg G W vpMergeBowCand lb.1
      else (lb.1, [])
    let s4 := mb.1
    let e4 := e2 ++ lb.2 ++ mb.2 ++ [Event.KeyFrameDB_add s4.mpCurrentKF]
    if s4.mbMergeDetected = true ∨ s4.mbLoopDetected = true then (true, s4, e4)
    else (false, s4, e4 ++ [Event.SetErase s4.mpCurrentKF])

/-- The members once the front `pKF` of the queue is taken (lines 284-292), `rest` being the
queue behind it. -/
def NewDetectCommonRegions.dequeue (W : World SE3 Sim3) (pKF : KeyFramePtr)
    (rest : List KeyFramePtr) (s : State Sim3) : State Sim3 :=
  { s with mpCurrentKF := pKF, mlpLoopKeyFrameQueue := rest, mpLastMap := W.GetMap pKF }

/-- `LoopClosing::NewDetectCommonRegions` (lines 279-461).  `front()` of an empty queue is
not defined; `Run` calls the function only after `CheckNewKeyFrames`, and the members are
left as they are in that case. -/
def NewDetectCommonRegions (cfg : Config) (G : Geometry SE3 Sim3 Vec3) (W : World SE3 Sim3)
    (s : State Sim3) : Bool × State Sim3 × List (Event Sim3) :=
  if cfg.mbActiveLC = false then (false, s, [])
  else
    match s.mlpLoopKeyFrameQueue with
    | [] => (false, s, [])
    | pKF :: rest =>
      let s1 := NewDetectCommonRegions.dequeue W pKF rest s
      let e1 : List (Event Sim3) := [Event.SetNotErase pKF]
      let skip : List (Event Sim3) := e1 ++ [Event.KeyFrameDB_add pKF, Event.SetErase pKF]
      if cfg.mbInertial = true ∧ W.GetIniertialBA2 s1.mpLastMap = false then (false, s1, skip)
      else if cfg.mSensor = CameraType.STEREO ∧ W.numKeyFrames s1.mpLastMap < 5 then
        (false, s1, skip)
      else if W.numKeyFrames s1.mpLastMap < 12 then (false, s1, skip)
      else
        let d := NewDetectCommonRegions.detect cfg G W s1
        (d.1, d.2.1, e1 ++ d.2.2)

end Detector

section Worker

variable {SE3 Sim3 Vec3 : Type}

/-- The state built by the constructor (lines 36-72).  The KeyFrame pointers of the two
tracks and the similarities are not in the initialiser list; they are taken as `nullptr`
and as default-constructed. -/
def LoopClosing (G : Geometry SE3 Sim3 Vec3) : State Sim3 :=
  { mlpLoopKeyFrameQueue := []
    mpCurrentKF := 0
    mpLastCurrentKF := 0
    mpLastMap := 0
    mbLoopDetected := false
    mnLoopNumCoincidences := 0
    mnLoopNumNotFound := 0
    mpLoopLastCurrentKF := 0
    mpLoopMatchedKF := 0
    mg2oLoopSlw := G.identity
    mg2oLoopScw := G.identity
    mvpLoopMPs := []
    mvpLoopMatchedMPs := []
    mvpLoopMapPoints := []
    mbMergeDetected := false
    mnMergeNumCoincidences := 0
    mnMergeNumNotFound := 0
    mpMergeLastCurrentKF := 0
    mpMergeMatchedKF := 0
    mg2oMergeSlw := G.identity
    mg2oMergeSmw := G.identity
    mg2oMergeScw := G.identity
    mSold_new := G.identity
    mvpMergeMPs := []
    mvpMergeMatchedMPs := []
    mvpMergeConnectedKFs := []
    mnNumCorrection := 0
    mbResetRequested := false
    mbResetActiveMapRequested := false
    mpMapToReset := 0
    mbFinishRequested := false
    mbFinished := true }

/-- `LoopClosing::InsertKeyFrame` (lines 269-272). -/
def InsertKeyFrame (W : World SE3 Sim3) (pKF : KeyFramePtr) (s : State Sim3) : State Sim3 :=
  if W.mnId pKF ≠ 0 then { s with mlpLoopKeyFrameQueue := s.mlpLoopKeyFrameQueue ++ [pKF] }
  else s

/-- `LoopClosing::CheckNewKeyFrames` (lines 274-277). -/
def CheckNewKeyFrames (s : State Sim3) : Bool :=
  !s.mlpLoopKeyFrameQueue.isEmpty

/-- The erase loop of `ResetIfRequested` (lines 1945-1951). -/
def ResetIfRequested.eraseLoop (W : World SE3 Sim3) (mpMapToReset : MapPtr) :
    List KeyFramePtr → List KeyFramePtr
  | [] => []
  | pKFi :: rest =>
    if W.GetMap pKFi = mpMapToReset then ResetIfRequested.eraseLoop W mpMapToReset rest
    else pKFi :: ResetIfRequested.eraseLoop W mpMapToReset rest

/-- `LoopClosing::ResetIfRequested` (lines 1937-1955). -/
def ResetIfRequested (W : World SE3 Sim3) (s : State Sim3) : State Sim3 :=
  if s.mbResetRequested = true then
    { s with
      mlpLoopKeyFrameQueue := []
      mbResetRequested := false
      mbResetActiveMapRequested := false }
  else if s.mbResetActiveMapRequested = true then
    { s with
      mlpLoopKeyFrameQueue :=
        ResetIfRequested.eraseLoop W s.mpMapToReset s.mlpLoopKeyFrameQueue
      mbResetActiveMapRequested := false }
  else s

/-- The block "Reset all variables" of the merge track in `Run` (lines 119-126, 173-180). -/
def Run.resetMerge (s : State Sim3) : State Sim3 × List (Event Sim3) :=
  ({ s with
      mnMergeNumCoincidences := 0
      mvpMergeMatchedMPs := []
      mvpMergeMPs := []
      mvpMergeConnectedKFs := []
      mnMergeNumNotFound := 0
      mbMergeDetected := false },
    [Event.SetErase s.mpMergeLastCurrentKF, Event.SetErase s.mpMergeMatchedKF])

/-- The block "Reset Loop variables" of `Run` (lines 184-190, 245-251). -/
def Run.resetLoop (s : State Sim3) : State Sim3 × List (Event Sim3) :=
  ({ s with
      mnLoopNumCoincidences := 0
      mvpLoopMatchedMPs := []
      mvpLoopMPs := []
      mnLoopNumNotFound := 0
      mbLoopDetected := false },
    [Event.SetErase s.mpLoopLastCurrentKF, Event.SetErase s.mpLoopMatchedKF])

/-- The test `mSensor == IMU_MONOCULAR || mSensor == IMU_STEREO || mSensor == IMU_RGBD`. -/
def isImuSensor (c : CameraType) : Bool :=
  decide (c = CameraType.IMU_MONOCULAR) || decide (c = CameraType.IMU_STEREO) ||
    decide (c = CameraType.IMU_RGBD)

/-- Lines 168-191 of `Run`: the merge variables are reset, and the loop variables too when
a loop is detected. -/
def Run.afterMerge (s : State Sim3) : State Sim3 × List (Event Sim3) :=
  let m := Run.resetMerge s
  if m.1.mbLoopDetected = true then
    let l := Run.resetLoop m.1
    (l.1, m.2 ++ l.2)
  else m

/-- The similarity assigned to `mSold_new` (lines 109-114): `mg2oMergeSlw.inverse()` times
the pose of the current KeyFrame as a similarity of scale 1. -/
def Run.mSold_new (G : Geometry SE3 Sim3 Vec3) (W : World SE3 Sim3) (s : State Sim3) : Sim3 :=
  G.mul (G.inverse s.mg2oMergeSlw) (G.ofSE3 (W.GetPose s.mpCurrentKF))

/-- The test of line 118: `S.scale() < 0.90 || S.scale() > 1.1`. -/
def Run.badScale (G : Geometry SE3 Sim3 Vec3) (S : Sim3) : Prop :=
  G.scale S < 9 / 10 ∨ G.scale S > 11 / 10

instance Run.badScale.decidable (G : Geometry SE3 Sim3 Vec3) (S : Sim3) :
    Decidable (Run.badScale G S) :=
  inferInstanceAs (Decidable (G.scale S < 9 / 10 ∨ G.scale S > 11 / 10))

/-- The similarity `g2oSww_new` of the loop check (lines 204-206). -/
def Run.g2oSww_new (G : Geometry SE3 Sim3 Vec3) (W : World SE3 Sim3) (s : State Sim3) : Sim3 :=
  G.mul (G.ofSE3 (W.GetPoseInverse s.mpCurrentKF)) s.mg2oLoopSlw

/-- The test of line 210 on `phi = LogSO3(S.rotation())`:
`fabs(phi(0)) < 0.008f && fabs(phi(1)) < 0.008f && fabs(phi(2)) < 0.349f`. -/
def Run.goodRotation (G : Geometry SE3 Sim3 Vec3) (S : Sim3) : Prop :=
  |(G.LogSO3 S).1| < 8 / 1000 ∧ |(G.LogSO3 S).2.1| < 8 / 1000 ∧ |(G.LogSO3 S).2.2| < 349 / 1000

instance Run.goodRotation.decidable (G : Geometry SE3 Sim3 Vec3) (S : Sim3) :
    Decidable (Run.goodRotation G S) :=
  inferInstanceAs (Decidable (|(G.LogSO3 S).1| < 8 / 1000 ∧ |(G.LogSO3 S).2.1| < 8 / 1000 ∧
    |(G.LogSO3 S).2.2| < 349 / 1000))

/-- The branch `if (mbMergeDetected)` of `Run` (lines 103-192).  The flag returned is true
when the branch leaves the iteration through `continue` (line 128).  `MergeLocal2` appends
to `mvpMergeConnectedKFs` (lines 1704-1708); no other member of `State` is written by the
merge functions. -/
def Run.mergeDetected (cfg : Config) (G : Geometry SE3 Sim3 Vec3) (W : World SE3 Sim3)
    (s : State Sim3) : State Sim3 × List (Event Sim3) × Bool :=
  if cfg.mbInertial = true ∧ W.isImuInitialized (W.GetMap s.mpCurrentKF) = false then
    let r := Run.afterMerge s
    (r.1, r.2, false)
  else
    let gSmw2 := G.ofSE3 (W.GetPose s.mpMergeMatchedKF)
    let gScw1 := G.ofSE3 (W.GetPose s.mpCurrentKF)
    let gSw2c := G.inverse s.mg2oMergeSlw
    let s1 : State Sim3 := { s with mSold_new := Run.mSold_new G W s }
    if cfg.mbInertial = true ∧ Run.badScale G s1.mSold_new then
      let r := Run.resetMerge s1
      (r.1, r.2, true)
    else
      let s2 : State Sim3 :=
        if cfg.mbInertial = true ∧ isImuSensor cfg.mSensor = true ∧
            W.GetIniertialBA1 (W.GetMap s1.mpCurrentKF) = true then
          { s1 with mSold_new := G.yawOnly s1.mSold_new }
        else s1
      let s3 : State Sim3 :=
        { s2 with
          mg2oMergeSmw := G.mul (G.mul gSmw2 gSw2c) gScw1
          mg2oMergeScw := s2.mg2oMergeSlw }
      let call : State Sim3 × List (Event Sim3) :=
        if isImuSensor cfg.mSensor = true then
          ({ s3 with
              mvpMergeConnectedKFs :=
                (s3.mvpMergeConnectedKFs ++ [s3.mpMergeMatchedKF] ++
                  W.GetVectorCovisibleKeyFrames s3.mpMergeMatchedKF).take 6 },
            [Event.MergeLocal2 s3.mnMergeNumCoincidences])
        else (s3, [Event.MergeLocal s3.mnMergeNumCoincidences])
      let r := Run.afterMerge call.1
      (r.1, call.2 ++ r.2, false)

/-- The branch `if (mbLoopDetected)` of `Run` (lines 194-252). -/
def Run.loopDetected (cfg : Config) (G : Geometry SE3 Sim3 Vec3) (W : World SE3 Sim3)
    (s : State Sim3) : State Sim3 × List (Event Sim3) :=
  let s1 : State Sim3 := { s with mg2oLoopScw := s.mg2oLoopSlw }
  let g2oTwc := G.ofSE3 (W.GetPoseInverse s1.mpCurrentKF)
  let g2oSww_new := Run.g2oSww_new G W s
  let good : Bool × State Sim3 :=
    if cfg.mbInertial = true then
      if Run.goodRotation G g2oSww_new then
        if W.GetIniertialBA2 (W.GetMap s1.mpCurrentKF) = true then
          (true, { s1 with mg2oLoopScw := G.mul (G.inverse g2oTwc) (G.yawOnly g2oSww_new) })
        else (true, s1)
      else (false, s1)
    else (true, s1)
  let c : State Sim3 × List (Event Sim3) :=
    if good.1 = true then
      ({ good.2 with
          mvpLoopMapPoints := good.2.mvpLoopMPs
          mnNumCorrection := good.2.mnNumCorrection + 1 },
        [Event.CorrectLoop good.2.mnLoopNumCoincidences])
    else (good.2, [])
  let r := Run.resetLoop c.1
  (r.1, c.2 ++ r.2)

/-- The block `if (CheckNewKeyFrames())` of `Run` (lines 86-255).  The flag returned is true
when the block is left through `continue`. -/
def Run.process (cfg : Config) (G : Geometry SE3 Sim3 Vec3) (W : World SE3 Sim3)
    (s : State Sim3) : State Sim3 × List (Event Sim3) × Bool :=
  let e0 : List (Event Sim3) :=
    if s.mpLastCurrentKF ≠ 0 then [Event.ClearCandKFs s.mpLastCurrentKF] else []
  let d := NewDetectCommonRegions cfg G W s
  let bFindedRegion := d.1
  if bFindedRegion = true then
    let m : State Sim3 × List (Event Sim3) × Bool :=
      if d.2.1.mbMergeDetected = true then Run.mergeDetected cfg G W d.2.1
      else (d.2.1, [], false)
    if m.2.2 = true then (m.1, e0 ++ d.2.2 ++ m.2.1, true)
    else
      let l : State Sim3 × List (Event Sim3) :=
        if m.1.mbLoopDetected = true then Run.loopDetected cfg G W m.1 else (m.1, [])
      ({ l.1 with mpLastCurrentKF := l.1.mpCurrentKF }, e0 ++ d.2.2 ++ m.2.1 ++ l.2, false)
  else
    ({ d.2.1 with mpLastCurrentKF := d.2.1.mpCurrentKF }, e0 ++ d.2.2, false)

/-- One pass through the body of `while (1)` in `Run` (lines 81-264): the members afterwards,
the calls made, and whether the loop is left through `break`. -/
def Run.iteration (cfg : Config) (G : Geometry SE3 Sim3 Vec3) (W : World SE3 Sim3)
    (s : State Sim3) : State Sim3 × List (Event Sim3) × Bool :=
  let p : State Sim3 × List (Event Sim3) × Bool :=
    if CheckNewKeyFrames s = true then Run.process cfg G W s else (s, [], false)
  if p.2.2 = true then (p.1, p.2.1, false)
  else
    let s1 := ResetIfRequested W p.1
    (s1, p.2.1, s1.mbFinishRequested)

/-- What happens around one pass of the worker: the KeyFrames handed to `InsertKeyFrame` by
the local mapper since the previous pass, and the values the collaborators return. -/
structure Tick (SE3 Sim3 : Type) where
  inserted : List KeyFramePtr
  world : World SE3 Sim3

/-- The passes of `while (1)` in `Run`, one per element of the list. -/
def Run.passes (cfg : Config) (G : Geometry SE3 Sim3 Vec3) :
    List (Tick SE3 Sim3) → State Sim3 → State Sim3 × List (Event Sim3)
  | [], s => (s, [])
  | t :: ts, s =>
    let s0 := t.inserted.foldl (fun st pKF => InsertKeyFrame t.world pKF st) s
    let r := Run.iteration cfg G t.world s0
    if r.2.2 = true then ({ r.1 with mbFinished := true }, r.2.1)
    else
      let rest := Run.passes cfg G ts r.1
      (rest.1, r.2.1 ++ rest.2)

/-- `LoopClosing::Run` (lines 78-267), for as many passes as the list has elements. -/
def Run (cfg : Config) (G : Geometry SE3 Sim3 Vec3) (ticks : List (Tick SE3 Sim3))
    (s : State Sim3) : State Sim3 × List (Event Sim3) :=
  Run.passes cfg G ticks { s with mbFinished := false }

end Worker

section Tracks

variable {SE3 Sim3 Vec3 : Type}

/-- The two tracks of the detector. -/
inductive Track
  | Loop
  | Merge
  deriving DecidableEq, Repr

/-- The detection state of one track, with the field names of the data model. -/
structure DetectionState (Sim3 : Type) where
  num_coincidences : Nat
  num_not_found : Nat
  matched_kf : KeyFramePtr
  last_current_kf : KeyFramePtr
  Sim3_last_w : Sim3
  map_points : List MapPointPtr
  matched_map_points : List MapPointPtr
  detected : Bool

/-- The members of `LoopClosing` that hold the detection state of a track. -/
def State.track (s : State Sim3) : Track → DetectionState Sim3
  | Track.Loop =>
    { num_coincidences := s.mnLoopNumCoincidences
      num_not_found := s.mnLoopNumNotFound
      matched_kf := s.mpLoopMatchedKF
      last_current_kf := s.mpLoopLastCurrentKF
      Sim3_last_w := s.mg2oLoopSlw
      map_points := s.mvpLoopMPs
      matched_map_points := s.mvpLoopMatchedMPs
      detected := s.mbLoopDetected }
  | Track.Merge =>
    { num_coincidences := s.mnMergeNumCoincidences
      num_not_found := s.mnMergeNumNotFound
      matched_kf := s.mpMergeMatchedKF
      last_current_kf := s.mpMergeLastCurrentKF
      Sim3_last_w := s.mg2oMergeSlw
      map_points := s.mvpMergeMPs
      matched_map_points := s.mvpMergeMatchedMPs
      detected := s.mbMergeDetected }

/-- The refinement a track runs for the current KeyFrame. -/
def NewDetectCommonRegions.refine (cfg : Config) (G : Geometry SE3 Sim3 Vec3)
    (W : World SE3 Sim3) : Track → State Sim3 → RefineResult Sim3
  | Track.Loop => NewDetectCommonRegions.loopRefine cfg G W
  | Track.Merge => NewDetectCommonRegions.mergeRefine cfg G W

/-- The track step of a track. -/
def NewDetectCommonRegions.trackStep (cfg : Config) (G : Geometry SE3 Sim3 Vec3)
    (W : World SE3 Sim3) : Track → State Sim3 → Bool × State Sim3 × List (Event Sim3)
  | Track.Loop => NewDetectCommonRegions.loopTrack cfg G W
  | Track.Merge => NewDetectCommonRegions.mergeTrack cfg G W

/-- The BoW candidates of a track for the KeyFrame `pKF`. -/
def World.bowCandidates (W : World SE3 Sim3) (pKF : KeyFramePtr) : Track → List KeyFramePtr
  | Track.Loop => (W.DetectNBestCandidates pKF).1
  | Track.Merge => (W.DetectNBestCandidates pKF).2

/-- The three conditions under which `NewDetectCommonRegions` leaves before any detection
(lines 294-312), for the map `pMap` of the dequeued KeyFrame. -/
def NewDetectCommonRegions.skips (cfg : Config) (W : World SE3 Sim3) (pMap : MapPtr) : Prop :=
  (cfg.mbInertial = true ∧ W.GetIniertialBA2 pMap = false) ∨
    (cfg.mSensor = CameraType.STEREO ∧ W.numKeyFrames pMap < 5) ∨
    W.numKeyFrames pMap < 12

instance NewDetectCommonRegions.skips.decidable (cfg : Config) (W : World SE3 Sim3)
    (pMap : MapPtr) : Decidable (NewDetectCommonRegions.skips cfg W pMap) :=
  inferInstanceAs (Decidable ((cfg.mbInertial = true ∧ W.GetIniertialBA2 pMap = false) ∨
    (cfg.mSensor = CameraType.STEREO ∧ W.numKeyFrames pMap < 5) ∨
    W.numKeyFrames pMap < 12))

/-- The calls that commit a detection: `CorrectLoop`, `MergeLocal`, `MergeLocal2`. -/
def Event.isCommit : Event Sim3 → Bool
  | Event.CorrectLoop _ => true
  | Event.MergeLocal _ => true
  | Event.MergeLocal2 _ => true
  | _ => false

/-- The calls that commit a merge: `MergeLocal`, `MergeLocal2`. -/
def Event.isMerge : Event Sim3 → Bool
  | Event.MergeLocal _ => true
  | Event.MergeLocal2 _ => true
  | _ => false

/-- The call that commits a loop: `CorrectLoop`. -/
def Event.isCorrectLoop : Event Sim3 → Bool
  | Event.CorrectLoop _ => true
  | _ => false

end Tracks

section LoopCorrector

variable {SE3 Sim3 Vec3 : Type}

/-- The type `KeyFrameAndPose`, a `std::map<KeyFrame*, g2o::Sim3>`: the entries in the
order of their keys. -/
abbrev KeyFrameAndPose (Sim3 : Type) := List (KeyFramePtr × Sim3)

/-- The assignment `m[k] = v` on a `std::map`: the entry of `k` is replaced, or inserted at
its place in the order of the keys. -/
def KeyFrameAndPose.assign : KeyFrameAndPose Sim3 → KeyFramePtr → Sim3 → KeyFrameAndPose Sim3
  | [], k, v => [(k, v)]
  | (k0, v0) :: rest, k, v =>
    if k < k0 then (k, v) :: (k0, v0) :: rest
    else if k = k0 then (k, v) :: rest
    else (k0, v0) :: KeyFrameAndPose.assign rest k v

/-- The fields of a `MapPoint` written by the correction of `CorrectLoop`. -/
structure MapPointFields (Vec3 : Type) where
  /-- `GetWorldPos()` / `SetWorldPos()`. -/
  mWorldPos : Vec3
  mnCorrectedByKF : Nat
  mnCorrectedReference : Nat

/-- The poses of the KeyFrames and the fields of the MapPoints. -/
structure Entities (SE3 Vec3 : Type) where
  /-- `pKF->GetPose()` / `pKF->SetPose()`. -/
  Tcw : KeyFramePtr → SE3
  mapPoint : MapPointPtr → MapPointFields Vec3

/-- The similarities and entities after a part of `CorrectLoop`. -/
structure Propagation (SE3 Sim3 Vec3 : Type) where
  CorrectedSim3 : KeyFrameAndPose Sim3
  NonCorrectedSim3 : KeyFrameAndPose Sim3
  entities : Entities SE3 Vec3

/-- The body of the loop over `mvpCurrentConnectedKFs` (lines 905-924) for `pKFi`: the
corrected similarity is propagated from the current KeyFrame, the pose is overwritten, the
pose before the correction is kept. -/
def CorrectLoop.propagateKeyFrame (G : Geometry SE3 Sim3 Vec3) (mpCurrentKF : KeyFramePtr)
    (Twc : SE3) (mg2oLoopScw : Sim3) (P : Propagation SE3 Sim3 Vec3) (pKFi : KeyFramePtr) :
    Propagation SE3 Sim3 Vec3 :=
  if pKFi ≠ mpCurrentKF then
    let Tiw := P.entities.Tcw pKFi
    let Tic := G.seMul Tiw Twc
    let g2oSic := G.ofSE3 Tic
    let g2oCorrectedSiw := G.mul g2oSic mg2oLoopScw
    let correctedTiw := G.toSE3 g2oCorrectedSiw
    let g2oSiw := G.ofSE3 Tiw
    { CorrectedSim3 := P.CorrectedSim3.assign pKFi g2oCorrectedSiw
      NonCorrectedSim3 := P.NonCorrectedSim3.assign pKFi g2oSiw
      entities := { P.entities with Tcw := Function.update P.entities.Tcw pKFi correctedTiw } }
  else P

/-- Lines 864-924 of `CorrectLoop`: the connected KeyFrames of the current KeyFrame (as
they are after its `UpdateConnections`) and the current KeyFrame itself get a corrected
similarity and a corrected pose. `Twc` is `mpCurrentKF->GetPoseInverse()` at line 876. -/
def CorrectLoop.propagatePoses (G : Geometry SE3 Sim3 Vec3) (W : World SE3 Sim3)
    (mpCurrentKF : KeyFramePtr) (mg2oLoopScw : Sim3) (E : Entities SE3 Vec3) :
    Propagation SE3 Sim3 Vec3 :=
  let mvpCurrentConnectedKFs := W.GetVectorCovisibleKeyFrames mpCurrentKF ++ [mpCurrentKF]
  let Twc := W.GetPoseInverse mpCurrentKF
  let g2oScw := G.ofSE3 (E.Tcw mpCurrentKF)
  let P0 : Propagation SE3 Sim3 Vec3 :=
    { CorrectedSim3 := KeyFrameAndPose.assign [] mpCurrentKF mg2oLoopScw
      NonCorrectedSim3 := KeyFrameAndPose.assign [] mpCurrentKF g2oScw
      entities := { E with Tcw := Function.update E.Tcw mpCurrentKF (G.toSE3 mg2oLoopScw) } }
  mvpCurrentConnectedKFs.foldl (CorrectLoop.propagateKeyFrame G mpCurrentKF Twc mg2oLoopScw) P0

/-- The body of the loop over the MapPoints of a KeyFrame (lines 940-952) for `pMPi`: a
MapPoint that is null, bad or stamped with the current KeyFrame is skipped; any other is
mapped with the pose before the correction and back with the corrected pose, and stamped. -/
def CorrectLoop.correctMapPoint (G : Geometry SE3 Sim3 Vec3) (W : World SE3 Sim3)
    (mpCurrentKF pKFi : KeyFramePtr) (g2oCorrectedSwi g2oSiw : Sim3) (E : Entities SE3 Vec3)
    (pMPi : MapPointPtr) : Entities SE3 Vec3 :=
  if pMPi = 0 then E
  else if W.isBadMP pMPi = true then E
  else if (E.mapPoint pMPi).mnCorrectedByKF = W.mnId mpCurrentKF then E
  else
    let P3Dw := (E.mapPoint pMPi).mWorldPos
    let eigCorrectedP3Dw := G.map g2oCorrectedSwi (G.map g2oSiw P3Dw)
    { E with
      mapPoint := Function.update E.mapPoint pMPi
        { mWorldPos := eigCorrectedP3Dw
          mnCorrectedByKF := W.mnId mpCurrentKF
          mnCorrectedReference := W.mnId pKFi } }

/-- The body of the loop over `CorrectedSim3` (lines 927-963) for the entry `mit`.
`NonCorrectedSim3[pKFi]` is read with `operator[]`, which yields a default-constructed
similarity for a key that is absent. The velocity and the connections of the KeyFrame are
not among the fields of `Entities`. -/
def CorrectLoop.correctKeyFrame (G : Geometry SE3 Sim3 Vec3) (W : World SE3 Sim3)
    (mpCurrentKF : KeyFramePtr) (NonCorrectedSim3 : KeyFrameAndPose Sim3)
    (E : Entities SE3 Vec3) (mit : KeyFramePtr × Sim3) : Entities SE3 Vec3 :=
  let pKFi := mit.1
  let g2oCorrectedSiw := mit.2
  let g2oCorrectedSwi := G.inverse g2oCorrectedSiw
  let g2oSiw := (NonCorrectedSim3.lookup pKFi).getD G.identity
  (W.GetMapPointMatches pKFi).foldl
    (CorrectLoop.correctMapPoint G W mpCurrentKF pKFi g2oCorrectedSwi g2oSiw) E

/-- The correction of the MapPoints in `CorrectLoop` (lines 926-963): the loop over
`CorrectedSim3` in the order of its keys. -/
def CorrectLoop.correctMapPoints (G : Geometry SE3 Sim3 Vec3) (W : World SE3 Sim3)
    (mpCurrentKF : KeyFramePtr) (CorrectedSim3 NonCorrectedSim3 : KeyFrameAndPose Sim3)
    (E : Entities SE3 Vec3) : Entities SE3 Vec3 :=
  CorrectedSim3.foldl (CorrectLoop.correctKeyFrame G W mpCurrentKF NonCorrectedSim3) E

/-- Lines 864-963 of `CorrectLoop`: the propagation of the corrected poses, then the
correction of the MapPoints. -/
def CorrectLoop.propagate (G : Geometry SE3 Sim3 Vec3) (W : World SE3 Sim3)
    (mpCurrentKF : KeyFramePtr) (mg2oLoopScw : Sim3) (E : Entities SE3 Vec3) :
    Propagation SE3 Sim3 Vec3 :=
  let P := CorrectLoop.propagatePoses G W mpCurrentKF mg2oLoopScw E
  { P with
    entities := CorrectLoop.correctMapPoints G W mpCurrentKF P.CorrectedSim3
      P.NonCorrectedSim3 P.entities }

end LoopCorrector

section MapMerger

variable {SE3 Sim3 : Type}

/-- The maps of the Atlas as far as `MergeLocal` moves entities between them: the KeyFrames
and MapPoints each map holds, the map each entity names as its own, the current map of the
Atlas and the maps marked bad. -/
structure AtlasState where
  /-- `pMap->GetAllKeyFrames()`, as a set. -/
  mspKeyFrames : MapPtr → Finset KeyFramePtr
  /-- `pMap->GetAllMapPoints()`, as a set. -/
  mspMapPoints : MapPtr → Finset MapPointPtr
  /-- `pKF->GetMap()`. -/
  kfMap : KeyFramePtr → MapPtr
  /-- `pMP->GetMap()`. -/
  mpMap : MapPointPtr → MapPtr
  /-- `mpAtlas->GetCurrentMap()`. -/
  mpCurrentMap : MapPtr
  /-- `pMap->IsBad()`. -/
  mbBad : MapPtr → Bool

/-- Modelled from the spec: `Map::AddKeyFrame`, which is not in the source file; a Map is a
set of KeyFrames and MapPoints, and the KeyFrame joins the set. -/
def Map.AddKeyFrame (A : AtlasState) (pMap : MapPtr) (pKF : KeyFramePtr) : AtlasState :=
  { A with mspKeyFrames := Function.update A.mspKeyFrames pMap (insert pKF (A.mspKeyFrames pMap)) }

/-- Modelled from the spec: `Map::EraseKeyFrame`, which is not in the source file; the
KeyFrame leaves the set. -/
def Map.EraseKeyFrame (A : AtlasState) (pMap : MapPtr) (pKF : KeyFramePtr) : AtlasState :=
  { A with mspKeyFrames := Function.update A.mspKeyFrames pMap ((A.mspKeyFrames pMap).erase pKF) }

/-- Modelled from the spec: `Map::AddMapPoint`, which is not in the source file; the
MapPoint joins the set. -/
def Map.AddMapPoint (A : AtlasState) (pMap : MapPtr) (pMP : MapPointPtr) : AtlasState :=
  { A with mspMapPoints := Function.update A.mspMapPoints pMap (insert pMP (A.mspMapPoints pMap)) }

/-- Modelled from the spec: `Map::EraseMapPoint`, which is not in the source file; the
MapPoint leaves the set. -/
def Map.EraseMapPoint (A : AtlasState) (pMap : MapPtr) (pMP : MapPointPtr) : AtlasState :=
  { A with mspMapPoints := Function.update A.mspMapPoints pMap ((A.mspMapPoints pMap).erase pMP) }

/-- Modelled from the spec: `KeyFrame::UpdateMap`, which is not in the source file; the
KeyFrame names `pMap` as its owning map. -/
def KeyFrame.UpdateMap (A : AtlasState) (pKF : KeyFramePtr) (pMap : MapPtr) : AtlasState :=
  { A with kfMap := Function.update A.kfMap pKF pMap }

/-- Modelled from the spec: `MapPoint::UpdateMap`, which is not in the source file; the
MapPoint names `pMap` as its owning map. -/
def MapPoint.UpdateMap (A : AtlasState) (pMP : MapPointPtr) (pMap : MapPtr) : AtlasState :=
  { A with mpMap := Function.update A.mpMap pMP pMap }

/-- Modelled from the spec: `Atlas::ChangeMap`, which is not in the source file; `pMap`
becomes the current map. -/
def Atlas.ChangeMap (A : AtlasState) (pMap : MapPtr) : AtlasState :=
  { A with mpCurrentMap := pMap }

/-- Modelled from the spec: `Atlas::SetMapBad`, which is not in the source file; `pMap` is
marked bad. -/
def Atlas.SetMapBad (A : AtlasState) (pMap : MapPtr) : AtlasState :=
  { A with mbBad := Function.update A.mbBad pMap true }

/-- The keys of `vCorrectedSim3` after lines 1216-1263 of `MergeLocal`: the current KeyFrame
and the KeyFrames of the local window that are neither null nor bad. -/
def MergeLocal.correctedKeys (W : World SE3 Sim3) (mpCurrentKF : KeyFramePtr)
    (spLocalWindowKFs : Finset KeyFramePtr) : Finset KeyFramePtr :=
  insert mpCurrentKF (spLocalWindowKFs.filter (fun pKFi => pKFi ≠ 0 ∧ W.isBad pKFi = false))

/-- The set `spLocalWindowMPs` after the loop of lines 1268-1294: the MapPoints that are
null or bad, and those whose reference KeyFrame has no corrected pose, are erased. -/
def MergeLocal.windowMapPoints (W : World SE3 Sim3) (mpCurrentKF : KeyFramePtr)
    (spLocalWindowKFs : Finset KeyFramePtr) (spLocalWindowMPs : Finset MapPointPtr) :
    Finset MapPointPtr :=
  spLocalWindowMPs.filter (fun pMPi =>
    (pMPi ≠ 0 ∧ W.isBadMP pMPi = false) ∧
      W.GetReferenceKeyFrame pMPi ∈ MergeLocal.correctedKeys W mpCurrentKF spLocalWindowKFs)

/-- The three calls that move a KeyFrame: `pKFi->UpdateMap(pMergeMap)`,
`pMergeMap->AddKeyFrame(pKFi)`, `pCurrentMap->EraseKeyFrame(pKFi)`. -/
def MergeLocal.moveKeyFrame (pCurrentMap pMergeMap : MapPtr) (A : AtlasState)
    (pKFi : KeyFramePtr) : AtlasState :=
  Map.EraseKeyFrame (Map.AddKeyFrame (KeyFrame.UpdateMap A pKFi pMergeMap) pMergeMap pKFi)
    pCurrentMap pKFi

/-- The three calls that move a MapPoint: `pMPi->UpdateMap(pMergeMap)`,
`pMergeMap->AddMapPoint(pMPi)`, `pCurrentMap->EraseMapPoint(pMPi)`. -/
def MergeLocal.moveMapPoint (pCurrentMap pMergeMap : MapPtr) (A : AtlasState)
    (pMPi : MapPointPtr) : AtlasState :=
  Map.EraseMapPoint (Map.AddMapPoint (MapPoint.UpdateMap A pMPi pMergeMap) pMergeMap pMPi)
    pCurrentMap pMPi

/-- The migration of the local window (lines 1300-1346): the KeyFrames of the window and
the MapPoints left in `spLocalWindowMPs` that are neither null nor bad are moved to the
merge map; the merge map becomes the current map and the old current map is marked bad. -/
def MergeLocal.migrateWindow (W : World SE3 Sim3) (pCurrentMap pMergeMap : MapPtr)
    (spLocalWindowKFs : Finset KeyFramePtr) (spLocalWindowMPs : Finset MapPointPtr)
    (A : AtlasState) : AtlasState :=
  let A1 := (spLocalWindowKFs.sort (· ≤ ·)).foldl
    (fun A pKFi =>
      if pKFi = 0 ∨ W.isBad pKFi = true then A
      else MergeLocal.moveKeyFrame pCurrentMap pMergeMap A pKFi)
    A
  let A2 := (spLocalWindowMPs.sort (· ≤ ·)).foldl
    (fun A pMPi =>
      if pMPi = 0 ∨ W.isBadMP pMPi = true then A
      else MergeLocal.moveMapPoint pCurrentMap pMergeMap A pMPi)
    A1
  Atlas.SetMapBad (Atlas.ChangeMap A2 pMergeMap) pCurrentMap

/-- The collaborators called by `MergeLocal` between its two migrations, whose bodies are
not in the source file, as far as the fields of `AtlasState` go. -/
structure MergeCollaborators where
  /-- `matcher.Fuse(pKFi, Scw, vpMapPoints, 4, vpReplacePoints)`: the vector
  `vpReplacePoints` written, one slot for each element of `vpMapPoints`. -/
  Fuse : KeyFramePtr → List MapPointPtr → List MapPointPtr
  /-- `pRep->Replace(pMP)`. -/
  Replace : AtlasState → MapPointPtr → MapPointPtr → AtlasState
  /-- `Optimizer::LocalBundleAdjustment(mpCurrentKF, vpLocalCurrentWindowKFs,
  vpMergeConnectedKFs, &bStop)` (line 1409). -/
  LocalBundleAdjustment : AtlasState → AtlasState
  /-- `Optimizer::MergeInertialBA(mpCurrentKF, mpMergeMatchedKF, &bStop, pCurrentMap,
  vCorrectedSim3)` (line 1407). -/
  MergeInertialBA : AtlasState → AtlasState
  /-- `Optimizer::OptimizeEssentialGraph(mpCurrentKF, vpMergeConnectedKFs,
  vpLocalCurrentWindowKFs, vpCurrentMapKFs, vpCurrentMapMPs)` (line 1489). -/
  OptimizeEssentialGraph : AtlasState → AtlasState

/-- `LoopClosing::SearchAndFuse(const KeyFrameAndPose&, std::vector<MapPoint*>&)`
(lines 1841-1872), for the keys of `CorrectedPosesMap` in their order: every non-null
element of `vpReplacePoints` is replaced by the MapPoint of the same slot. -/
def SearchAndFuse (K : MergeCollaborators) (CorrectedPosesMap : List KeyFramePtr)
    (vpMapPoints : List MapPointPtr) (A : AtlasState) : AtlasState :=
  CorrectedPosesMap.foldl
    (fun A pKFi =>
      ((K.Fuse pKFi vpMapPoints).zip vpMapPoints).foldl
        (fun A r => if r.1 ≠ 0 then K.Replace A r.1 r.2 else A)
        A)
    A

/-- The migration of the rest of the map (lines 1423-1516): when the old current map still
holds a KeyFrame, the essential graph is optimised unless the sensor is monocular, and the
KeyFrames read at line 1423 that are neither null nor bad and still name the old current
map as their map, and the MapPoints read at line 1424 that are neither null nor bad, are
moved to the merge map. -/
def MergeLocal.migrateRest (cfg : Config) (W : World SE3 Sim3) (K : MergeCollaborators)
    (pCurrentMap pMergeMap : MapPtr) (A : AtlasState) : AtlasState :=
  let vpCurrentMapKFs := (A.mspKeyFrames pCurrentMap).sort (· ≤ ·)
  let vpCurrentMapMPs := (A.mspMapPoints pCurrentMap).sort (· ≤ ·)
  if vpCurrentMapKFs.length ≠ 0 then
    let A0 := if cfg.mSensor ≠ CameraType.MONOCULAR then K.OptimizeEssentialGraph A else A
    let A1 := vpCurrentMapKFs.foldl
      (fun A pKFi =>
        if pKFi = 0 ∨ W.isBad pKFi = true ∨ A.kfMap pKFi ≠ pCurrentMap then A
        else MergeLocal.moveKeyFrame pCurrentMap pMergeMap A pKFi)
      A0
    vpCurrentMapMPs.foldl
      (fun A pMPi =>
        if pMPi = 0 ∨ W.isBadMP pMPi = true then A
        else MergeLocal.moveMapPoint pCurrentMap pMergeMap A pMPi)
      A1
  else A

end MapMerger

section GlobalBA

/-- The members of `LoopClosing` that `mMutexGBA` guards. -/
structure GBAState where
  mbRunningGBA : Bool
  mbFinishedGBA : Bool
  mbStopGBA : Bool
  mnFullBAIdx : Nat
  deriving DecidableEq, Repr

/-- The values the constructor gives them (lines 61-65). -/
def GBAState.initial : GBAState :=
  { mbRunningGBA := false, mbFinishedGBA := true, mbStopGBA := false, mnFullBAIdx := 0 }

/-- Modelled from the spec: `isRunningGBA()` reports the running flag.  The function is
declared in the header, which is not part of the source at hand. -/
def isRunningGBA (g : GBAState) : Bool :=
  g.mbRunningGBA

/-- The block "If a Global Bundle Adjustment is running, abort it" at the head of
`CorrectLoop` (lines 842-854), `MergeLocal` (lines 1067-1078) and `MergeLocal2`
(lines 1566-1577). -/
def AbortGBA (g : GBAState) : GBAState :=
  if isRunningGBA g = true then
    { g with mbStopGBA := true, mnFullBAIdx := g.mnFullBAIdx + 1 }
  else g

/-- The assignments made before the thread of `RunGlobalBundleAdjustment` is created
(lines 1038-1040, 1528-1530). -/
def LaunchGBA (g : GBAState) : GBAState :=
  { g with mbRunningGBA := true, mbFinishedGBA := false, mbStopGBA := false }

/-- Where a call of `RunGlobalBundleAdjustment` stands. -/
inductive GBARun
  /-- In the optimiser (lines 1969-1972); `bImuInit` was read at line 1967. -/
  | optimising (bImuInit : Bool)
  /-- Past `int idx = mnFullBAIdx` (line 1983), before the lock of line 1990. -/
  | waiting (bImuInit : Bool) (idx : Nat)
  /-- Returned; `bUpdated` tells whether the block "Update all MapPoints and KeyFrames"
  (lines 1995-2159) was executed: it calls `SetPose` on every KeyFrame reached from the
  origins of the map and `SetWorldPos` on the MapPoints of the map. -/
  | returned (bUpdated : Bool)
  deriving DecidableEq, Repr

/-- Line 1983 of `RunGlobalBundleAdjustment`: the optimiser has returned and the run reads
`mnFullBAIdx`. -/
def RunGlobalBundleAdjustment.capture (g : GBAState) : GBARun → GBARun
  | GBARun.optimising bImuInit => GBARun.waiting bImuInit g.mnFullBAIdx
  | r => r

/-- Lines 1989-2163 of `RunGlobalBundleAdjustment`, executed under `mMutexGBA`;
`isImuInitialized` is the value of `pActiveMap->isImuInitialized()` at line 1993. -/
def RunGlobalBundleAdjustment.commit (isImuInitialized : Bool) (g : GBAState) :
    GBARun → GBAState × GBARun
  | GBARun.waiting bImuInit idx =>
    if idx ≠ g.mnFullBAIdx then (g, GBARun.returned false)
    else if bImuInit = false ∧ isImuInitialized = true then (g, GBARun.returned false)
    else
      ({ g with mbFinishedGBA := true, mbRunningGBA := false },
        GBARun.returned (!g.mbStopGBA))
  | r => (g, r)

/-- The guarded members and the calls of `RunGlobalBundleAdjustment` launched so far, the
oldest first. -/
structure GBASystem where
  flags : GBAState
  runs : List GBARun
  deriving DecidableEq, Repr

/-- The worker as constructed: no run was launched. -/
def GBASystem.initial : GBASystem :=
  { flags := GBAState.initial, runs := [] }

/-- The steps of the worker and of the runs it launched.  Each step is taken as a whole:
the steps `abort` and `commit` hold `mMutexGBA`, `capture` is one read, and the assignments
of `launch` are three writes of the worker. -/
inductive GBAStep
  /-- The worker enters `CorrectLoop`, `MergeLocal` or `MergeLocal2`: `AbortGBA`. -/
  | abort
  /-- The worker launches a run (`LaunchGBA` and the creation of the thread); the run reads
  `bImuInit` at line 1967. -/
  | launch (bImuInit : Bool)
  /-- The run of index `i` leaves the optimiser and executes line 1983. -/
  | capture (i : Nat)
  /-- The run of index `i` executes lines 1989-2163. -/
  | commit (i : Nat) (isImuInitialized : Bool)
  deriving DecidableEq, Repr

/-- One step of the worker or of a run. -/
def GBASystem.step (sys : GBASystem) : GBAStep → GBASystem
  | GBAStep.abort => { sys with flags := AbortGBA sys.flags }
  | GBAStep.launch bImuInit =>
    { flags := LaunchGBA sys.flags, runs := sys.runs ++ [GBARun.optimising bImuInit] }
  | GBAStep.capture i =>
    match sys.runs.get? i with
    | none => sys
    | some r => { sys with runs := sys.runs.set i (RunGlobalBundleAdjustment.capture sys.flags r) }
  | GBAStep.commit i isImuInitialized =>
    match sys.runs.get? i with
    | none => sys
    | some r =>
      let c := RunGlobalBundleAdjustment.commit isImuInitialized sys.flags r
      { flags := c.1, runs := sys.runs.set i c.2 }

/-- The steps of a schedule, in order. -/
def GBASystem.run (steps : List GBAStep) (sys : GBASystem) : GBASystem :=
  steps.foldl GBASystem.step sys

/-- A schedule in which a second loop closure arrives while the first run is in the
optimiser: launch of run 0 (first `CorrectLoop`, lines 1038-1043); the second
`CorrectLoop` aborts it (lines 842-854) and, at its end, launches run 1 (lines 1038-1043);
then run 0 leaves the optimiser (line 1983) and reaches its commit check
(lines 1989-2163). -/
def supersededSchedule : List GBAStep :=
  [GBAStep.launch false, GBAStep.abort, GBAStep.launch false, GBAStep.capture 0,
    GBAStep.commit 0 false]

end GlobalBA

section LaunchGating

/-- The values read by the conditions under which a Global Bundle Adjustment is launched:
`pMap->isImuInitialized()`, `pMap->KeyFramesInMap()` and `mpAtlas->CountMaps()`, at the
moment the condition is evaluated. -/
structure MapStatus where
  isImuInitialized : MapPtr → Bool
  KeyFramesInMap : MapPtr → Nat
  CountMaps : Nat

/-- The reference gating of the launch, after the specification: the map `P` is not
IMU-initialised, or it has fewer than 200 KeyFrames and the Atlas holds a single map. -/
def launchGate (M : MapStatus) (P : MapPtr) : Prop :=
  M.isImuInitialized P = false ∨ (M.KeyFramesInMap P < 200 ∧ M.CountMaps = 1)

instance launchGate.decidable (M : MapStatus) (P : MapPtr) : Decidable (launchGate M P) :=
  inferInstanceAs
    (Decidable (M.isImuInitialized P = false ∨ (M.KeyFramesInMap P < 200 ∧ M.CountMaps = 1)))

/-- The launch at the end of `CorrectLoop` (lines 1036-1044): the guarded members
afterwards and the map `RunGlobalBundleAdjustment` is launched on, if it is launched. -/
def CorrectLoop.launch (M : MapStatus) (pLoopMap : MapPtr) (g : GBAState) :
    GBAState × Option MapPtr :=
  if M.isImuInitialized pLoopMap = false ∨
      (M.KeyFramesInMap pLoopMap < 200 ∧ M.CountMaps = 1) then
    (LaunchGBA g, some pLoopMap)
  else (g, none)

/-- The head of `MergeLocal` (lines 1063-1078): the guarded members afterwards and the
flag `bRelaunchBA`. -/
def MergeLocal.abort (g : GBAState) : GBAState × Bool :=
  if isRunningGBA g = true then
    ({ g with mbStopGBA := true, mnFullBAIdx := g.mnFullBAIdx + 1 }, true)
  else (g, false)

/-- The launch at the end of `MergeLocal` (lines 1526-1533): the guarded members
afterwards and the map `RunGlobalBundleAdjustment` is launched on, if it is launched. -/
def MergeLocal.launch (M : MapStatus) (bRelaunchBA : Bool) (pCurrentMap pMergeMap : MapPtr)
    (g : GBAState) : GBAState × Option MapPtr :=
  if bRelaunchBA = true ∧
      (M.isImuInitialized pCurrentMap = false ∨
        (M.KeyFramesInMap pCurrentMap < 200 ∧ M.CountMaps = 1)) then
    (LaunchGBA g, some pMergeMap)
  else (g, none)

/-- The body of the loop of lines 992-1005 of `CorrectLoop` for one KeyFrame: from the
connected KeyFrames read after `UpdateConnections`, the previous neighbours and the
KeyFrames of `mvpCurrentConnectedKFs` are erased one by one. -/
def CorrectLoop.newLinks (vpPreviousNeighbors : List KeyFramePtr)
    (connected : Finset KeyFramePtr) (mvpCurrentConnectedKFs : List KeyFramePtr) :
    Finset KeyFramePtr :=
  mvpCurrentConnectedKFs.foldl (fun s k => s.erase k)
    (vpPreviousNeighbors.foldl (fun s k => s.erase k) connected)

/-- The map `LoopConnections` built by lines 990-1005 of `CorrectLoop`.
`GetVectorCovisibleKeyFrames pKFi` is the vector read at line 994, before
`pKFi->UpdateConnections()`, and `GetConnectedKeyFrames pKFi` the set read at line 998,
after it.  A key that was not assigned has no entry. -/
def CorrectLoop.LoopConnections (GetVectorCovisibleKeyFrames : KeyFramePtr → List KeyFramePtr)
    (GetConnectedKeyFrames : KeyFramePtr → Finset KeyFramePtr)
    (mvpCurrentConnectedKFs : List KeyFramePtr) : KeyFramePtr → Option (Finset KeyFramePtr) :=
  mvpCurrentConnectedKFs.foldl
    (fun LoopConnections pKFi =>
      Function.update LoopConnections pKFi
        (some (CorrectLoop.newLinks (GetVectorCovisibleKeyFrames pKFi)
          (GetConnectedKeyFrames pKFi) mvpCurrentConnectedKFs)))
    (fun _ => none)

end LaunchGating

section Queue

variable {SE3 Sim3 Vec3 : Type}

/-- What happens to the KeyFrame queue: the local mapper hands a KeyFrame to
`InsertKeyFrame`, or the worker runs the head of its loop (lines 86-92), which calls
`NewDetectCommonRegions` when `CheckNewKeyFrames` holds.  Each step carries the values the
collaborators return at that moment. -/
inductive QueueOp (SE3 Sim3 : Type)
  | insert (W : World SE3 Sim3) (pKF : KeyFramePtr)
  | detect (W : World SE3 Sim3)

/-- One step on the members and on the log of the dequeues.  An entry of the log is the
KeyFrame in `mpCurrentKF` when `NewDetectCommonRegions` returns, with the first call the
function made. -/
def QueueOp.apply (cfg : Config) (G : Geometry SE3 Sim3 Vec3)
    (st : State Sim3 × List (KeyFramePtr × Option (Event Sim3))) :
    QueueOp SE3 Sim3 → State Sim3 × List (KeyFramePtr × Option (Event Sim3))
  | QueueOp.insert W pKF => (InsertKeyFrame W pKF st.1, st.2)
  | QueueOp.detect W =>
    if CheckNewKeyFrames st.1 = true then
      let r := NewDetectCommonRegions cfg G W st.1
      (r.2.1, st.2 ++ [(r.2.1.mpCurrentKF, r.2.2.head?)])
    else st

/-- The KeyFrames handed to `InsertKeyFrame` whose `mnId` is not 0, in the order of the
calls. -/
def QueueOp.accepted : List (QueueOp SE3 Sim3) → List KeyFramePtr
  | [] => []
  | QueueOp.insert W pKF :: ops =>
    if W.mnId pKF ≠ 0 then pKF :: QueueOp.accepted ops else QueueOp.accepted ops
  | QueueOp.detect _ :: ops => QueueOp.accepted ops

/-- The reference definition of `ResetIfRequested`, after the specification: a full reset
empties the queue and clears both request flags; otherwise a reset of the active map `P`
removes from the queue the entries whose KeyFrame belongs to `P`, the others keeping their
order, and clears its flag; otherwise nothing changes. -/
def ResetIfRequested.reference (W : World SE3 Sim3) (s : State Sim3) : State Sim3 :=
  if s.mbResetRequested = true then
    { s with
      mlpLoopKeyFrameQueue := []
      mbResetRequested := false
      mbResetActiveMapRequested := false }
  else if s.mbResetActiveMapRequested = true then
    { s with
      mlpLoopKeyFrameQueue :=
        s.mlpLoopKeyFrameQueue.filter (fun pKF => decide (W.GetMap pKF ≠ s.mpMapToReset))
      mbResetActiveMapRequested := false }
  else s

/-- Modelled from the spec: `pKF` is pinned after the calls `ev` when, of the calls
`SetNotErase` and `SetErase` it received, the latest is `SetNotErase`.  The bodies of the two
functions belong to `KeyFrame`, which is not part of the source at hand. -/
def pinned (ev : List (Event Sim3)) (pKF : KeyFramePtr) : Bool :=
  ev.foldl
    (fun b e =>
      match e with
      | Event.SetNotErase k => if k = pKF then true else b
      | Event.SetErase k => if k = pKF then false else b
      | _ => b)
    false

/-- Modelled from the spec: the pins of `pKF` counted, the number of calls `SetNotErase`
that it received in `ev` minus the number of calls `SetErase`. -/
def pinCount (ev : List (Event Sim3)) (pKF : KeyFramePtr) : Int :=
  ev.foldl
    (fun n e =>
      match e with
      | Event.SetNotErase k => if k = pKF then n + 1 else n
      | Event.SetErase k => if k = pKF then n - 1 else n
      | _ => n)
    0

/-- The calls `mpKeyFrameDB->add`. -/
def Event.isDatabaseAdd : Event Sim3 → Bool
  | Event.KeyFrameDB_add _ => true
  | _ => false

end Queue

section TemporalWalks

/-- The members of `KeyFrame` read by the temporal walks of `MergeLocal`: `mPrevKF`,
`mNextKF` and `GetMapPoints()`. -/
structure TemporalChain where
  mPrevKF : KeyFramePtr → KeyFramePtr
  mNextKF : KeyFramePtr → KeyFramePtr
  GetMapPoints : KeyFramePtr → Finset MapPointPtr

/-- How a loop ends: normally, with the values of its variables; on a call through a null
pointer; or still running when the steps allowed are used up. -/
inductive Walk (α : Type)
  | done (a : α)
  | nullDereference
  | outOfFuel
  deriving DecidableEq, Repr

/-- The number `numTemporalKFs` of `MergeLocal` (line 1053). -/
def MergeLocal.numTemporalKFs : Nat := 25

/-- The first loop of the local window (lines 1113-1122), entered with `pKFi`, `nInserted`
and the two sets.  Line 1117 assigns `mpCurrentKF->mPrevKF` to `pKFi`, and line 1120 calls
`pKFi->GetMapPoints()` without a test. -/
def MergeLocal.backwardWalk (T : TemporalChain) (mpCurrentKF : KeyFramePtr) :
    Nat → KeyFramePtr → Nat → Finset KeyFramePtr × Finset MapPointPtr →
      Walk (Finset KeyFramePtr × Finset MapPointPtr)
  | 0, _, _, _ => Walk.outOfFuel
  | fuel + 1, pKFi, nInserted, (spLocalWindowKFs, spLocalWindowMPs) =>
    if pKFi ≠ 0 ∧ nInserted < MergeLocal.numTemporalKFs then
      let pKFi1 := T.mPrevKF mpCurrentKF
      if pKFi1 = 0 then Walk.nullDereference
      else
        MergeLocal.backwardWalk T mpCurrentKF fuel pKFi1 (nInserted + 1)
          (insert pKFi spLocalWindowKFs, spLocalWindowMPs ∪ T.GetMapPoints pKFi1)
    else Walk.done (spLocalWindowKFs, spLocalWindowMPs)

/-- The second loop of the local window (lines 1125-1132), entered with `pKFi` and the two
sets.  Line 1131 assigns `mpCurrentKF->mNextKF` to `pKFi`. -/
def MergeLocal.forwardWalk (T : TemporalChain) (mpCurrentKF : KeyFramePtr) :
    Nat → KeyFramePtr → Finset KeyFramePtr × Finset MapPointPtr →
      Walk (Finset KeyFramePtr × Finset MapPointPtr)
  | 0, _, _ => Walk.outOfFuel
  | fuel + 1, pKFi, (spLocalWindowKFs, spLocalWindowMPs) =>
    if pKFi ≠ 0 then
      MergeLocal.forwardWalk T mpCurrentKF fuel (T.mNextKF mpCurrentKF)
        (insert pKFi spLocalWindowKFs, spLocalWindowMPs ∪ T.GetMapPoints pKFi)
    else Walk.done (spLocalWindowKFs, spLocalWindowMPs)

/-- The temporal part of the local window of `MergeLocal` in inertial mode
(lines 1111-1132), with `fuel` iterations allowed to each loop: the sets `spLocalWindowKFs`
and `spLocalWindowMPs`. -/
def MergeLocal.localWindowWalk (T : TemporalChain) (mpCurrentKF : KeyFramePtr) (fuel : Nat) :
    Walk (Finset KeyFramePtr × Finset MapPointPtr) :=
  match MergeLocal.backwardWalk T mpCurrentKF fuel mpCurrentKF 0 (∅, ∅) with
  | Walk.done acc => MergeLocal.forwardWalk T mpCurrentKF fuel (T.mNextKF mpCurrentKF) acc
  | Walk.nullDereference => Walk.nullDereference
  | Walk.outOfFuel => Walk.outOfFuel

/-- The first loop of the merge window (lines 1166-1172), entered with `pKFi`, `nInserted`
and the set: the set and `nInserted` at the exit. -/
def MergeLocal.mergeBackwardWalk (T : TemporalChain) (mpCurrentKF : KeyFramePtr) :
    Nat → KeyFramePtr → Nat → Finset KeyFramePtr → Walk (Finset KeyFramePtr × Nat)
  | 0, _, _, _ => Walk.outOfFuel
  | fuel + 1, pKFi, nInserted, spMergeConnectedKFs =>
    if pKFi ≠ 0 ∧ nInserted < MergeLocal.numTemporalKFs / 2 then
      MergeLocal.mergeBackwardWalk T mpCurrentKF fuel (T.mPrevKF mpCurrentKF) (nInserted + 1)
        (insert pKFi spMergeConnectedKFs)
    else Walk.done (spMergeConnectedKFs, nInserted)

/-- The second loop of the merge window (lines 1175-1178); `nInserted` is not changed by
the loop. -/
def MergeLocal.mergeForwardWalk (T : TemporalChain) (mpCurrentKF : KeyFramePtr)
    (nInserted : Nat) : Nat → KeyFramePtr → Finset KeyFramePtr → Walk (Finset KeyFramePtr)
  | 0, _, _ => Walk.outOfFuel
  | fuel + 1, pKFi, spMergeConnectedKFs =>
    if pKFi ≠ 0 ∧ nInserted < MergeLocal.numTemporalKFs then
      MergeLocal.mergeForwardWalk T mpCurrentKF nInserted fuel (T.mNextKF mpCurrentKF)
        (insert pKFi spMergeConnectedKFs)
    else Walk.done spMergeConnectedKFs

/-- The temporal part of the merge window of `MergeLocal` in inertial mode
(lines 1165-1178), with `fuel` iterations allowed to each loop: the set
`spMergeConnectedKFs`. -/
def MergeLocal.mergeWindowWalk (T : TemporalChain) (mpCurrentKF mpMergeMatchedKF : KeyFramePtr)
    (fuel : Nat) : Walk (Finset KeyFramePtr) :=
  match MergeLocal.mergeBackwardWalk T mpCurrentKF fuel mpMergeMatchedKF 0 ∅ with
  | Walk.done r =>
    MergeLocal.mergeForwardWalk T mpCurrentKF r.2 fuel (T.mNextKF mpMergeMatchedKF) r.1
  | Walk.nullDereference => Walk.nullDereference
  | Walk.outOfFuel => Walk.outOfFuel

end TemporalWalks

section VisualMerger

variable {SE3 Sim3 : Type}

/-- The constant `nMaxTries` of `MergeLocal` (line 1140). -/
def MergeLocal.nMaxTries : Nat := 5

/-- The vector `vpNewCovKFs` of one round of lines 1141-1153 (and 1185-1197), as a set: the
KeyFrames among the 12 best covisibles of a KeyFrame of the set that are neither null nor
bad and are not in the set. -/
def MergeLocal.newCovisibles (W : World SE3 Sim3) (sp : Finset KeyFramePtr) :
    Finset KeyFramePtr :=
  sp.biUnion (fun pKFi =>
    ((W.GetBestCovisibilityKeyFrames pKFi (MergeLocal.numTemporalKFs / 2)).filter
      (fun pKFcov => decide (pKFcov ≠ 0) && !W.isBad pKFcov && decide (pKFcov ∉ sp))).toFinset)

/-- The loop of lines 1141-1153 (and 1185-1197), with `n` rounds left: a round is made while
the set holds fewer than `numTemporalKFs` KeyFrames. -/
def MergeLocal.grow (W : World SE3 Sim3) : Nat → Finset KeyFramePtr → Finset KeyFramePtr
  | 0, sp => sp
  | n + 1, sp =>
    if sp.card < MergeLocal.numTemporalKFs then
      MergeLocal.grow W n (sp ∪ MergeLocal.newCovisibles W sp)
    else sp

/-- The local window of `MergeLocal` (lines 1108-1160): the sets `spLocalWindowKFs` and
`spLocalWindowMPs`.  In inertial mode the window starts from the temporal walks, otherwise
from the current KeyFrame; the best covisibles of the current KeyFrame are added, the set is
grown, and the MapPoints of its KeyFrames that are neither null nor bad are collected.  The
vectors of covisible KeyFrames are taken to hold no null pointer where line 1144
dereferences their elements. -/
def MergeLocal.localWindow (cfg : Config) (W : World SE3 Sim3) (T : TemporalChain)
    (fuel : Nat) (mpCurrentKF : KeyFramePtr) :
    Walk (Finset KeyFramePtr × Finset MapPointPtr) :=
  let temporal : Walk (Finset KeyFramePtr × Finset MapPointPtr) :=
    if cfg.mbInertial = true then MergeLocal.localWindowWalk T mpCurrentKF fuel
    else Walk.done ({mpCurrentKF}, ∅)
  match temporal with
  | Walk.done w =>
    let spLocalWindowKFs := MergeLocal.grow W MergeLocal.nMaxTries
      (insert mpCurrentKF
        (w.1 ∪ (W.GetBestCovisibilityKeyFrames mpCurrentKF MergeLocal.numTemporalKFs).toFinset))
    Walk.done (spLocalWindowKFs,
      w.2 ∪ (spLocalWindowKFs.filter (fun pKFi => pKFi ≠ 0 ∧ W.isBad pKFi = false)).biUnion
        T.GetMapPoints)
  | Walk.nullDereference => Walk.nullDereference
  | Walk.outOfFuel => Walk.outOfFuel

/-- The merge window of `MergeLocal` (lines 1164-1197): the set `spMergeConnectedKFs`. -/
def MergeLocal.mergeWindow (cfg : Config) (W : World SE3 Sim3) (T : TemporalChain)
    (fuel : Nat) (mpCurrentKF mpMergeMatchedKF : KeyFramePtr) : Walk (Finset KeyFramePtr) :=
  let temporal : Walk (Finset KeyFramePtr) :=
    if cfg.mbInertial = true then MergeLocal.mergeWindowWalk T mpCurrentKF mpMergeMatchedKF fuel
    else Walk.done {mpMergeMatchedKF}
  match temporal with
  | Walk.done sp =>
    Walk.done (MergeLocal.grow W MergeLocal.nMaxTries
      (insert mpMergeMatchedKF
        (sp ∪ (W.GetBestCovisibilityKeyFrames mpMergeMatchedKF
          MergeLocal.numTemporalKFs).toFinset)))
  | Walk.nullDereference => Walk.nullDereference
  | Walk.outOfFuel => Walk.outOfFuel

/-- The part of `LoopClosing::MergeLocal` (lines 1051-1542) that moves entities between
maps: the two windows are built, the local window is migrated, the MapPoints of the merge
window are fused into the KeyFrames with a corrected pose, the welding bundle adjustment is
run and the rest of the old current map is migrated.  The poses, the positions and the
covisibility graph are not among the fields of `AtlasState`; the spanning tree is rewired by
`MergeLocal.rebuildEssentialGraph` and the Global Bundle Adjustment is aborted and launched
by `MergeLocal.abort` and `MergeLocal.launch`.  The result is not `done` when a temporal
walk of the inertial mode does not end within `fuel` steps or calls through a null
pointer. -/
def MergeLocal (cfg : Config) (W : World SE3 Sim3) (T : TemporalChain) (K : MergeCollaborators)
    (fuel : Nat) (mpCurrentKF mpMergeMatchedKF : KeyFramePtr) (A : AtlasState) :
    Walk AtlasState :=
  match MergeLocal.localWindow cfg W T fuel mpCurrentKF with
  | Walk.done w =>
    match MergeLocal.mergeWindow cfg W T fuel mpCurrentKF mpMergeMatchedKF with
    | Walk.done spMergeConnectedKFs =>
      let pCurrentMap := A.kfMap mpCurrentKF
      let pMergeMap := A.kfMap mpMergeMatchedKF
      let vpCheckFuseMapPoint := (spMergeConnectedKFs.biUnion T.GetMapPoints).sort (· ≤ ·)
      let vCorrectedSim3 := MergeLocal.correctedKeys W mpCurrentKF w.1
      let spLocalWindowMPs := MergeLocal.windowMapPoints W mpCurrentKF w.1 w.2
      let A1 := MergeLocal.migrateWindow W pCurrentMap pMergeMap w.1 spLocalWindowMPs A
      let A2 := SearchAndFuse K (vCorrectedSim3.sort (· ≤ ·)) vpCheckFuseMapPoint A1
      let A3 :=
        if isImuSensor cfg.mSensor = true then K.MergeInertialBA A2
        else K.LocalBundleAdjustment A2
      Walk.done (MergeLocal.migrateRest cfg W K pCurrentMap pMergeMap A3)
    | Walk.nullDereference => Walk.nullDereference
    | Walk.outOfFuel => Walk.outOfFuel
  | Walk.nullDereference => Walk.nullDereference
  | Walk.outOfFuel => Walk.outOfFuel

end VisualMerger

section Selection

variable {SE3 Sim3 Vec3 : Type}

/-- The vector `vpCovKFi` of the candidate `pKFi` (lines 536-542): its 10 best covisible
KeyFrames with `pKFi` put first and the first covisible moved to the end. -/
def DetectCommonRegionsFromBoW.vpCovKFi (W : World SE3 Sim3) (pKFi : KeyFramePtr) :
    List KeyFramePtr :=
  match W.GetBestCovisibilityKeyFrames pKFi 10 with
  | [] => [pKFi]
  | c0 :: cs => pKFi :: cs ++ [c0]

/-- The flag `bAbortByNearKF` of the candidate `pKFi` (lines 544-550). -/
def DetectCommonRegionsFromBoW.bAbortByNearKF (W : World SE3 Sim3)
    (mpCurrentKF pKFi : KeyFramePtr) : Bool :=
  (DetectCommonRegionsFromBoW.vpCovKFi W pKFi).any
    (fun k => decide (k ∈ W.GetConnectedKeyFrames mpCurrentKF))

/-- The BoW matches of the candidate `pKFi` (lines 557-595). -/
def DetectCommonRegionsFromBoW.bowMatches (W : World SE3 Sim3)
    (mpCurrentKF pKFi : KeyFramePtr) : BoWMatches :=
  (DetectCommonRegionsFromBoW.vpCovKFi W pKFi).foldl
    (fun acc k =>
      DetectCommonRegionsFromBoW.gather W k
        (if k = 0 ∨ W.isBad k = true then [] else W.SearchByBoW mpCurrentKF k) acc)
    (BoWMatches.mk [] 0 (List.replicate (W.GetMapPointMatches mpCurrentKF).length 0)
      (List.replicate (W.GetMapPointMatches mpCurrentKF).length 0))

/-- The flag `bFixedScale` of line 603. -/
def DetectCommonRegionsFromBoW.bFixedScale (cfg : Config) (W : World SE3 Sim3)
    (mpCurrentKF : KeyFramePtr) : Bool :=
  cfg.mbFixScale &&
    !(decide (cfg.mSensor = CameraType.IMU_MONOCULAR) &&
      !W.GetIniertialBA2 (W.GetMap mpCurrentKF))

/-- The solver run for the candidate `pKFi` (lines 605-616): `bConverge` and `gScm`. -/
def DetectCommonRegionsFromBoW.solver (cfg : Config) (W : World SE3 Sim3)
    (mpCurrentKF pKFi : KeyFramePtr) : Bool × Sim3 :=
  W.Sim3Solver mpCurrentKF pKFi
    (DetectCommonRegionsFromBoW.bowMatches W mpCurrentKF pKFi).vpMatchedPoints
    (DetectCommonRegionsFromBoW.bFixedScale cfg W mpCurrentKF)
    (DetectCommonRegionsFromBoW.bowMatches W mpCurrentKF pKFi).vpKeyFrameMatchedMP

/-- The MapPoints of the neighbourhood of the candidate `pKFi`, with their KeyFrames
(lines 623-643). -/
def DetectCommonRegionsFromBoW.points (W : World SE3 Sim3) (pKFi : KeyFramePtr) :
    List MapPointPtr × List KeyFramePtr :=
  DetectCommonRegionsFromBoW.collect W (W.GetBestCovisibilityKeyFrames pKFi 10 ++ [pKFi])

/-- The projection search with the solved similarity (lines 648-657): `numProjMatches` and
`vpMatchedMP`. -/
def DetectCommonRegionsFromBoW.coarse (cfg : Config) (G : Geometry SE3 Sim3 Vec3)
    (W : World SE3 Sim3) (mpCurrentKF pKFi : KeyFramePtr) : Int × List MapPointPtr :=
  W.SearchByProjectionKF mpCurrentKF
    (G.mul (DetectCommonRegionsFromBoW.solver cfg W mpCurrentKF pKFi).2
      (G.ofSE3 (W.GetPose pKFi)))
    (DetectCommonRegionsFromBoW.points W pKFi).1 (DetectCommonRegionsFromBoW.points W pKFi).2
    8 (3 / 2)

/-- The optimisation of line 669: `numOptMatches`, and `gScm` and `vpMatchedMP` as the call
leaves them. -/
def DetectCommonRegionsFromBoW.optimised (cfg : Config) (G : Geometry SE3 Sim3 Vec3)
    (W : World SE3 Sim3) (mpCurrentKF pKFi : KeyFramePtr) : Int × Sim3 × List MapPointPtr :=
  W.OptimizeSim3 mpCurrentKF pKFi (DetectCommonRegionsFromBoW.coarse cfg G W mpCurrentKF pKFi).2
    (DetectCommonRegionsFromBoW.solver cfg W mpCurrentKF pKFi).2 cfg.mbFixScale

/-- The similarity `gScw` of line 673: the optimised `gScm` times the pose of the
candidate. -/
def DetectCommonRegionsFromBoW.gScw (cfg : Config) (G : Geometry SE3 Sim3 Vec3)
    (W : World SE3 Sim3) (mpCurrentKF pKFi : KeyFramePtr) : Sim3 :=
  G.mul (DetectCommonRegionsFromBoW.optimised cfg G W mpCurrentKF pKFi).2.1
    (G.ofSE3 (W.GetPose pKFi))

/-- The projection search with the optimised similarity (lines 676-678):
`numProjOptMatches` and `vpMatchedMP`. -/
def DetectCommonRegionsFromBoW.reprojection (cfg : Config) (G : Geometry SE3 Sim3 Vec3)
    (W : World SE3 Sim3) (mpCurrentKF pKFi : KeyFramePtr) : Int × List MapPointPtr :=
  W.SearchByProjection mpCurrentKF (DetectCommonRegionsFromBoW.gScw cfg G W mpCurrentKF pKFi)
    (DetectCommonRegionsFromBoW.points W pKFi).1 5 1

/-- The candidate `pKFi` passes every stage of the loop over `vpBowCand`: it is neither null
nor bad (line 532), not in the neighbourhood of the current KeyFrame (line 551), has 20 BoW
matches (line 599), the solver converges (line 618), and the three counts reach 50, 20 and
100 (lines 660, 671, 680). -/
def DetectCommonRegionsFromBoW.passes (cfg : Config) (G : Geometry SE3 Sim3 Vec3)
    (W : World SE3 Sim3) (mpCurrentKF pKFi : KeyFramePtr) : Prop :=
  ¬(pKFi = 0 ∨ W.isBad pKFi = true) ∧
    DetectCommonRegionsFromBoW.bAbortByNearKF W mpCurrentKF pKFi = false ∧
    (DetectCommonRegionsFromBoW.bowMatches W mpCurrentKF pKFi).numBoWMatches ≥ 20 ∧
    (DetectCommonRegionsFromBoW.solver cfg W mpCurrentKF pKFi).1 = true ∧
    (DetectCommonRegionsFromBoW.coarse cfg G W mpCurrentKF pKFi).1 ≥ 50 ∧
    (DetectCommonRegionsFromBoW.optimised cfg G W mpCurrentKF pKFi).1 ≥ 20 ∧
    (DetectCommonRegionsFromBoW.reprojection cfg G W mpCurrentKF pKFi).1 ≥ 100

instance DetectCommonRegionsFromBoW.passes.decidable (cfg : Config)
    (G : Geometry SE3 Sim3 Vec3) (W : World SE3 Sim3) (mpCurrentKF pKFi : KeyFramePtr) :
    Decidable (DetectCommonRegionsFromBoW.passes cfg G W mpCurrentKF pKFi) :=
  inferInstanceAs (Decidable (¬(pKFi = 0 ∨ W.isBad pKFi = true) ∧
    DetectCommonRegionsFromBoW.bAbortByNearKF W mpCurrentKF pKFi = false ∧
    (DetectCommonRegionsFromBoW.bowMatches W mpCurrentKF pKFi).numBoWMatches ≥ 20 ∧
    (DetectCommonRegionsFromBoW.solver cfg W mpCurrentKF pKFi).1 = true ∧
    (DetectCommonRegionsFromBoW.coarse cfg G W mpCurrentKF pKFi).1 ≥ 50 ∧
    (DetectCommonRegionsFromBoW.optimised cfg G W mpCurrentKF pKFi).1 ≥ 20 ∧
    (DetectCommonRegionsFromBoW.reprojection cfg G W mpCurrentKF pKFi).1 ≥ 100))

/-- The test `bValid` of the covisible KeyFrame `pKFj` of the current KeyFrame against the
candidate `pKFi`, with the similarity `gScw` (lines 715-721). -/
def DetectCommonRegionsFromBoW.bValid (G : Geometry SE3 Sim3 Vec3) (W : World SE3 Sim3)
    (mpCurrentKF pKFi : KeyFramePtr) (gScw : Sim3) (pKFj : KeyFramePtr) : Bool :=
  (DetectCommonRegionsFromLastKF W pKFj pKFi
    (G.mul (G.ofSE3 (G.seMul (W.GetPose pKFj) (W.GetPoseInverse mpCurrentKF))) gScw)).1

/-- The record of the best candidate holds the values computed for the candidate `pKFi`. -/
def DetectCommonRegionsFromBoW.holds (cfg : Config) (G : Geometry SE3 Sim3 Vec3)
    (W : World SE3 Sim3) (mpCurrentKF pKFi : KeyFramePtr) (b : BoWBest Sim3) : Prop :=
  b.pBestMatchedKF = pKFi ∧
    b.nBestMatchesReproj =
      (DetectCommonRegionsFromBoW.reprojection cfg G W mpCurrentKF pKFi).1 ∧
    b.nBestNumCoindicendes =
      min 3 ((W.GetBestCovisibilityKeyFrames mpCurrentKF 10).countP
        (DetectCommonRegionsFromBoW.bValid G W mpCurrentKF pKFi
          (DetectCommonRegionsFromBoW.gScw cfg G W mpCurrentKF pKFi))) ∧
    b.g2oBestScw = DetectCommonRegionsFromBoW.gScw cfg G W mpCurrentKF pKFi ∧
    b.vpBestMatchedMapPoints =
      (DetectCommonRegionsFromBoW.reprojection cfg G W mpCurrentKF pKFi).2

end Selection

section SpanningTrees

/-- The spanning-tree members of the KeyFrames: `mpParent` (`GetParent()`) and
`mspChildrens`. -/
structure SpanningTree where
  mpParent : KeyFramePtr → KeyFramePtr
  mspChildrens : KeyFramePtr → Finset KeyFramePtr

/-- Modelled from the spec: `KeyFrame::AddChild`, which is not in the source file; the
KeyFrame `pChild` joins the children of `pKF`. -/
def KeyFrame.AddChild (t : SpanningTree) (pKF pChild : KeyFramePtr) : SpanningTree :=
  { t with mspChildrens := Function.update t.mspChildrens pKF (insert pChild (t.mspChildrens pKF)) }

/-- Modelled from the spec: `KeyFrame::EraseChild`, which is not in the source file; the
KeyFrame `pChild` leaves the children of `pKF` ("clearing the old child pointer"). -/
def KeyFrame.EraseChild (t : SpanningTree) (pKF pChild : KeyFramePtr) : SpanningTree :=
  { t with mspChildrens := Function.update t.mspChildrens pKF ((t.mspChildrens pKF).erase pChild) }

/-- Modelled from the spec: `KeyFrame::ChangeParent`, which is not in the source file; the
parent of `pKF` becomes `pParent`, and `pKF` joins the children of `pParent`.  The children
of the old parent are not touched, which is why the loop erases the child itself. -/
def KeyFrame.ChangeParent (t : SpanningTree) (pKF pParent : KeyFramePtr) : SpanningTree :=
  KeyFrame.AddChild { t with mpParent := Function.update t.mpParent pKF pParent } pParent pKF

/-- The loop of lines 1355-1364 of `MergeLocal` (1684-1690 of `MergeLocal2`), entered with
`pNewChild` and `pNewParent`: the tree at the exit and the number of iterations made; `none`
when the loop is still running after `fuel` tests of its condition. -/
def MergeLocal.rewire : Nat → SpanningTree → KeyFramePtr → KeyFramePtr →
    Option (SpanningTree × Nat)
  | 0, _, _, _ => none
  | fuel + 1, t, pNewChild, pNewParent =>
    if pNewChild ≠ 0 then
      let t1 := KeyFrame.EraseChild t pNewChild pNewParent
      let pOldParent := t1.mpParent pNewChild
      let t2 := KeyFrame.ChangeParent t1 pNewChild pNewParent
      (MergeLocal.rewire fuel t2 pOldParent pNewChild).map (fun r => (r.1, r.2 + 1))
    else some (t, 0)

/-- Lines 1350-1364 of `MergeLocal`: the current KeyFrame gets the matched KeyFrame as its
parent and its chain of ancestors is reversed.  `SetFirstConnection` (line 1349) writes no
member of `SpanningTree`. -/
def MergeLocal.rebuildEssentialGraph (fuel : Nat) (t : SpanningTree)
    (mpCurrentKF mpMergeMatchedKF : KeyFramePtr) : Option (SpanningTree × Nat) :=
  let pNewChild := t.mpParent mpCurrentKF
  let pNewParent := mpCurrentKF
  MergeLocal.rewire fuel (KeyFrame.ChangeParent t mpCurrentKF mpMergeMatchedKF) pNewChild
    pNewParent

/-- Lines 1681-1690 of `MergeLocal2`: the matched KeyFrame gets the current KeyFrame as its
parent and its chain of ancestors is reversed. -/
def MergeLocal2.rebuildEssentialGraph (fuel : Nat) (t : SpanningTree)
    (mpCurrentKF mpMergeMatchedKF : KeyFramePtr) : Option (SpanningTree × Nat) :=
  let pNewChild := t.mpParent mpMergeMatchedKF
  let pNewParent := mpMergeMatchedKF
  MergeLocal.rewire fuel (KeyFrame.ChangeParent t mpMergeMatchedKF mpCurrentKF) pNewChild
    pNewParent

/-- The children sets agree with the parents: a KeyFrame is among the children of exactly
its parent. -/
def SpanningTree.consistent (t : SpanningTree) : Prop :=
  ∀ a b, b ∈ t.mspChildrens a ↔ a ≠ 0 ∧ b ≠ 0 ∧ t.mpParent b = a

/-- The children sets agree with the parents except that `q` is still among the children
of `c`: the state of the tree between a `ChangeParent` and the `EraseChild` that follows
it. -/
def SpanningTree.consistentBut (t : SpanningTree) (c q : KeyFramePtr) : Prop :=
  ∀ a b, b ∈ t.mspChildrens a ↔ a ≠ 0 ∧ b ≠ 0 ∧ (t.mpParent b = a ∨ (a = c ∧ b = q))

/-- The KeyFrame `r` is reached from `x` along the parents. -/
def SpanningTree.reaches (t : SpanningTree) (x r : KeyFramePtr) : Prop :=
  ∃ n : Nat, t.mpParent^[n] x = r

end SpanningTrees

section Examples

/-- The similarities of a line that keep the origin: a similarity is its scale.  Poses carry
no information, rotations are trivial. -/
def scaleLine : Geometry Unit ℚ ℚ :=
  { seMul := fun _ _ => ()
    ofSE3 := fun _ => 1
    mul := fun a b => a * b
    inverse := fun a => a⁻¹
    map := fun a p => a * p
    scale := fun a => a
    unitScale := fun _ => 1
    toSE3 := fun _ => ()
    LogSO3 := fun _ => (0, 0, 0)
    translation := fun _ => 0
    ofExpSO3 := fun _ _ s => s
    identity := 1 }

/-- A world for the examples.  KeyFrames 1, 2, 3, ... are the ones handed to the worker, all
in map 1, which holds 20 KeyFrames and has finished its inertial initialisation.  Every
KeyFrame `k` has 150 features, observing the MapPoints `1000 k, ..., 1000 k + 149`.  The BoW
database proposes the loop candidate 10 for KeyFrame 1, the loop candidate 11 and the
merge candidate 21 for KeyFrame 2, and the loop candidate 12 for KeyFrame 4.  Every
candidate passes the BoW stage (20 matches), the solver, and the projection stages (60, 25
and 120 matches).  KeyFrames 31, 32, 33 see a candidate (40 matches by projection); the
KeyFrames handed to the worker do not (0 matches).  KeyFrame 1 has the covisible 31,
KeyFrame 4 has 31 and 32, KeyFrames 2 and 3 have 31, 32 and 33.  The optimiser leaves a scale
of 4/5 for the candidate 21 and of 1 otherwise.  A matcher that finds `n` matches among the
points offered returns the first `n` of them in a vector of 150 slots. -/
def exampleWorld : World Unit ℚ :=
  { GetPose := fun _ => ()
    GetPoseInverse := fun _ => ()
    GetMap := fun _ => 1
    isBad := fun _ => false
    isBadMP := fun _ => false
    GetBestCovisibilityKeyFrames := fun pKF _ =>
      if pKF = 1 then [31] else if pKF = 2 ∨ pKF = 3 then [31, 32, 33]
      else if pKF = 4 then [31, 32] else []
    GetConnectedKeyFrames := fun pKF =>
      if pKF = 1 then [31] else if pKF = 2 ∨ pKF = 3 then [31, 32, 33]
      else if pKF = 4 then [31, 32] else []
    GetVectorCovisibleKeyFrames := fun _ => []
    GetMapPointMatches := fun pKF => List.range' (1000 * pKF) 150
    GetReferenceKeyFrame := fun pMP => pMP / 1000
    GetIniertialBA1 := fun _ => true
    GetIniertialBA2 := fun _ => true
    isImuInitialized := fun _ => true
    numKeyFrames := fun _ => 20
    mnId := fun pKF => pKF
    SearchByProjection := fun pKF _ vpPoints th _ =>
      if th = 5 then (120, vpPoints.take 120 ++ List.replicate 30 0)
      else if pKF = 31 ∨ pKF = 32 ∨ pKF = 33 then (40, vpPoints.take 40 ++ List.replicate 110 0)
      else (0, List.replicate 150 0)
    SearchByProjectionKF := fun _ _ vpPoints _ _ _ =>
      (60, vpPoints.take 60 ++ List.replicate 90 0)
    SearchByBoW := fun _ pKF2 => List.range' (1000 * pKF2) 20 ++ List.replicate 130 0
    OptimizeSim3 := fun _ pKF2 vpMatches1 _ _ =>
      (25, if pKF2 = 21 then 4 / 5 else 1, vpMatches1.take 25 ++ List.replicate 125 0)
    Sim3Solver := fun _ _ _ _ _ => (true, 1)
    DetectNBestCandidates := fun pKF =>
      if pKF = 1 then ([10], []) else if pKF = 2 then ([11], [21])
      else if pKF = 4 then ([12], []) else ([], []) }

/-- An inertial stereo system with place recognition active. -/
def inertialStereo : Config :=
  { mbFixScale := true, mbActiveLC := true, mbInertial := true,
    mSensor := CameraType.IMU_STEREO }

/-- The world of the examples, except that every projection search finds 120 matches and
the optimiser keeps 60 inliers: every refinement against a matched KeyFrame succeeds. -/
def verifyingWorld : World Unit ℚ :=
  { exampleWorld with
    SearchByProjection := fun _ _ vpPoints _ _ =>
      (120, vpPoints.take 120 ++ List.replicate 30 0)
    OptimizeSim3 := fun _ _ vpMatches1 _ _ =>
      (60, 1, vpMatches1.take 60 ++ List.replicate 90 0) }

/-- A state with KeyFrame 5 dequeued: the loop track has verified twice against KeyFrame 10
(last on KeyFrame 4), the merge track once against KeyFrame 20 (on KeyFrame 4), and each has
one miss. -/
def trackedState : State ℚ :=
  { LoopClosing scaleLine with
    mpCurrentKF := 5
    mpLastCurrentKF := 4
    mpLastMap := 1
    mnLoopNumCoincidences := 2
    mnLoopNumNotFound := 1
    mpLoopLastCurrentKF := 4
    mpLoopMatchedKF := 10
    mg2oLoopSlw := 2
    mnMergeNumCoincidences := 1
    mnMergeNumNotFound := 1
    mpMergeLastCurrentKF := 4
    mpMergeMatchedKF := 20
    mg2oMergeSlw := 3 }

/-- The state `trackedState` before KeyFrame 5 is dequeued: KeyFrame 5 waits in the queue. -/
def queuedState : State ℚ :=
  { trackedState with mlpLoopKeyFrameQueue := [5], mpCurrentKF := 4 }

/-- A stereo system without IMU, place recognition active. -/
def plainStereo : Config :=
  { mbFixScale := true, mbActiveLC := true, mbInertial := false, mSensor := CameraType.STEREO }

/-- The members of the worker of configuration `cfg` when its second pass starts: KeyFrame 1
was processed in `exampleWorld` (the Loop track starts with candidate 10) and KeyFrame 2
waits in the queue. -/
def secondPass (cfg : Config) : State ℚ :=
  InsertKeyFrame exampleWorld 2
    (Run cfg scaleLine [⟨[1], exampleWorld⟩] (LoopClosing scaleLine)).1

/-- The stale-flag run: KeyFrames 1, 2 and 3 arrive one per pass, in `exampleWorld`. -/
def staleFlagTicks : List (Tick Unit ℚ) :=
  [⟨[1], exampleWorld⟩, ⟨[2], exampleWorld⟩, ⟨[3], exampleWorld⟩]

/-- The world of the examples with a neighbourhood for the loop correction of KeyFrame 5:
its covisible KeyFrames are 6 and 4; KeyFrame 4 observes the MapPoints 70 and 71 (and has an
empty slot), KeyFrame 5 observes 70, KeyFrame 6 observes 71 and 72; MapPoint 72 is bad. -/
def loopWorld : World Unit ℚ :=
  { exampleWorld with
    GetVectorCovisibleKeyFrames := fun pKF => if pKF = 5 then [6, 4] else []
    GetMapPointMatches := fun pKF =>
      if pKF = 4 then [70, 0, 71] else if pKF = 5 then [70] else if pKF = 6 then [71, 72]
      else []
    isBadMP := fun pMP => decide (pMP = 72) }

/-- Entities for the examples: every MapPoint at position 3, stamped by no KeyFrame. -/
def freshEntities : Entities Unit ℚ :=
  { Tcw := fun _ => (), mapPoint := fun _ => ⟨3, 0, 0⟩ }

end Examples

section InertialMerger

variable {SE3 Sim3 Vec3 : Type}

/-- The calls of `MergeLocal2` to its collaborators. -/
inductive MergeCall (Sim3 : Type)
  /-- `mpLocalMapper->RequestStop()`, with the wait until the local mapper has stopped. -/
  | RequestStop
  /-- `mpLocalMapper->EmptyQueue()`. -/
  | EmptyQueue
  /-- `pMap->ApplyScaledRotation(T_on, s_on, bScaleVel)`, with `T_on` and `s_on` given by the
  similarity `mSold_new`. -/
  | ApplyScaledRotation (pMap : MapPtr) (mSold_new : Sim3) (bScaleVel : Bool)
  /-- `mpTracker->UpdateFrameIMU(s, b, pKF)`, `pKF` being the last KeyFrame of the tracker. -/
  | UpdateFrameIMU (pKF : KeyFramePtr)
  /-- `Optimizer::InertialOptimization(pMap, bg, ba)`. -/
  | InertialOptimization (pMap : MapPtr)
  /-- `pKF->UpdateConnections()`. -/
  | UpdateConnections (pKF : KeyFramePtr)
  /-- `SearchAndFuse(vpCurrentConnectedKFs, vpCheckFuseMapPoint)`. -/
  | SearchAndFuse (vpCurrentConnectedKFs : List KeyFramePtr)
  /-- `Optimizer::MergeInertialBA(pCurrKF, mpMergeMatchedKF, &bStopFlag, pCurrentMap,
  CorrectedSim3)`. -/
  | MergeInertialBA (pCurrKF mpMergeMatchedKF : KeyFramePtr) (pCurrentMap : MapPtr)
  /-- `mpLocalMapper->Release()`. -/
  | Release
  deriving DecidableEq, Repr

/-- What `MergeLocal2` reads and writes, apart from the poses and positions changed inside
the calls recorded in `calls`: the sets of the maps, the spanning tree, the IMU flags of
the maps, the members guarded by `mMutexGBA`, and the members `mvpMergeConnectedKFs` and
`hasMergedLocalMap`. -/
structure MergeState (Sim3 : Type) where
  atlas : AtlasState
  tree : SpanningTree
  /-- `pMap->GetIniertialBA1()` / `SetIniertialBA1()`. -/
  mbIMU_BA1 : MapPtr → Bool
  /-- `pMap->GetIniertialBA2()` / `SetIniertialBA2()`. -/
  mbIMU_BA2 : MapPtr → Bool
  /-- `pMap->isImuInitialized()` / `SetImuInitialized()`. -/
  mbImuInitialized : MapPtr → Bool
  gba : GBAState
  mvpMergeConnectedKFs : List KeyFramePtr
  hasMergedLocalMap : Bool
  calls : List (MergeCall Sim3)

/-- The loop of lines 1642-1651 of `MergeLocal2`: the KeyFrames of the merge map that are
neither null nor bad and name the merge map as theirs are moved to the current map. -/
def MergeLocal2.moveKeyFrames (W : World SE3 Sim3) (pCurrentMap pMergeMap : MapPtr)
    (A : AtlasState) : AtlasState :=
  ((A.mspKeyFrames pMergeMap).sort (· ≤ ·)).foldl
    (fun A pKFi =>
      if pKFi = 0 ∨ W.isBad pKFi = true ∨ A.kfMap pKFi ≠ pMergeMap then A
      else MergeLocal.moveKeyFrame pMergeMap pCurrentMap A pKFi)
    A

/-- The loop of lines 1653-1659 of `MergeLocal2`, over the MapPoints the merge map held at
line 1640. -/
def MergeLocal2.moveMapPoints (W : World SE3 Sim3) (pCurrentMap pMergeMap : MapPtr)
    (vpMergeMapMPs : List MapPointPtr) (A : AtlasState) : AtlasState :=
  vpMergeMapMPs.foldl
    (fun A pMPi =>
      if pMPi = 0 ∨ W.isBadMP pMPi = true ∨ A.mpMap pMPi ≠ pMergeMap then A
      else MergeLocal.moveMapPoint pMergeMap pCurrentMap A pMPi)
    A

/-- `LoopClosing::MergeLocal2` (lines 1544-1804), as far as `MergeState` goes; `mSold_new`
is the member, `GetLastKeyFrame` the value of `mpTracker->GetLastKeyFrame()` during the
call, and `fuel` the number of tests allowed to the loop of lines 1684-1690.  The member
`loopClosed` (line 1546), the similarities `NonCorrectedSim3` (lines 1662-1667), the call
`SetFirstConnection` (line 1680) and the vector `vpCheckFuseMapPoint` (lines 1721-1733) are
not recorded. -/
def MergeLocal2 (cfg : Config) (G : Geometry SE3 Sim3 Vec3) (W : World SE3 Sim3) (fuel : Nat)
    (mpCurrentKF mpMergeMatchedKF : KeyFramePtr) (mSold_new : Sim3)
    (GetLastKeyFrame : KeyFramePtr) (st : MergeState Sim3) : Option (MergeState Sim3) :=
  let gba := AbortGBA st.gba
  let pCurrentMap := st.atlas.kfMap mpCurrentKF
  let pMergeMap := st.atlas.kfMap mpMergeMatchedKF
  let s_on := G.scale mSold_new
  let bScaleVel := decide (s_on ≠ 1)
  let c1 := st.calls ++
    [MergeCall.RequestStop, MergeCall.EmptyQueue,
      MergeCall.ApplyScaledRotation st.atlas.mpCurrentMap mSold_new bScaleVel,
      MergeCall.UpdateFrameIMU GetLastKeyFrame]
  let numKFnew := (st.atlas.mspKeyFrames pCurrentMap).card
  let st1 : MergeState Sim3 :=
    if isImuSensor cfg.mSensor = true ∧ st.mbIMU_BA2 pCurrentMap = false then
      { st with
        gba := gba
        calls := c1 ++
          [MergeCall.InertialOptimization pCurrentMap, MergeCall.UpdateFrameIMU GetLastKeyFrame]
        mbIMU_BA2 := Function.update st.mbIMU_BA2 pCurrentMap true
        mbIMU_BA1 := Function.update st.mbIMU_BA1 pCurrentMap true
        mbImuInitialized := Function.update st.mbImuInitialized pCurrentMap true }
    else { st with gba := gba, calls := c1 }
  let vpMergeMapMPs := (st1.atlas.mspMapPoints pMergeMap).sort (· ≤ ·)
  let A1 := MergeLocal2.moveKeyFrames W pCurrentMap pMergeMap st1.atlas
  let A2 := MergeLocal2.moveMapPoints W pCurrentMap pMergeMap vpMergeMapMPs A1
  match MergeLocal2.rebuildEssentialGraph fuel st1.tree mpCurrentKF mpMergeMatchedKF with
  | none => none
  | some tree =>
    let mvpMergeConnectedKFs :=
      (st1.mvpMergeConnectedKFs ++ [mpMergeMatchedKF] ++
        W.GetVectorCovisibleKeyFrames mpMergeMatchedKF).take 6
    let vpCurrentConnectedKFs :=
      ([mpCurrentKF] ++ W.GetVectorCovisibleKeyFrames mpCurrentKF).take 6
    let c2 := st1.calls ++
      [MergeCall.UpdateConnections mpCurrentKF, MergeCall.SearchAndFuse vpCurrentConnectedKFs] ++
      (vpCurrentConnectedKFs.filter (fun k => !(decide (k = 0) || W.isBad k))).map
        MergeCall.UpdateConnections ++
      (mvpMergeConnectedKFs.filter (fun k => !(decide (k = 0) || W.isBad k))).map
        MergeCall.UpdateConnections
    let st2 : MergeState Sim3 :=
      { st1 with atlas := A2, tree := tree.1, mvpMergeConnectedKFs := mvpMergeConnectedKFs }
    if numKFnew < 10 then some { st2 with calls := c2 ++ [MergeCall.Release] }
    else if GetLastKeyFrame = 0 then some { st2 with calls := c2 ++ [MergeCall.Release] }
    else
      some
        { st2 with
          calls := c2 ++
            [MergeCall.MergeInertialBA GetLastKeyFrame mpMergeMatchedKF pCurrentMap,
              MergeCall.Release]
          hasMergedLocalMap := true }

end InertialMerger

section MoreExamples

/-- The world of the examples with KeyFrame 7 as the origin of its map: its `mnId` is 0. -/
def originWorld : World Unit ℚ :=
  { exampleWorld with mnId := fun pKF => if pKF = 7 then 0 else pKF }

/-- KeyFrames 7 (the origin), 1 and 2 are inserted, the worker passes twice, KeyFrame 3 is
inserted. -/
def queueOps : List (QueueOp Unit ℚ) :=
  [QueueOp.insert originWorld 7, QueueOp.insert originWorld 1, QueueOp.insert originWorld 2,
    QueueOp.detect originWorld, QueueOp.detect originWorld, QueueOp.insert originWorld 3]

/-- The world of the examples with a map of 4 KeyFrames. -/
def smallMapWorld : World Unit ℚ :=
  { exampleWorld with numKeyFrames := fun _ => 4 }

/-- The state `queuedState` with a reset of map 1 requested and the KeyFrames 5, 40 and 6
in the queue; KeyFrame 40 belongs to map 2 in `resetWorld`. -/
def resetState : State ℚ :=
  { queuedState with
    mlpLoopKeyFrameQueue := [5, 40, 6]
    mbResetActiveMapRequested := true
    mpMapToReset := 1 }

/-- The world of the examples with KeyFrame 40 in map 2. -/
def resetWorld : World Unit ℚ :=
  { exampleWorld with GetMap := fun pKF => if pKF = 40 then 2 else 1 }

/-- The world `verifyingWorld` with an optimiser that leaves a relative similarity of
scale 4/5. -/
def refiningWorld : World Unit ℚ :=
  { verifyingWorld with
    OptimizeSim3 := fun _ _ vpMatches1 _ _ =>
      (60, 4 / 5, vpMatches1.take 60 ++ List.replicate 90 0) }

/-- The world `verifyingWorld` with 95 matches in every projection search of the
refinement. -/
def subThresholdWorld : World Unit ℚ :=
  { verifyingWorld with
    SearchByProjection := fun _ _ vpPoints _ _ =>
      (95, vpPoints.take 95 ++ List.replicate 55 0) }

/-- The world of the examples where the BoW database proposes the loop candidates 10, 11
and 12 for KeyFrame 1, and the projection search with the optimised similarity finds 120
matches for candidate 10 and 130 for the candidates 11 and 12. -/
def selectionWorld : World Unit ℚ :=
  { exampleWorld with
    SearchByProjection := fun pKF Scw vpPoints th ratio =>
      if th = 5 then
        if vpPoints.head? = some 10000 then (120, vpPoints.take 120 ++ List.replicate 30 0)
        else (130, vpPoints.take 130 ++ List.replicate 20 0)
      else exampleWorld.SearchByProjection pKF Scw vpPoints th ratio
    DetectNBestCandidates := fun pKF => if pKF = 1 then ([10, 11, 12], []) else ([], []) }

/-- The world of the examples where the best covisible KeyFrames of the candidate 10 are 40
and 31, the latter connected to KeyFrame 1. -/
def nearWorld : World Unit ℚ :=
  { exampleWorld with
    GetBestCovisibilityKeyFrames := fun pKF n =>
      if pKF = 10 then [40, 31] else exampleWorld.GetBestCovisibilityKeyFrames pKF n }

/-- A worker built with `bFixScale = true` and `bInertial = false` whose tracker reports the
sensor `IMU_MONOCULAR`. -/
def monoInertialTracker : Config :=
  { mbFixScale := true, mbActiveLC := true, mbInertial := false,
    mSensor := CameraType.IMU_MONOCULAR }

/-- The world of the examples with a map that has not reached IMU stage 2. -/
def beforeStage2World : World Unit ℚ :=
  { exampleWorld with GetIniertialBA2 := fun _ => false }

/-- The first call of the detector of a stereo worker: KeyFrame 1 in `exampleWorld`. -/
def firstDetection : Bool × State ℚ × List (Event ℚ) :=
  NewDetectCommonRegions plainStereo scaleLine exampleWorld
    (InsertKeyFrame exampleWorld 1 (LoopClosing scaleLine))

/-- The first pass of a stereo worker: KeyFrame 1 in `exampleWorld`. -/
def firstPass : State ℚ × List (Event ℚ) :=
  Run plainStereo scaleLine [⟨[1], exampleWorld⟩] (LoopClosing scaleLine)

/-- The refinement of KeyFrame 5 against KeyFrame 10 in `refiningWorld`, from the predicted
similarity of scale 2. -/
def refinedExample : RefineResult ℚ :=
  DetectAndReffineSim3FromLastKF inertialStereo scaleLine refiningWorld 5 5 10 2

/-- The similarity `gScm` that `OptimizeSim3` leaves in `refinedExample` (line 482). -/
def refinedExample.gScm : ℚ :=
  (refiningWorld.OptimizeSim3 5 10
    (FindMatchesByProjection refiningWorld 5 10 (2 : ℚ)).vpMatchedMapPoints
    (scaleLine.mul 2 (scaleLine.ofSE3 (refiningWorld.GetPoseInverse 10))) true).2.1

/-- The call of the detector for KeyFrame 1 of the worker `monoInertialTracker` in
`beforeStage2World`. -/
def beforeStage2Detection : Bool × State ℚ × List (Event ℚ) :=
  NewDetectCommonRegions monoInertialTracker scaleLine beforeStage2World
    (InsertKeyFrame beforeStage2World 1 (LoopClosing scaleLine))

end MoreExamples

section LaterExamples

/-- Similarities with a scale and a rotation vector `(roll, pitch, yaw)`, composed
componentwise (the rotations are taken to commute); there is no translation and poses carry
no information.  `ExpSO3` and `LogSO3` are inverse to each other, and the scale of
`g2o::Sim3(R, t, s)` is `s`. -/
def rotatedLine : Geometry Unit (ℚ × ℚ × ℚ × ℚ) ℚ :=
  { seMul := fun _ _ => ()
    ofSE3 := fun _ => (1, 0, 0, 0)
    mul := fun a b => (a.1 * b.1, a.2.1 + b.2.1, a.2.2.1 + b.2.2.1, a.2.2.2 + b.2.2.2)
    inverse := fun a => (a.1⁻¹, -a.2.1, -a.2.2.1, -a.2.2.2)
    map := fun a p => a.1 * p
    scale := fun a => a.1
    unitScale := fun a => (1, a.2)
    toSE3 := fun _ => ()
    LogSO3 := fun a => a.2
    translation := fun _ => 0
    ofExpSO3 := fun phi _ s => (s, phi)
    identity := (1, 0, 0, 0) }

/-- The world of the examples for the similarities of `rotatedLine`: as `exampleWorld`,
except that the solver returns the identity and the optimiser leaves, for every candidate,
a scale of 1 and a rotation with a roll of 1/2 rad and a yaw of 1/10 rad. -/
def rolledWorld : World Unit (ℚ × ℚ × ℚ × ℚ) :=
  { GetPose := exampleWorld.GetPose
    GetPoseInverse := exampleWorld.GetPoseInverse
    GetMap := exampleWorld.GetMap
    isBad := exampleWorld.isBad
    isBadMP := exampleWorld.isBadMP
    GetBestCovisibilityKeyFrames := exampleWorld.GetBestCovisibilityKeyFrames
    GetConnectedKeyFrames := exampleWorld.GetConnectedKeyFrames
    GetVectorCovisibleKeyFrames := exampleWorld.GetVectorCovisibleKeyFrames
    GetMapPointMatches := exampleWorld.GetMapPointMatches
    GetReferenceKeyFrame := exampleWorld.GetReferenceKeyFrame
    GetIniertialBA1 := exampleWorld.GetIniertialBA1
    GetIniertialBA2 := exampleWorld.GetIniertialBA2
    isImuInitialized := exampleWorld.isImuInitialized
    numKeyFrames := exampleWorld.numKeyFrames
    mnId := exampleWorld.mnId
    SearchByProjection := fun pKF S vpPoints th ratio =>
      exampleWorld.SearchByProjection pKF S.1 vpPoints th ratio
    SearchByProjectionKF := fun pKF S vpPoints vpPointsKFs th ratio =>
      exampleWorld.SearchByProjectionKF pKF S.1 vpPoints vpPointsKFs th ratio
    SearchByBoW := exampleWorld.SearchByBoW
    OptimizeSim3 := fun _ _ vpMatches1 _ _ =>
      (25, (1, 1 / 2, 0, 1 / 10), vpMatches1.take 25 ++ List.replicate 125 0)
    Sim3Solver := fun _ _ _ _ _ => (true, (1, 0, 0, 0))
    DetectNBestCandidates := exampleWorld.DetectNBestCandidates }

/-- The world `rolledWorld` with a map whose IMU is not initialised. -/
def rolledWorldNoImu : World Unit (ℚ × ℚ × ℚ × ℚ) :=
  { rolledWorld with isImuInitialized := fun _ => false }

/-- The members of the inertial stereo worker with the geometry `rotatedLine` when its
second pass starts: KeyFrame 1 was processed in `rolledWorld` and KeyFrame 2 waits in the
queue. -/
def rolledSecondPass : State (ℚ × ℚ × ℚ × ℚ) :=
  InsertKeyFrame rolledWorld 2
    (Run inertialStereo rotatedLine [⟨[1], rolledWorld⟩] (LoopClosing rotatedLine)).1

/-- The detection for KeyFrame 2 in the second pass of `rolledSecondPass`. -/
def rolledDetection : Bool × State (ℚ × ℚ × ℚ × ℚ) × List (Event (ℚ × ℚ × ℚ × ℚ)) :=
  NewDetectCommonRegions inertialStereo rotatedLine rolledWorld rolledSecondPass

/-- The second pass of the inertial stereo worker with the geometry `rotatedLine` in
`rolledWorld`. -/
def rolledPass : State (ℚ × ℚ × ℚ × ℚ) × List (Event (ℚ × ℚ × ℚ × ℚ)) × Bool :=
  Run.iteration inertialStereo rotatedLine rolledWorld rolledSecondPass

/-- The maps of a system without IMU at the end of a merge of the map 1 into the map 2:
no map is IMU-initialised, the old current map 1 is empty and the merge map 2 holds 330
KeyFrames. -/
def visualStatus : MapStatus :=
  { isImuInitialized := fun _ => false
    KeyFramesInMap := fun pMap => if pMap = 2 then 330 else 0
    CountMaps := 2 }

/-- The members of the inertial worker when its third pass starts in the run
`staleFlagTicks`: two passes are done and KeyFrame 3 waits in the queue. -/
def thirdPass : State ℚ :=
  InsertKeyFrame exampleWorld 3
    (Run inertialStereo scaleLine (staleFlagTicks.take 2) (LoopClosing scaleLine)).1

/-- A worker with place recognition deactivated. -/
def inactiveStereo : Config :=
  { plainStereo with mbActiveLC := false }

/-- The state `queuedState` with a full reset requested. -/
def resetRequested : State ℚ :=
  { queuedState with mbResetRequested := true }

/-- A run of `RunGlobalBundleAdjustment` during which the IMU of the map is initialised:
the launch reads `bImuInit = false`, the commit block finds the IMU initialised. -/
def imuInitSchedule : List GBAStep :=
  [GBAStep.launch false, GBAStep.capture 0, GBAStep.commit 0 true]

/-- A run of `RunGlobalBundleAdjustment` aborted by `MergeLocal2`, which launches no new
run, between line 1983 and the lock of line 1990. -/
def abortedSchedule : List GBAStep :=
  [GBAStep.launch false, GBAStep.capture 0, GBAStep.abort, GBAStep.commit 0 false]

/-- The guarded members while a run of `RunGlobalBundleAdjustment` is under way. -/
def runningGBA : GBAState :=
  LaunchGBA GBAState.initial

/-- KeyFrame 5 with the covisible KeyFrames 4 and 6: before the update of the connections
KeyFrame 4 has the neighbours 5 and 3, afterwards the KeyFrames 5, 3, 6 and 12 are connected
to it. -/
def connectionsBefore : KeyFramePtr → List KeyFramePtr :=
  fun pKF => if pKF = 4 then [5, 3] else if pKF = 5 then [4, 6] else if pKF = 6 then [5] else []

/-- The connected KeyFrames after the update of the connections, see
`connectionsBefore`. -/
def connectionsAfter : KeyFramePtr → Finset KeyFramePtr :=
  fun pKF => if pKF = 4 then {5, 3, 6, 12} else if pKF = 5 then {4, 6, 12, 13}
    else if pKF = 6 then {5, 4} else ∅

/-- A temporal chain of four KeyFrames, 3, 4, 5 and 6 in the order of their creation;
KeyFrame `k` observes the MapPoint `10 k`. -/
def fourKeyFrames : TemporalChain :=
  { mPrevKF := fun pKF => if pKF = 4 then 3 else if pKF = 5 then 4 else if pKF = 6 then 5 else 0
    mNextKF := fun pKF => if pKF = 3 then 4 else if pKF = 4 then 5 else if pKF = 5 then 6 else 0
    GetMapPoints := fun pKF => {10 * pKF} }

/-- The parents of two spanning trees: KeyFrame 1 is the root of the tree of the
KeyFrames 1, 2, 3, 4 (2 under 1, 3 and 4 under 2) and KeyFrame 10 the root of the tree of
the KeyFrames 10 and 11. -/
def twoTrees.parent (pKF : KeyFramePtr) : KeyFramePtr :=
  if pKF = 2 then 1 else if pKF = 3 then 2 else if pKF = 4 then 2 else if pKF = 11 then 10
  else 0

/-- The two spanning trees of `twoTrees.parent`, each KeyFrame among the children of its
parent. -/
def twoTrees : SpanningTree :=
  { mpParent := twoTrees.parent
    mspChildrens := fun pKF =>
      if pKF = 0 then ∅
      else ({2, 3, 4, 11} : Finset KeyFramePtr).filter (fun b => twoTrees.parent b = pKF) }

/-- The parents of the KeyFrames 1 to 10, each the child of the one before, KeyFrame 1 being
the root; every other KeyFrame, among them KeyFrame 20, has no parent. -/
def tenAndOne.parent (pKF : KeyFramePtr) : KeyFramePtr :=
  if 2 ≤ pKF ∧ pKF ≤ 10 then pKF - 1 else 0

/-- The state before a merge of the map 1, the current one, which holds the KeyFrames 1 to
10 and the MapPoint 70 and has not reached IMU stage 2, with the map 2, which holds the
KeyFrame 20 and the MapPoint 90.  No Global Bundle Adjustment is running. -/
def tenAndOne : MergeState ℚ :=
  { atlas :=
      { mspKeyFrames := fun pMap =>
          if pMap = 1 then Finset.Icc 1 10 else if pMap = 2 then {20} else ∅
        mspMapPoints := fun pMap => if pMap = 1 then {70} else if pMap = 2 then {90} else ∅
        kfMap := fun pKF => if pKF = 20 then 2 else 1
        mpMap := fun pMP => if pMP = 90 then 2 else 1
        mpCurrentMap := 1
        mbBad := fun _ => false }
    tree :=
      { mpParent := tenAndOne.parent
        mspChildrens := fun pKF =>
          if pKF = 0 then ∅
          else (Finset.Icc 2 10).filter (fun b => tenAndOne.parent b = pKF) }
    mbIMU_BA1 := fun _ => false
    mbIMU_BA2 := fun _ => false
    mbImuInitialized := fun _ => true
    gba := GBAState.initial
    mvpMergeConnectedKFs := []
    hasMergedLocalMap := false
    calls := [] }

/-- The merge of `tenAndOne` by `MergeLocal2` for the current KeyFrame 5 and the matched
KeyFrame 20, with `mSold_new` of scale 1, when the tracker has no last KeyFrame. -/
def nullLastKeyFrameMerge : Option (MergeState ℚ) :=
  MergeLocal2 inertialStereo scaleLine exampleWorld 1 5 20 1 0 tenAndOne

end LaterExamples

section TrackTheorems

variable {SE3 Sim3 Vec3 : Type}

theorem loopTrack_frame (cfg : Config) (G : Geometry SE3 Sim3 Vec3) (W : World SE3 Sim3)
    (s : State Sim3) :
    let t := (NewDetectCommonRegions.loopTrack cfg G W s).2.1
    t.mpCurrentKF = s.mpCurrentKF ∧ t.track Track.Merge = s.track Track.Merge := by
  simp only [NewDetectCommonRegions.loopTrack]
  split_ifs <;> simp [State.track]

theorem mergeRefine_congr (cfg : Config) (G : Geometry SE3 Sim3 Vec3) (W : World SE3 Sim3)
    (s t : State Sim3) (hc : t.mpCurrentKF = s.mpCurrentKF)
    (hm : t.track Track.Merge = s.track Track.Merge) :
    NewDetectCommonRegions.mergeRefine cfg G W t = NewDetectCommonRegions.mergeRefine cfg G W s := by
  simp only [State.track, DetectionState.mk.injEq] at hm
  obtain ⟨-, -, h1, h2, h3, -, -, -⟩ := hm
  simp [NewDetectCommonRegions.mergeRefine, hc, h1, h2, h3]

theorem mergeTrack_frame (cfg : Config) (G : Geometry SE3 Sim3 Vec3) (W : World SE3 Sim3)
    (s : State Sim3) :
    let t := (NewDetectCommonRegions.mergeTrack cfg G W s).2.1
    t.mpCurrentKF = s.mpCurrentKF ∧ t.track Track.Loop = s.track Track.Loop := by
  simp only [NewDetectCommonRegions.mergeTrack]
  split_ifs <;> simp [State.track]

theorem loopBoW_frame (cfg : Config) (G : Geometry SE3 Sim3 Vec3) (W : World SE3 Sim3)
    (c : List KeyFramePtr) (s : State Sim3) :
    let t := (NewDetectCommonRegions.loopBoW cfg G W c s).1
    t.mpCurrentKF = s.mpCurrentKF ∧ t.track Track.Merge = s.track Track.Merge := by
  simp [NewDetectCommonRegions.loopBoW, State.track]

theorem mergeBoW_frame (cfg : Config) (G : Geometry SE3 Sim3 Vec3) (W : World SE3 Sim3)
    (c : List KeyFramePtr) (s : State Sim3) :
    let t := (NewDetectCommonRegions.mergeBoW cfg G W c s).1
    t.mpCurrentKF = s.mpCurrentKF ∧ t.track Track.Loop = s.track Track.Loop := by
  simp [NewDetectCommonRegions.mergeBoW, State.track]

theorem detect_loop_of_success (cfg : Config) (G : Geometry SE3 Sim3 Vec3) (W : World SE3 Sim3)
    (s : State Sim3) (h : (NewDetectCommonRegions.loopTrack cfg G W s).1 = true) :
    (NewDetectCommonRegions.detect cfg G W s).2.1.track Track.Loop =
      (NewDetectCommonRegions.loopTrack cfg G W s).2.1.track Track.Loop := by
  have hm := (mergeTrack_frame cfg G W (NewDetectCommonRegions.loopTrack cfg G W s).2.1).2
  simp only [NewDetectCommonRegions.detect, h]
  split_ifs <;> simp_all [(mergeBoW_frame cfg G W _ _).2]

theorem detect_merge_of_success (cfg : Config) (G : Geometry SE3 Sim3 Vec3)
    (W : World SE3 Sim3) (s : State Sim3)
    (h : (NewDetectCommonRegions.mergeTrack cfg G W
      (NewDetectCommonRegions.loopTrack cfg G W s).2.1).1 = true) :
    (NewDetectCommonRegions.detect cfg G W s).2.1.track Track.Merge =
      (NewDetectCommonRegions.mergeTrack cfg G W
        (NewDetectCommonRegions.loopTrack cfg G W s).2.1).2.1.track Track.Merge := by
  simp only [NewDetectCommonRegions.detect, h]
  split_ifs <;> simp_all [(loopBoW_frame cfg G W _ _).2]

theorem detect_events_of_tracks (cfg : Config) (G : Geometry SE3 Sim3 Vec3)
    (W : World SE3 Sim3) (s : State Sim3) (e : Event Sim3)
    (h : e ∈ (NewDetectCommonRegions.loopTrack cfg G W s).2.2 ∨
      e ∈ (NewDetectCommonRegions.mergeTrack cfg G W
        (NewDetectCommonRegions.loopTrack cfg G W s).2.1).2.2) :
    e ∈ (NewDetectCommonRegions.detect cfg G W s).2.2 := by
  simp only [NewDetectCommonRegions.detect]
  generalize NewDetectCommonRegions.loopTrack cfg G W s = l at h ⊢
  generalize NewDetectCommonRegions.mergeTrack cfg G W l.2.1 = m at h ⊢
  split_ifs <;> simp only [List.mem_append] <;> tauto

theorem trackStep_of_success (cfg : Config) (G : Geometry SE3 Sim3 Vec3) (W : World SE3 Sim3)
    (s : State Sim3) (k : Track) (hpos : 0 < (s.track k).num_coincidences)
    (hok : (NewDetectCommonRegions.refine cfg G W k s).ret = true) :
    let t := NewDetectCommonRegions.trackStep cfg G W k s
    t.1 = true ∧
    (t.2.1.track k).num_coincidences = (s.track k).num_coincidences + 1 ∧
    (t.2.1.track k).last_current_kf = s.mpCurrentKF ∧
    Event.SetErase (s.track k).last_current_kf ∈ t.2.2 ∧
    (t.2.1.track k).Sim3_last_w = (NewDetectCommonRegions.refine cfg G W k s).gScw ∧
    (t.2.1.track k).matched_kf = (s.track k).matched_kf ∧
    (t.2.1.track k).detected = decide ((s.track k).num_coincidences + 1 ≥ 3) := by
  cases k
  · simp only [State.track] at hpos
    simp only [NewDetectCommonRegions.refine] at hok
    simp [NewDetectCommonRegions.trackStep, NewDetectCommonRegions.loopTrack,
      NewDetectCommonRegions.refine, State.track, hpos, hok]
  · simp only [State.track] at hpos
    simp only [NewDetectCommonRegions.refine] at hok
    simp [NewDetectCommonRegions.trackStep, NewDetectCommonRegions.mergeTrack,
      NewDetectCommonRegions.refine, State.track, hpos, hok]

theorem detect_track_success (cfg : Config) (G : Geometry SE3 Sim3 Vec3) (W : World SE3 Sim3)
    (s : State Sim3) (k : Track) (hpos : 0 < (s.track k).num_coincidences)
    (hok : (NewDetectCommonRegions.refine cfg G W k s).ret = true) :
    let r := NewDetectCommonRegions.detect cfg G W s
    (r.2.1.track k).num_coincidences = (s.track k).num_coincidences + 1 ∧
    (r.2.1.track k).last_current_kf = s.mpCurrentKF ∧
    Event.SetErase (s.track k).last_current_kf ∈ r.2.2 ∧
    (r.2.1.track k).Sim3_last_w = (NewDetectCommonRegions.refine cfg G W k s).gScw ∧
    (r.2.1.track k).matched_kf = (s.track k).matched_kf ∧
    (r.2.1.track k).detected = decide ((s.track k).num_coincidences + 1 ≥ 3) := by
  cases k
  · have h := trackStep_of_success cfg G W s Track.Loop hpos hok
    simp only [NewDetectCommonRegions.trackStep] at h
    obtain ⟨h1, h2, h3, h4, h5, h6, h7⟩ := h
    have hd := detect_loop_of_success cfg G W s h1
    have he := detect_events_of_tracks cfg G W s _ (Or.inl h4)
    simp only [hd]
    exact ⟨h2, h3, he, h5, h6, h7⟩
  · have hf := loopTrack_frame cfg G W s
    have hr := mergeRefine_congr cfg G W s _ hf.1 hf.2
    have hok2 : (NewDetectCommonRegions.refine cfg G W Track.Merge
        (NewDetectCommonRegions.loopTrack cfg G W s).2.1).ret = true := by
      simpa [NewDetectCommonRegions.refine, hr] using hok
    have hpos2 : 0 < ((NewDetectCommonRegions.loopTrack cfg G W s).2.1.track
        Track.Merge).num_coincidences := by
      rw [hf.2]; exact hpos
    have h := trackStep_of_success cfg G W _ Track.Merge hpos2 hok2
    simp only [NewDetectCommonRegions.trackStep] at h
    obtain ⟨h1, h2, h3, h4, h5, h6, h7⟩ := h
    have hd := detect_merge_of_success cfg G W s h1
    have he := detect_events_of_tracks cfg G W s _ (Or.inr h4)
    simp only [hd]
    simp only [hf.2, hf.1, NewDetectCommonRegions.refine, hr] at h2 h3 h5 h6 h7 he
    exact ⟨h2, h3, he, h5, h6, h7⟩

theorem dequeue_track (W : World SE3 Sim3) (C : KeyFramePtr) (rest : List KeyFramePtr)
    (s : State Sim3) (k : Track) :
    (NewDetectCommonRegions.dequeue W C rest s).track k = s.track k := by
  cases k <;> rfl

/-- C3. Track step, success case. Let a call of `NewDetectCommonRegions` (place recognition
active) dequeue the KeyFrame `C` and pass the early exits. For either track with
`num_coincidences = n > 0` whose refinement against `matched_kf` succeeds for `C`: when the
call returns, `num_coincidences = n + 1`, `last_current_kf = C`, the previous
`last_current_kf` has received `SetErase`, the stored similarity is the one the refinement
returned, `matched_kf` is unchanged, and the detected flag of the track is `n + 1 ≥ 3`. -/
theorem track_step_success (cfg : Config) (G : Geometry SE3 Sim3 Vec3) (W : World SE3 Sim3)
    (s : State Sim3) (k : Track) (n : Nat) (C : KeyFramePtr) (rest : List KeyFramePtr)
    (hact : cfg.mbActiveLC = true) (hq : s.mlpLoopKeyFrameQueue = C :: rest)
    (hskip : ¬NewDetectCommonRegions.skips cfg W (W.GetMap C))
    (hn : (s.track k).num_coincidences = n) (hpos : 0 < n)
    (hok : (NewDetectCommonRegions.refine cfg G W k
      (NewDetectCommonRegions.dequeue W C rest s)).ret = true) :
    let r := NewDetectCommonRegions cfg G W s
    (r.2.1.track k).num_coincidences = n + 1 ∧
    (r.2.1.track k).last_current_kf = C ∧
    Event.SetErase (s.track k).last_current_kf ∈ r.2.2 ∧
    (r.2.1.track k).Sim3_last_w = (NewDetectCommonRegions.refine cfg G W k
      (NewDetectCommonRegions.dequeue W C rest s)).gScw ∧
    (r.2.1.track k).matched_kf = (s.track k).matched_kf ∧
    (r.2.1.track k).detected = decide (n + 1 ≥ 3) := by
  subst hn
  have ht := dequeue_track W C rest s k
  have hd := detect_track_success cfg G W (NewDetectCommonRegions.dequeue W C rest s) k
    (by rw [ht]; exact hpos) hok
  simp only [ht] at hd
  obtain ⟨d1, d2, d3, d4, d5, d6⟩ := hd
  simp only [NewDetectCommonRegions.skips, not_or, not_and, not_lt] at hskip
  obtain ⟨k1, k2, k3⟩ := hskip
  have hmap : (NewDetectCommonRegions.dequeue W C rest s).mpLastMap = W.GetMap C := rfl
  have c1 : ¬(cfg.mbInertial = true ∧
      W.GetIniertialBA2 (NewDetectCommonRegions.dequeue W C rest s).mpLastMap = false) := by
    rw [hmap]; exact fun h => absurd h.2 (by simpa using k1 h.1)
  have c2 : ¬(cfg.mSensor = CameraType.STEREO ∧
      W.numKeyFrames (NewDetectCommonRegions.dequeue W C rest s).mpLastMap < 5) := by
    rw [hmap]; exact fun h => absurd h.2 (not_lt.mpr (k2 h.1))
  have c3 : ¬W.numKeyFrames (NewDetectCommonRegions.dequeue W C rest s).mpLastMap < 12 := by
    rw [hmap]; exact not_lt.mpr k3
  simp only [NewDetectCommonRegions, hact, hq, Bool.true_eq_false, if_false, c1, c2, c3]
  refine ⟨d1, d2, ?_, d4, d5, d6⟩
  exact List.mem_append_right _ d3

/-- Witness of C3: `queuedState` (loop count 2, merge count 1, KeyFrame 5 in the queue) with
every refinement succeeding; the call leaves the loop track at 3 coincidences, detected,
and the merge track at 2, not detected. -/
theorem track_step_success_witness :
    ((NewDetectCommonRegions inertialStereo scaleLine verifyingWorld
        queuedState).2.1.track Track.Loop).num_coincidences = 2 + 1 ∧
    ((NewDetectCommonRegions inertialStereo scaleLine verifyingWorld
        queuedState).2.1.track Track.Loop).detected = true ∧
    ((NewDetectCommonRegions inertialStereo scaleLine verifyingWorld
        queuedState).2.1.track Track.Merge).num_coincidences = 1 + 1 ∧
    ((NewDetectCommonRegions inertialStereo scaleLine verifyingWorld
        queuedState).2.1.track Track.Merge).detected = false :=
  have hl := track_step_success inertialStereo scaleLine verifyingWorld queuedState
    Track.Loop 2 5 [] (by decide!) (by decide!) (by decide!) (by decide!) (by decide!)
    (by decide!)
  have hm := track_step_success inertialStereo scaleLine verifyingWorld queuedState
    Track.Merge 1 5 [] (by decide!) (by decide!) (by decide!) (by decide!) (by decide!)
    (by decide!)
  ⟨hl.1, hl.2.2.2.2.2, hm.1, hm.2.2.2.2.2⟩

/-- C5. Track step, failure case.  For either track with `num_coincidences > 0` whose
refinement fails for the current KeyFrame, the track step counts one more miss; when the miss
counter thereby reaches 2 the state is dropped: `matched_kf` and `last_current_kf` both
receive `SetErase`, `num_coincidences = 0`, `num_not_found = 0` and the two MapPoint lists are
empty; otherwise `num_not_found` is one more than before and `num_coincidences`, `matched_kf`,
`last_current_kf` and the stored similarity are unchanged. -/
theorem track_step_failure (cfg : Config) (G : Geometry SE3 Sim3 Vec3) (W : World SE3 Sim3)
    (s : State Sim3) (k : Track) (hpos : 0 < (s.track k).num_coincidences)
    (hfail : (NewDetectCommonRegions.refine cfg G W k s).ret = false) :
    let t := NewDetectCommonRegions.trackStep cfg G W k s
    t.1 = false ∧
    if (s.track k).num_not_found + 1 ≥ 2 then
      Event.SetErase (s.track k).matched_kf ∈ t.2.2 ∧
      Event.SetErase (s.track k).last_current_kf ∈ t.2.2 ∧
      (t.2.1.track k).num_coincidences = 0 ∧
      (t.2.1.track k).num_not_found = 0 ∧
      (t.2.1.track k).map_points = [] ∧
      (t.2.1.track k).matched_map_points = []
    else
      (t.2.1.track k).num_not_found = (s.track k).num_not_found + 1 ∧
      (t.2.1.track k).num_coincidences = (s.track k).num_coincidences ∧
      (t.2.1.track k).matched_kf = (s.track k).matched_kf ∧
      (t.2.1.track k).last_current_kf = (s.track k).last_current_kf ∧
      (t.2.1.track k).Sim3_last_w = (s.track k).Sim3_last_w := by
  cases k
  · simp only [State.track] at hpos
    simp only [NewDetectCommonRegions.refine] at hfail
    by_cases h2 : s.mnLoopNumNotFound + 1 ≥ 2 <;>
      simp [NewDetectCommonRegions.trackStep, NewDetectCommonRegions.loopTrack,
        State.track, hpos, hfail, h2]
  · simp only [State.track] at hpos
    simp only [NewDetectCommonRegions.refine] at hfail
    by_cases h2 : s.mnMergeNumNotFound + 1 ≥ 2 <;>
      simp [NewDetectCommonRegions.trackStep, NewDetectCommonRegions.mergeTrack,
        State.track, hpos, hfail, h2]

/-- Witness of C5: in `trackedState` both tracks have one miss; in `exampleWorld` the
refinement fails for KeyFrame 5, and each track step drops its state. -/
theorem track_step_failure_witness :
    ((NewDetectCommonRegions.trackStep inertialStereo scaleLine exampleWorld Track.Loop
        trackedState).2.1.track Track.Loop).num_coincidences = 0 ∧
    ((NewDetectCommonRegions.trackStep inertialStereo scaleLine exampleWorld Track.Merge
        trackedState).2.1.track Track.Merge).num_coincidences = 0 :=
  have hl := track_step_failure inertialStereo scaleLine exampleWorld trackedState
    Track.Loop (by decide!) (by decide!)
  have hm := track_step_failure inertialStereo scaleLine exampleWorld trackedState
    Track.Merge (by decide!) (by decide!)
  ⟨(hl.2).2.2.1, (hm.2).2.2.1⟩

end TrackTheorems

section CounterTheorems

variable {SE3 Sim3 Vec3 : Type}

/-- C4 (the code differs). From `trackedState`, where each track has one miss, a successful
track step (world `verifyingWorld`) resets the miss counter of the Loop track to 0 and leaves
the miss counter of the Merge track at 1; a single miss on the next KeyFrame (world
`exampleWorld`) then keeps the Loop track (3 coincidences, 1 miss) and drops the Merge
track (0 coincidences). -/
theorem merge_success_keeps_miss_counter :
    (NewDetectCommonRegions.refine inertialStereo scaleLine verifyingWorld Track.Loop
      trackedState).ret = true ∧
    (NewDetectCommonRegions.refine inertialStereo scaleLine verifyingWorld Track.Merge
      trackedState).ret = true ∧
    ((NewDetectCommonRegions.trackStep inertialStereo scaleLine verifyingWorld Track.Loop
      trackedState).2.1.track Track.Loop).num_not_found = 0 ∧
    ((NewDetectCommonRegions.trackStep inertialStereo scaleLine verifyingWorld Track.Merge
      trackedState).2.1.track Track.Merge).num_not_found = 1 ∧
    ((NewDetectCommonRegions.trackStep inertialStereo scaleLine exampleWorld Track.Loop
      (NewDetectCommonRegions.trackStep inertialStereo scaleLine verifyingWorld Track.Loop
        trackedState).2.1).2.1.track Track.Loop).num_coincidences = 3 ∧
    ((NewDetectCommonRegions.trackStep inertialStereo scaleLine exampleWorld Track.Merge
      (NewDetectCommonRegions.trackStep inertialStereo scaleLine verifyingWorld Track.Merge
        trackedState).2.1).2.1.track Track.Merge).num_coincidences = 0 := by
  decide!

/-- C6, counterexample. KeyFrame 4 starts the Loop track with 2 coincidences (candidate 12).
For KeyFrame 1 the track fails verification once, the fresh BoW search selects candidate 10
with one verifying covisible, and the call returns false: `num_coincidences` goes from 2 to
1, neither kept nor 0, after a single miss. -/
theorem fresh_search_lowers_coincidences :
    (InsertKeyFrame exampleWorld 1
      (Run inertialStereo scaleLine [⟨[4], exampleWorld⟩]
        (LoopClosing scaleLine)).1).mnLoopNumCoincidences = 2 ∧
    (NewDetectCommonRegions inertialStereo scaleLine exampleWorld
      (InsertKeyFrame exampleWorld 1
        (Run inertialStereo scaleLine [⟨[4], exampleWorld⟩] (LoopClosing scaleLine)).1)).1 =
      false ∧
    (NewDetectCommonRegions inertialStereo scaleLine exampleWorld
      (InsertKeyFrame exampleWorld 1
        (Run inertialStereo scaleLine [⟨[4], exampleWorld⟩]
          (LoopClosing scaleLine)).1)).2.1.mnLoopNumCoincidences = 1 := by
  decide!

end CounterTheorems

section MonotoneTheorems

variable {SE3 Sim3 Vec3 : Type}

theorem bow_unselected (cfg : Config) (G : Geometry SE3 Sim3 Vec3) (W : World SE3 Sim3)
    (C : KeyFramePtr) (c : List KeyFramePtr) (p1 p2 : KeyFramePtr) (S : Sim3) (n : Nat)
    (l1 l2 : List MapPointPtr)
    (h : (DetectCommonRegionsFromBoW.best cfg G W C c).1.nBestMatchesReproj ≤ 0) :
    (DetectCommonRegionsFromBoW cfg G W C c p1 p2 S n l1 l2).nNumCoincidences = n ∧
    (DetectCommonRegionsFromBoW cfg G W C c p1 p2 S n l1 l2).ret = false := by
  simp [DetectCommonRegionsFromBoW, not_lt.mpr h]

theorem trackStep_count (cfg : Config) (G : Geometry SE3 Sim3 Vec3) (W : World SE3 Sim3)
    (s : State Sim3) (k : Track) :
    let t := NewDetectCommonRegions.trackStep cfg G W k s
    (s.track k).num_coincidences ≤ (t.2.1.track k).num_coincidences ∨
    ((t.2.1.track k).num_coincidences = 0 ∧ 0 < (s.track k).num_coincidences ∧
      (NewDetectCommonRegions.refine cfg G W k s).ret = false ∧
      (s.track k).num_not_found + 1 ≥ 2) := by
  cases k
  · simp only [NewDetectCommonRegions.trackStep, NewDetectCommonRegions.loopTrack,
      NewDetectCommonRegions.refine]
    split_ifs <;> simp_all [State.track]
  · simp only [NewDetectCommonRegions.trackStep, NewDetectCommonRegions.mergeTrack,
      NewDetectCommonRegions.refine]
    split_ifs <;> simp_all [State.track]

theorem detect_loop_count (cfg : Config) (G : Geometry SE3 Sim3 Vec3) (W : World SE3 Sim3)
    (s : State Sim3)
    (h : (DetectCommonRegionsFromBoW.best cfg G W s.mpCurrentKF
      (W.bowCandidates s.mpCurrentKF Track.Loop)).1.nBestMatchesReproj ≤ 0) :
    (NewDetectCommonRegions.detect cfg G W s).2.1.mnLoopNumCoincidences =
      (NewDetectCommonRegions.loopTrack cfg G W s).2.1.mnLoopNumCoincidences := by
  have hl := loopTrack_frame cfg G W s
  have hm := mergeTrack_frame cfg G W (NewDetectCommonRegions.loopTrack cfg G W s).2.1
  simp only [World.bowCandidates] at h
  simp only [NewDetectCommonRegions.detect]
  generalize NewDetectCommonRegions.loopTrack cfg G W s = l at hl hm ⊢
  generalize NewDetectCommonRegions.mergeTrack cfg G W l.2.1 = m at hm ⊢
  obtain ⟨hm1, hm2⟩ := hm
  have hc : m.2.1.mpCurrentKF = s.mpCurrentKF := hm1.trans hl.1
  have hn : m.2.1.mnLoopNumCoincidences = l.2.1.mnLoopNumCoincidences := by
    simpa [State.track] using congrArg DetectionState.num_coincidences hm2
  split_ifs <;>
    simp_all [NewDetectCommonRegions.loopBoW, NewDetectCommonRegions.mergeBoW, bow_unselected]

theorem detect_merge_count (cfg : Config) (G : Geometry SE3 Sim3 Vec3) (W : World SE3 Sim3)
    (s : State Sim3)
    (h : (DetectCommonRegionsFromBoW.best cfg G W s.mpCurrentKF
      (W.bowCandidates s.mpCurrentKF Track.Merge)).1.nBestMatchesReproj ≤ 0) :
    (NewDetectCommonRegions.detect cfg G W s).2.1.mnMergeNumCoincidences =
      (NewDetectCommonRegions.mergeTrack cfg G W
        (NewDetectCommonRegions.loopTrack cfg G W s).2.1).2.1.mnMergeNumCoincidences := by
  have hl := loopTrack_frame cfg G W s
  have hm := mergeTrack_frame cfg G W (NewDetectCommonRegions.loopTrack cfg G W s).2.1
  simp only [World.bowCandidates] at h
  simp only [NewDetectCommonRegions.detect]
  generalize NewDetectCommonRegions.loopTrack cfg G W s = l at hl hm ⊢
  generalize NewDetectCommonRegions.mergeTrack cfg G W l.2.1 = m at hm ⊢
  obtain ⟨hm1, hm2⟩ := hm
  have hc : m.2.1.mpCurrentKF = s.mpCurrentKF := hm1.trans hl.1
  split_ifs <;>
    simp_all [NewDetectCommonRegions.loopBoW, NewDetectCommonRegions.mergeBoW, bow_unselected]

theorem detect_count (cfg : Config) (G : Geometry SE3 Sim3 Vec3) (W : World SE3 Sim3)
    (s : State Sim3) (k : Track)
    (h : (DetectCommonRegionsFromBoW.best cfg G W s.mpCurrentKF
      (W.bowCandidates s.mpCurrentKF k)).1.nBestMatchesReproj ≤ 0) :
    let r := NewDetectCommonRegions.detect cfg G W s
    (s.track k).num_coincidences ≤ (r.2.1.track k).num_coincidences ∨
    ((r.2.1.track k).num_coincidences = 0 ∧ 0 < (s.track k).num_coincidences ∧
      (NewDetectCommonRegions.refine cfg G W k s).ret = false ∧
      (s.track k).num_not_found + 1 ≥ 2) := by
  cases k
  · have h1 := detect_loop_count cfg G W s h
    have h2 := trackStep_count cfg G W s Track.Loop
    simp only [NewDetectCommonRegions.trackStep, State.track] at h2
    simp only [State.track, h1]
    exact h2
  · have h1 := detect_merge_count cfg G W s h
    have hf := loopTrack_frame cfg G W s
    have hr := mergeRefine_congr cfg G W s _ hf.1 hf.2
    have h2 := trackStep_count cfg G W (NewDetectCommonRegions.loopTrack cfg G W s).2.1
      Track.Merge
    simp only [NewDetectCommonRegions.trackStep, hf.2, NewDetectCommonRegions.refine, hr] at h2
    simp only [State.track] at h2
    simp only [State.track, h1, NewDetectCommonRegions.refine]
    exact h2

/-- C6, amended. For every call of `NewDetectCommonRegions` that takes a KeyFrame `pKF` from
the queue and in which the fresh BoW search selects no candidate for the track, the
`num_coincidences` of the track either does not decrease or becomes 0, and it becomes 0 only
when the track failed verification on `pKF` and its miss counter thereby reached 2. -/
theorem coincidences_without_fresh_candidate (cfg : Config) (G : Geometry SE3 Sim3 Vec3)
    (W : World SE3 Sim3) (s : State Sim3) (k : Track) (pKF : KeyFramePtr)
    (rest : List KeyFramePtr) (hq : s.mlpLoopKeyFrameQueue = pKF :: rest)
    (hfresh : (DetectCommonRegionsFromBoW.best cfg G W pKF
      (W.bowCandidates pKF k)).1.nBestMatchesReproj ≤ 0) :
    let r := NewDetectCommonRegions cfg G W s
    (s.track k).num_coincidences ≤ (r.2.1.track k).num_coincidences ∨
    ((r.2.1.track k).num_coincidences = 0 ∧ 0 < (s.track k).num_coincidences ∧
      (NewDetectCommonRegions.refine cfg G W k
        (NewDetectCommonRegions.dequeue W pKF rest s)).ret = false ∧
      (s.track k).num_not_found + 1 ≥ 2) := by
  have hd := detect_count cfg G W (NewDetectCommonRegions.dequeue W pKF rest s) k hfresh
  have ht : (NewDetectCommonRegions.dequeue W pKF rest s).track k = s.track k := by
    cases k <;> simp [NewDetectCommonRegions.dequeue, State.track]
  simp only [ht] at hd
  simp only [NewDetectCommonRegions, hq]
  split_ifs
  · exact Or.inl (le_refl _)
  · exact Or.inl (by simp [ht])
  · exact Or.inl (by simp [ht])
  · exact Or.inl (by simp [ht])
  · exact hd

/-- Witness of C6 as amended: `queuedState` in `exampleWorld`, where the BoW database has no
candidate for KeyFrame 5 and the refinement fails: the Loop track had one miss and is
dropped. -/
theorem coincidences_without_fresh_candidate_witness :
    (queuedState.track Track.Loop).num_coincidences ≤
      ((NewDetectCommonRegions inertialStereo scaleLine exampleWorld
        queuedState).2.1.track Track.Loop).num_coincidences ∨
    (((NewDetectCommonRegions inertialStereo scaleLine exampleWorld
        queuedState).2.1.track Track.Loop).num_coincidences = 0 ∧
      0 < (queuedState.track Track.Loop).num_coincidences ∧
      (NewDetectCommonRegions.refine inertialStereo scaleLine exampleWorld Track.Loop
        (NewDetectCommonRegions.dequeue exampleWorld 5 [] queuedState)).ret = false ∧
      (queuedState.track Track.Loop).num_not_found + 1 ≥ 2) :=
  coincidences_without_fresh_candidate inertialStereo scaleLine exampleWorld queuedState
    Track.Loop 5 [] (by decide!) (by decide!)

end MonotoneTheorems

section RunTheorems

variable {SE3 Sim3 Vec3 : Type}

theorem refine_noCommit (cfg : Config) (G : Geometry SE3 Sim3 Vec3) (W : World SE3 Sim3)
    (a b c : KeyFramePtr) (S : Sim3) :
    ∀ e ∈ (DetectAndReffineSim3FromLastKF cfg G W a b c S).events, e.isCommit = false := by
  simp only [DetectAndReffineSim3FromLastKF]
  split_ifs <;> simp [Event.isCommit]

theorem consensus_noCommit (G : Geometry SE3 Sim3 Vec3) (W : World SE3 Sim3)
    (a b : KeyFramePtr) (S : Sim3) (l : List KeyFramePtr) :
    ∀ st : Nat × List MapPointPtr × List (Event Sim3),
      (∀ e ∈ st.2.2, e.isCommit = false) →
      ∀ e ∈ (DetectCommonRegionsFromBoW.consensus G W a b S l st).2.2, e.isCommit = false := by
  induction l with
  | nil => intro st h; simpa [DetectCommonRegionsFromBoW.consensus] using h
  | cons x xs ih =>
    rintro ⟨n, v, ev⟩ h
    by_cases hn : n < 3
    · simp only [DetectCommonRegionsFromBoW.consensus, hn, if_true]
      apply ih
      simp only [List.forall_mem_append]
      exact ⟨h, by simp [Event.isCommit]⟩
    · simp only [DetectCommonRegionsFromBoW.consensus, hn, if_false]
      exact h

theorem geometric_noCommit (cfg : Config) (G : Geometry SE3 Sim3 Vec3) (W : World SE3 Sim3)
    (C pKFi : KeyFramePtr) (bow : BoWMatches) (st : BoWBest Sim3 × List (Event Sim3))
    (h : ∀ e ∈ st.2, e.isCommit = false) :
    ∀ e ∈ (DetectCommonRegionsFromBoW.geometric cfg G W C pKFi bow st).2,
      e.isCommit = false := by
  have hc := consensus_noCommit G W C pKFi
  simp only [DetectCommonRegionsFromBoW.geometric]
  split_ifs <;>
    first
    | (apply hc; simp only [List.forall_mem_append]; simp [Event.isCommit]; exact h)
    | (simp only [List.forall_mem_append]; simp [Event.isCommit]; exact h)

theorem candidate_noCommit (cfg : Config) (G : Geometry SE3 Sim3 Vec3) (W : World SE3 Sim3)
    (C pKFi : KeyFramePtr) (st : BoWBest Sim3 × List (Event Sim3))
    (h : ∀ e ∈ st.2, e.isCommit = false) :
    ∀ e ∈ (DetectCommonRegionsFromBoW.candidate cfg G W C pKFi st).2, e.isCommit = false := by
  have h1 : ∀ l : List KeyFramePtr,
      ∀ e ∈ st.2 ++ l.map (fun k => (Event.SearchByBoW C k : Event Sim3)),
        e.isCommit = false := by
    intro l
    simp only [List.forall_mem_append]
    refine ⟨h, ?_⟩
    intro e he
    obtain ⟨k, -, rfl⟩ := List.mem_map.mp he
    rfl
  simp only [DetectCommonRegionsFromBoW.candidate]
  split_ifs
  · exact h
  · exact h
  · exact geometric_noCommit cfg G W C pKFi _ _ (h1 _)
  · exact h1 _

theorem best_noCommit (cfg : Config) (G : Geometry SE3 Sim3 Vec3) (W : World SE3 Sim3)
    (C : KeyFramePtr) (c : List KeyFramePtr) :
    ∀ e ∈ (DetectCommonRegionsFromBoW.best cfg G W C c).2, e.isCommit = false := by
  have key : ∀ (l : List KeyFramePtr) (st : BoWBest Sim3 × List (Event Sim3)),
      (∀ e ∈ st.2, e.isCommit = false) →
      ∀ e ∈ (l.foldl
        (fun st pKFi => DetectCommonRegionsFromBoW.candidate cfg G W C pKFi st) st).2,
        e.isCommit = false := by
    intro l
    induction l with
    | nil => intro st h; simpa using h
    | cons x xs ih =>
      intro st h
      simp only [List.foldl_cons]
      exact ih _ (candidate_noCommit cfg G W C x st h)
  exact key c _ (by simp)

theorem bow_noCommit (cfg : Config) (G : Geometry SE3 Sim3 Vec3) (W : World SE3 Sim3)
    (C : KeyFramePtr) (c : List KeyFramePtr) (p1 p2 : KeyFramePtr) (S : Sim3) (n : Nat)
    (l1 l2 : List MapPointPtr) :
    ∀ e ∈ (DetectCommonRegionsFromBoW cfg G W C c p1 p2 S n l1 l2).events,
      e.isCommit = false := by
  have hb := best_noCommit cfg G W C c
  simp only [DetectCommonRegionsFromBoW]
  split_ifs
  · simp only [List.forall_mem_append]
    exact ⟨hb, by simp [Event.isCommit]⟩
  · exact hb

theorem tracks_noCommit (cfg : Config) (G : Geometry SE3 Sim3 Vec3) (W : World SE3 Sim3)
    (s : State Sim3) (k : Track) :
    ∀ e ∈ (NewDetectCommonRegions.trackStep cfg G W k s).2.2, e.isCommit = false := by
  cases k
  · have hr := refine_noCommit cfg G W s.mpCurrentKF s.mpCurrentKF s.mpLoopMatchedKF
    simp only [NewDetectCommonRegions.trackStep, NewDetectCommonRegions.loopTrack,
      NewDetectCommonRegions.loopRefine]
    split_ifs <;> simp only [List.forall_mem_append] <;>
      first
      | exact hr _
      | exact ⟨hr _, by simp [Event.isCommit]⟩
      | simp
  · have hr := refine_noCommit cfg G W s.mpCurrentKF s.mpCurrentKF s.mpMergeMatchedKF
    simp only [NewDetectCommonRegions.trackStep, NewDetectCommonRegions.mergeTrack,
      NewDetectCommonRegions.mergeRefine]
    split_ifs <;> simp only [List.forall_mem_append] <;>
      first
      | exact hr _
      | exact ⟨hr _, by simp [Event.isCommit]⟩
      | simp

theorem detect_noCommit (cfg : Config) (G : Geometry SE3 Sim3 Vec3) (W : World SE3 Sim3)
    (s : State Sim3) :
    ∀ e ∈ (NewDetectCommonRegions.detect cfg G W s).2.2, e.isCommit = false := by
  have hl := tracks_noCommit cfg G W s Track.Loop
  have hm := tracks_noCommit cfg G W (NewDetectCommonRegions.loopTrack cfg G W s).2.1
    Track.Merge
  have hb := bow_noCommit cfg G W
  simp only [NewDetectCommonRegions.trackStep] at hl hm
  simp only [NewDetectCommonRegions.detect]
  generalize NewDetectCommonRegions.loopTrack cfg G W s = l at hl hm ⊢
  generalize NewDetectCommonRegions.mergeTrack cfg G W l.2.1 = m at hm ⊢
  have k1 : ∀ k, (Event.KeyFrameDB_add k : Event Sim3).isCommit = false := fun _ => rfl
  have k2 : ∀ k, (Event.SetErase k : Event Sim3).isCommit = false := fun _ => rfl
  split_ifs <;>
    simp only [List.forall_mem_append, NewDetectCommonRegions.loopBoW,
      NewDetectCommonRegions.mergeBoW] <;>
    (repeat' constructor) <;>
    first
    | exact hl
    | exact hm
    | exact hb _ _ _ _ _ _ _ _
    | simp [k1, k2]

theorem NewDetectCommonRegions_noCommit (cfg : Config) (G : Geometry SE3 Sim3 Vec3)
    (W : World SE3 Sim3) (s : State Sim3) :
    ∀ e ∈ (NewDetectCommonRegions cfg G W s).2.2, e.isCommit = false := by
  simp only [NewDetectCommonRegions]
  split
  · simp
  · split
    · simp
    · have hd := detect_noCommit cfg G W
      have k1 : ∀ k, (Event.KeyFrameDB_add k : Event Sim3).isCommit = false := fun _ => rfl
      have k2 : ∀ k, (Event.SetErase k : Event Sim3).isCommit = false := fun _ => rfl
      have k3 : ∀ k, (Event.SetNotErase k : Event Sim3).isCommit = false := fun _ => rfl
      split_ifs <;> simp only [List.forall_mem_append] <;> (repeat' constructor) <;>
        first
        | exact hd _
        | simp [k1, k2, k3]

end RunTheorems

section CommitTheorems

variable {SE3 Sim3 Vec3 : Type}

theorem isCommit_eq (e : Event Sim3) : e.isCommit = (e.isMerge || e.isCorrectLoop) := by
  cases e <;> rfl

theorem bow_consistent (cfg : Config) (G : Geometry SE3 Sim3 Vec3) (W : World SE3 Sim3)
    (C : KeyFramePtr) (c : List KeyFramePtr) (p1 p2 : KeyFramePtr) (S : Sim3) (n : Nat)
    (l1 l2 : List MapPointPtr) (hn : n < 3) :
    (DetectCommonRegionsFromBoW cfg G W C c p1 p2 S n l1 l2).ret =
      decide (3 ≤ (DetectCommonRegionsFromBoW cfg G W C c p1 p2 S n l1 l2).nNumCoincidences) := by
  simp only [DetectCommonRegionsFromBoW]
  split_ifs
  · rfl
  · simp only [Bool.false_eq, decide_eq_false_iff_not]
    omega

theorem loopTrack_consistent (cfg : Config) (G : Geometry SE3 Sim3 Vec3) (W : World SE3 Sim3)
    (s : State Sim3) (hL : s.mbLoopDetected = false) (h3 : s.mnLoopNumCoincidences < 3) :
    let t := (NewDetectCommonRegions.loopTrack cfg G W s).2.1
    t.mbLoopDetected = decide (3 ≤ t.mnLoopNumCoincidences) ∧
    t.mbMergeDetected = s.mbMergeDetected ∧
    t.mnMergeNumCoincidences = s.mnMergeNumCoincidences := by
  simp only [NewDetectCommonRegions.loopTrack]
  split_ifs <;> simp [hL] <;> omega

theorem mergeTrack_consistent (cfg : Config) (G : Geometry SE3 Sim3 Vec3) (W : World SE3 Sim3)
    (s : State Sim3) (hM : s.mbMergeDetected = false) (h3 : s.mnMergeNumCoincidences < 3) :
    let t := (NewDetectCommonRegions.mergeTrack cfg G W s).2.1
    t.mbMergeDetected = decide (3 ≤ t.mnMergeNumCoincidences) ∧
    t.mbLoopDetected = s.mbLoopDetected ∧
    t.mnLoopNumCoincidences = s.mnLoopNumCoincidences := by
  simp only [NewDetectCommonRegions.mergeTrack]
  split_ifs <;> simp [hM] <;> omega

theorem detect_consistent (cfg : Config) (G : Geometry SE3 Sim3 Vec3) (W : World SE3 Sim3)
    (s : State Sim3) (hL : s.mbLoopDetected = false) (hM : s.mbMergeDetected = false)
    (hl3 : s.mnLoopNumCoincidences < 3) (hm3 : s.mnMergeNumCoincidences < 3) :
    let r := NewDetectCommonRegions.detect cfg G W s
    r.2.1.mbLoopDetected = decide (3 ≤ r.2.1.mnLoopNumCoincidences) ∧
    r.2.1.mbMergeDetected = decide (3 ≤ r.2.1.mnMergeNumCoincidences) ∧
    r.1 = (r.2.1.mbMergeDetected || r.2.1.mbLoopDetected) := by
  obtain ⟨a1, a2, a3⟩ := loopTrack_consistent cfg G W s hL hl3
  obtain ⟨b1, b2, b3⟩ := mergeTrack_consistent cfg G W
    (NewDetectCommonRegions.loopTrack cfg G W s).2.1 (by rw [a2]; exact hM)
    (by rw [a3]; exact hm3)
  rw [← b2, ← b3] at a1
  simp only [NewDetectCommonRegions.detect]
  generalize NewDetectCommonRegions.loopTrack cfg G W s = l at a1 b1 ⊢
  generalize NewDetectCommonRegions.mergeTrack cfg G W l.2.1 = m at a1 b1 ⊢
  by_cases hdet : m.2.1.mbMergeDetected = true ∨ m.2.1.mbLoopDetected = true
  · simp only [hdet, if_true]
    refine ⟨a1, b1, ?_⟩
    rcases hdet with h | h <;> simp [h]
  · simp only [hdet, if_false]
    have hl : m.2.1.mnLoopNumCoincidences < 3 := by
      by_contra hc
      exact hdet (Or.inr (by rw [a1]; simp; omega))
    have hm : m.2.1.mnMergeNumCoincidences < 3 := by
      by_contra hc
      exact hdet (Or.inl (by rw [b1]; simp; omega))
    have hbl := bow_consistent cfg G W
    split_ifs <;>
      simp_all [NewDetectCommonRegions.loopBoW, NewDetectCommonRegions.mergeBoW]

theorem NewDetectCommonRegions_consistent (cfg : Config) (G : Geometry SE3 Sim3 Vec3)
    (W : World SE3 Sim3) (s : State Sim3) (hL : s.mbLoopDetected = false)
    (hM : s.mbMergeDetected = false) (hl3 : s.mnLoopNumCoincidences < 3)
    (hm3 : s.mnMergeNumCoincidences < 3) :
    let r := NewDetectCommonRegions cfg G W s
    r.2.1.mbLoopDetected = decide (3 ≤ r.2.1.mnLoopNumCoincidences) ∧
    r.2.1.mbMergeDetected = decide (3 ≤ r.2.1.mnMergeNumCoincidences) ∧
    r.1 = (r.2.1.mbMergeDetected || r.2.1.mbLoopDetected) := by
  have hs : s.mbLoopDetected = decide (3 ≤ s.mnLoopNumCoincidences) ∧
      s.mbMergeDetected = decide (3 ≤ s.mnMergeNumCoincidences) ∧
      false = (s.mbMergeDetected || s.mbLoopDetected) := by
    simp [hL, hM]; omega
  simp only [NewDetectCommonRegions]
  split
  · exact hs
  · split
    · exact hs
    · rename_i pKF rest hq
      have hd := detect_consistent cfg G W (NewDetectCommonRegions.dequeue W pKF rest s)
        hL hM hl3 hm3
      split_ifs
      · exact hs
      · exact hs
      · exact hs
      · exact hd

theorem mergeDetected_spec (cfg : Config) (G : Geometry SE3 Sim3 Vec3) (W : World SE3 Sim3)
    (s : State Sim3) :
    let r := Run.mergeDetected cfg G W s
    ((∃ e ∈ r.2.1, e.isMerge = true) ↔
      ¬(cfg.mbInertial = true ∧ W.isImuInitialized (W.GetMap s.mpCurrentKF) = false) ∧
      ¬(cfg.mbInertial = true ∧ Run.badScale G (Run.mSold_new G W s))) ∧
    (∀ e ∈ r.2.1, e.isCorrectLoop = false) ∧
    (r.2.2 = false → r.1.mbLoopDetected = false) ∧
    (r.2.2 = true → cfg.mbInertial = true ∧ Run.badScale G (Run.mSold_new G W s)) ∧
    r.1.mnMergeNumCoincidences = 0 ∧ r.1.mnMergeNumNotFound = 0 ∧
    r.1.mbMergeDetected = false ∧ r.1.mvpMergeMPs = [] ∧ r.1.mvpMergeMatchedMPs = [] ∧
    Event.SetErase s.mpMergeLastCurrentKF ∈ r.2.1 ∧
    Event.SetErase s.mpMergeMatchedKF ∈ r.2.1 := by
  simp only [Run.mergeDetected, Run.afterMerge, Run.resetMerge, Run.resetLoop]
  split_ifs <;> simp_all [Event.isMerge, Event.isCorrectLoop]

theorem loopDetected_spec (cfg : Config) (G : Geometry SE3 Sim3 Vec3) (W : World SE3 Sim3)
    (s : State Sim3) :
    let r := Run.loopDetected cfg G W s
    ((∃ e ∈ r.2, e.isCorrectLoop = true) ↔
      (cfg.mbInertial = true → Run.goodRotation G (Run.g2oSww_new G W s))) ∧
    (∀ e ∈ r.2, e.isMerge = false) ∧
    r.1.mnMergeNumCoincidences = s.mnMergeNumCoincidences ∧
    r.1.mnMergeNumNotFound = s.mnMergeNumNotFound ∧
    r.1.mbMergeDetected = s.mbMergeDetected ∧ r.1.mvpMergeMPs = s.mvpMergeMPs ∧
    r.1.mvpMergeMatchedMPs = s.mvpMergeMatchedMPs := by
  simp only [Run.loopDetected, Run.resetLoop]
  split_ifs <;> simp_all [Event.isMerge, Event.isCorrectLoop]

end CommitTheorems

section GuardTheorems

variable {SE3 Sim3 Vec3 : Type}

theorem ResetIfRequested_track (W : World SE3 Sim3) (s : State Sim3) (k : Track) :
    (ResetIfRequested W s).track k = s.track k := by
  simp only [ResetIfRequested]
  split_ifs <;> cases k <;> rfl

theorem badScale_of_abs (G : Geometry SE3 Sim3 Vec3) (S : Sim3)
    (h : |G.scale S - 1| > 1 / 10) : Run.badScale G S := by
  unfold Run.badScale
  rcases lt_abs.mp h with h1 | h1
  · right; linarith
  · left; linarith

/-- C7. In inertial mode, whenever a pass of the worker takes a KeyFrame, the detector
reports a merge for it, and the scale `s` of `mSold_new` has `|s - 1| > 0.1`: the pass
invokes neither `MergeLocal` nor `MergeLocal2` (nor `CorrectLoop`), and at its end the merge
detection state is cleared: `num_coincidences = 0`, `num_not_found = 0`, detected flag
false, both MapPoint lists empty, and both anchors have received `SetErase`. -/
theorem inertial_bad_scale_aborts_merge (cfg : Config) (G : Geometry SE3 Sim3 Vec3)
    (W : World SE3 Sim3) (s : State Sim3) (hin : cfg.mbInertial = true)
    (hq : CheckNewKeyFrames s = true)
    (hret : (NewDetectCommonRegions cfg G W s).1 = true)
    (hdet : (NewDetectCommonRegions cfg G W s).2.1.mbMergeDetected = true)
    (hscale :
      |G.scale (Run.mSold_new G W (NewDetectCommonRegions cfg G W s).2.1) - 1| > 1 / 10) :
    let d := (NewDetectCommonRegions cfg G W s).2.1
    let r := Run.iteration cfg G W s
    (∀ e ∈ r.2.1, e.isCommit = false) ∧
    (r.1.track Track.Merge).num_coincidences = 0 ∧
    (r.1.track Track.Merge).num_not_found = 0 ∧
    (r.1.track Track.Merge).detected = false ∧
    (r.1.track Track.Merge).map_points = [] ∧
    (r.1.track Track.Merge).matched_map_points = [] ∧
    Event.SetErase (d.track Track.Merge).matched_kf ∈ r.2.1 ∧
    Event.SetErase (d.track Track.Merge).last_current_kf ∈ r.2.1 := by
  have hnc := NewDetectCommonRegions_noCommit cfg G W s
  have hbad := badScale_of_abs G _ hscale
  obtain ⟨m1, m2, m3, m4, m5, m6, m7, m8, m9, m10, m11⟩ :=
    mergeDetected_spec cfg G W (NewDetectCommonRegions cfg G W s).2.1
  have hnm : ∀ e ∈ (Run.mergeDetected cfg G W (NewDetectCommonRegions cfg G W s).2.1).2.1,
      e.isCommit = false := by
    intro e he
    rw [isCommit_eq, m2 e he, Bool.or_false]
    by_contra hc
    have hx := m1.mp ⟨e, he, by simpa using hc⟩
    exact hx.2 ⟨hin, hbad⟩
  have k0 : ∀ p, (Event.ClearCandKFs p : Event Sim3).isCommit = false := fun _ => rfl
  simp only [Run.iteration, hq, if_true, Run.process, hret, hdet]
  generalize NewDetectCommonRegions cfg G W s = d at hnc hnm m3 m5 m6 m7 m8 m9 m10 m11 ⊢
  generalize Run.mergeDetected cfg G W d.2.1 = m at hnm m3 m5 m6 m7 m8 m9 m10 m11 ⊢
  by_cases hc : m.2.2 = true
  · simp only [hc, if_true, State.track]
    refine ⟨?_, m5, m6, m7, m8, m9, ?_, ?_⟩
    · simp only [List.forall_mem_append]
      refine ⟨⟨?_, hnc⟩, hnm⟩
      split_ifs <;> simp [k0]
    · simp [m11]
    · simp [m10]
  · have hl := m3 (by simpa using hc)
    simp only [hc, hl]
    simp only [Bool.false_eq_true, if_false, ResetIfRequested_track]
    simp only [State.track]
    refine ⟨?_, m5, m6, m7, m8, m9, ?_, ?_⟩
    · simp only [List.forall_mem_append]
      refine ⟨⟨⟨?_, hnc⟩, hnm⟩, by simp⟩
      split_ifs <;> simp [k0]
    · simp [m11]
    · simp [m10]

end GuardTheorems

section IffTheorems

variable {SE3 Sim3 Vec3 : Type}

theorem exists_mem_append_iff (q : Event Sim3 → Bool) (l1 l2 : List (Event Sim3)) :
    (∃ e ∈ l1 ++ l2, q e = true) ↔ (∃ e ∈ l1, q e = true) ∨ (∃ e ∈ l2, q e = true) := by
  simp only [List.mem_append]
  constructor
  · rintro ⟨e, h | h, hq⟩
    · exact Or.inl ⟨e, h, hq⟩
    · exact Or.inr ⟨e, h, hq⟩
  · rintro (⟨e, h, hq⟩ | ⟨e, h, hq⟩)
    · exact ⟨e, Or.inl h, hq⟩
    · exact ⟨e, Or.inr h, hq⟩

theorem noMerge_of_noCommit (l : List (Event Sim3)) (h : ∀ e ∈ l, e.isCommit = false) :
    (¬∃ e ∈ l, e.isMerge = true) ∧ ¬∃ e ∈ l, e.isCorrectLoop = true := by
  constructor
  · rintro ⟨e, he, hq⟩
    have := h e he
    rw [isCommit_eq, hq] at this
    simp at this
  · rintro ⟨e, he, hq⟩
    have := h e he
    rw [isCommit_eq, hq] at this
    simp at this

theorem clearCand_noCommit (p : KeyFramePtr) :
    ∀ e ∈ (if p ≠ 0 then [(Event.ClearCandKFs p : Event Sim3)] else []), e.isCommit = false := by
  split_ifs <;> simp [Event.isCommit]

/-- C2, amended. For every pass of the worker that takes a KeyFrame and starts with both
detected flags clear (and both counters below 3, as they then are), with `d` the members
when detection for that KeyFrame ends: `MergeLocal` or `MergeLocal2` is executed in the pass
if and only if the Merge track has `num_coincidences ≥ 3` in `d` and neither guard of the
merge fires (inertial mode with the IMU of the map not initialised; inertial mode with the
scale of `mSold_new` outside [0.9, 1.1]); `CorrectLoop` is executed in the pass if and only
if the Loop track has `num_coincidences ≥ 3` in `d`, the Merge track has not (a merge takes
precedence and clears the loop), and in inertial mode the rotation check of the loop
passes. -/
theorem commit_iff_detected_and_guards (cfg : Config) (G : Geometry SE3 Sim3 Vec3)
    (W : World SE3 Sim3) (s : State Sim3) (hq : CheckNewKeyFrames s = true)
    (hL : s.mbLoopDetected = false) (hM : s.mbMergeDetected = false)
    (hl3 : s.mnLoopNumCoincidences < 3) (hm3 : s.mnMergeNumCoincidences < 3) :
    let d := (NewDetectCommonRegions cfg G W s).2.1
    let r := Run.iteration cfg G W s
    ((∃ e ∈ r.2.1, e.isMerge = true) ↔
      3 ≤ d.mnMergeNumCoincidences ∧
      ¬(cfg.mbInertial = true ∧ W.isImuInitialized (W.GetMap d.mpCurrentKF) = false) ∧
      ¬(cfg.mbInertial = true ∧ Run.badScale G (Run.mSold_new G W d))) ∧
    ((∃ e ∈ r.2.1, e.isCorrectLoop = true) ↔
      3 ≤ d.mnLoopNumCoincidences ∧ d.mnMergeNumCoincidences < 3 ∧
      (cfg.mbInertial = true → Run.goodRotation G (Run.g2oSww_new G W d))) := by
  obtain ⟨c1, c2, c3⟩ := NewDetectCommonRegions_consistent cfg G W s hL hM hl3 hm3
  obtain ⟨n1, n2⟩ := noMerge_of_noCommit _ (NewDetectCommonRegions_noCommit cfg G W s)
  obtain ⟨z1, z2⟩ := noMerge_of_noCommit _ (@clearCand_noCommit Sim3 s.mpLastCurrentKF)
  simp only [Run.iteration, hq, if_true, Run.process]
  generalize NewDetectCommonRegions cfg G W s = d at c1 c2 c3 n1 n2 ⊢
  obtain ⟨b, sd, ev⟩ := d
  simp only at c1 c2 c3 n1 n2 ⊢
  by_cases hm : sd.mbMergeDetected = true
  · have hb : b = true := by rw [c3, hm]; rfl
    have h3 : 3 ≤ sd.mnMergeNumCoincidences := by
      rw [hm] at c2; simpa using c2.symm
    obtain ⟨m1, m2, m3, -⟩ := mergeDetected_spec cfg G W sd
    have y1 : ¬∃ e ∈ (Run.mergeDetected cfg G W sd).2.1, e.isCorrectLoop = true := by
      rintro ⟨e, he, hq⟩; rw [m2 e he] at hq; cases hq
    simp only [hb, hm, if_true]
    generalize Run.mergeDetected cfg G W sd = m at m1 m2 m3 y1 ⊢
    by_cases hc : m.2.2 = true
    · simp only [hc, if_true, exists_mem_append_iff, n1, n2, z1, z2, false_or, y1, m1]
      simp only [h3, true_and, false_iff, not_and]
      intro _ h; omega
    · have hl := m3 (by simpa using hc)
      simp only [hc, hl, Bool.false_eq_true, if_false, exists_mem_append_iff, n1, n2, z1, z2,
        false_or, y1, m1, List.not_mem_nil, false_and, exists_false, or_false]
      simp only [h3, true_and, false_iff, not_and]
      intro _ h; omega
  · have hm' : sd.mbMergeDetected = false := by simpa using hm
    have h3 : sd.mnMergeNumCoincidences < 3 := by
      rw [hm'] at c2
      have := c2.symm
      simp only [decide_eq_false_iff_not, not_le] at this
      exact this
    obtain ⟨l1, l2, -⟩ := loopDetected_spec cfg G W sd
    have l2' : ¬∃ e ∈ (Run.loopDetected cfg G W sd).2, e.isMerge = true := by
      rintro ⟨e, he, hq⟩; rw [l2 e he] at hq; cases hq
    by_cases hl : sd.mbLoopDetected = true
    · have hb : b = true := by rw [c3, hl, hm']; rfl
      have h3l : 3 ≤ sd.mnLoopNumCoincidences := by
        rw [hl] at c1; simpa using c1.symm
      simp only [hb, hm', hl, Bool.false_eq_true, if_false, if_true, exists_mem_append_iff,
        n1, n2, z1, z2, false_or, List.not_mem_nil, false_and, exists_false, or_false, l1, l2']
      simp only [h3, h3l, true_and, false_iff, not_and]
      constructor
      · intro h; omega
      · trivial
    · have hl' : sd.mbLoopDetected = false := by simpa using hl
      have hb : b = false := by rw [c3, hl', hm']; rfl
      have h3l : sd.mnLoopNumCoincidences < 3 := by
        rw [hl'] at c1
        have := c1.symm
        simp only [decide_eq_false_iff_not, not_le] at this
        exact this
      simp only [hb, Bool.false_eq_true, if_false, exists_mem_append_iff, n1, n2, z1, z2,
        false_or]
      constructor
      · simp only [false_iff, not_and]; intro h; omega
      · simp only [false_iff, not_and]; intro h; omega

end IffTheorems

section ClosedTheorems

/-- Witness of C7: the second pass of the inertial worker in `exampleWorld`. KeyFrame 2 is
detected as a merge with candidate 21, the scale of `mSold_new` is 5/4, and the pass commits
nothing and clears the Merge track. -/
theorem inertial_bad_scale_aborts_merge_witness :
    (∀ e ∈ (Run.iteration inertialStereo scaleLine exampleWorld
        (secondPass inertialStereo)).2.1, e.isCommit = false) ∧
    ((Run.iteration inertialStereo scaleLine exampleWorld
        (secondPass inertialStereo)).1.track Track.Merge).num_coincidences = 0 ∧
    ((Run.iteration inertialStereo scaleLine exampleWorld
        (secondPass inertialStereo)).1.track Track.Merge).detected = false :=
  have h := inertial_bad_scale_aborts_merge inertialStereo scaleLine exampleWorld
    (secondPass inertialStereo) (by decide!) (by decide!) (by decide!) (by decide!)
    (by decide!)
  ⟨h.1, h.2.1, h.2.2.2.1⟩

/-- C2, counterexample. In the second pass of the stereo worker (no IMU) in `exampleWorld`,
detection for KeyFrame 2 ends with `num_coincidences = 3` on the Loop track, and the pass
does not execute `CorrectLoop`: the Merge track is detected too, the merge is executed and
the loop is cleared. -/
theorem loop_detected_without_commit :
    (NewDetectCommonRegions plainStereo scaleLine exampleWorld
      (secondPass plainStereo)).2.1.mnLoopNumCoincidences = 3 ∧
    ¬∃ e ∈ (Run.iteration plainStereo scaleLine exampleWorld (secondPass plainStereo)).2.1,
      e.isCorrectLoop = true := by
  decide!

/-- Witness of C2 as amended: the second pass of the stereo worker in `exampleWorld` starts
with both flags clear; both tracks end detection with 3 coincidences, no guard of the merge
fires, so the merge is executed and `CorrectLoop` is not. -/
theorem commit_iff_detected_and_guards_witness :
    (∃ e ∈ (Run.iteration plainStereo scaleLine exampleWorld (secondPass plainStereo)).2.1,
      e.isMerge = true) ∧
    ((∃ e ∈ (Run.iteration plainStereo scaleLine exampleWorld (secondPass plainStereo)).2.1,
      e.isCorrectLoop = true) ↔
      3 ≤ (NewDetectCommonRegions plainStereo scaleLine exampleWorld
        (secondPass plainStereo)).2.1.mnLoopNumCoincidences ∧
      (NewDetectCommonRegions plainStereo scaleLine exampleWorld
        (secondPass plainStereo)).2.1.mnMergeNumCoincidences < 3 ∧
      (plainStereo.mbInertial = true → Run.goodRotation scaleLine
        (Run.g2oSww_new scaleLine exampleWorld
          (NewDetectCommonRegions plainStereo scaleLine exampleWorld
            (secondPass plainStereo)).2.1))) :=
  have h := commit_iff_detected_and_guards plainStereo scaleLine exampleWorld
    (secondPass plainStereo) (by decide!) (by decide!) (by decide!) (by decide!) (by decide!)
  ⟨h.1.mpr (by decide!), h.2⟩

/-- C1 (the code differs). The inertial worker in `exampleWorld`, KeyFrames 1, 2, 3 arriving
one per pass. Pass 1 starts the Loop track (1 coincidence). In pass 2 the track misses once,
the fresh searches detect a loop and a merge, and the merge is aborted for its scale by
`continue`, which leaves `mbLoopDetected` set. In pass 3 the Loop track misses again and is
dropped, the stale flag makes the detector return true, and `CorrectLoop` is called with
`mnLoopNumCoincidences = 0`. -/
theorem correct_loop_with_zero_coincidences :
    Event.CorrectLoop 0 ∈
      (Run inertialStereo scaleLine staleFlagTicks (LoopClosing scaleLine)).2 := by
  decide!

/-- C8 (the code differs). In the second pass of the inertial worker in `exampleWorld` the
detector reports a loop and a merge for KeyFrame 2; the merge is aborted for its scale
(5/4), `CorrectLoop` is not called, and at the end of the pass the Loop state is not
cleared: `mbLoopDetected` is still true, with 3 coincidences and 1 miss. -/
theorem bad_scale_abort_keeps_loop_state :
    (NewDetectCommonRegions inertialStereo scaleLine exampleWorld
      (secondPass inertialStereo)).2.1.mbLoopDetected = true ∧
    (NewDetectCommonRegions inertialStereo scaleLine exampleWorld
      (secondPass inertialStereo)).2.1.mbMergeDetected = true ∧
    scaleLine.scale (Run.mSold_new scaleLine exampleWorld
      (NewDetectCommonRegions inertialStereo scaleLine exampleWorld
        (secondPass inertialStereo)).2.1) = 5 / 4 ∧
    (∀ e ∈ (Run.iteration inertialStereo scaleLine exampleWorld
      (secondPass inertialStereo)).2.1, e.isCommit = false) ∧
    (Run.iteration inertialStereo scaleLine exampleWorld
      (secondPass inertialStereo)).1.mbLoopDetected = true ∧
    (Run.iteration inertialStereo scaleLine exampleWorld
      (secondPass inertialStereo)).1.mnLoopNumCoincidences = 3 ∧
    (Run.iteration inertialStereo scaleLine exampleWorld
      (secondPass inertialStereo)).1.mnLoopNumNotFound = 1 := by
  decide!

end ClosedTheorems

section LoopCorrectorTheorems

variable {SE3 Sim3 Vec3 : Type}

theorem assign_keys (m : KeyFrameAndPose Sim3) (k : KeyFramePtr) (v : Sim3) (K : KeyFramePtr) :
    K ∈ (m.assign k v).map Prod.fst ↔ K = k ∨ K ∈ m.map Prod.fst := by
  induction m with
  | nil => simp [KeyFrameAndPose.assign]
  | cons hd tl ih =>
    obtain ⟨k0, v0⟩ := hd
    simp only [KeyFrameAndPose.assign]
    split_ifs with h1 h2
    · simp
    · subst h2; simp
    · simp only [List.map_cons, List.mem_cons, ih]
      tauto

theorem assign_sorted (m : KeyFrameAndPose Sim3) (k : KeyFramePtr) (v : Sim3)
    (h : m.Pairwise (fun a b => a.1 < b.1)) :
    (m.assign k v).Pairwise (fun a b => a.1 < b.1) := by
  induction m with
  | nil => simp [KeyFrameAndPose.assign]
  | cons hd tl ih =>
    obtain ⟨k0, v0⟩ := hd
    obtain ⟨hhd, htl⟩ := List.pairwise_cons.mp h
    simp only [KeyFrameAndPose.assign]
    split_ifs with h1 h2
    · refine List.pairwise_cons.mpr ⟨?_, h⟩
      intro b hb
      rcases List.mem_cons.mp hb with hb | hb
      · subst hb; exact h1
      · exact lt_trans h1 (hhd b hb)
    · subst h2
      exact List.pairwise_cons.mpr ⟨hhd, htl⟩
    · refine List.pairwise_cons.mpr ⟨?_, ih htl⟩
      intro b hb
      have hk : b.1 ∈ (KeyFrameAndPose.assign tl k v).map Prod.fst :=
        List.mem_map.mpr ⟨b, hb, rfl⟩
      rcases (assign_keys tl k v b.1).mp hk with hk | hk
      · rw [hk]
        exact lt_of_le_of_ne (not_lt.mp h1) (fun h => h2 h.symm)
      · obtain ⟨c, hc, hce⟩ := List.mem_map.mp hk
        have := hhd c hc
        rw [hce] at this
        exact this

theorem lookup_of_mem_sorted (m : KeyFrameAndPose Sim3) (K : KeyFramePtr) (v : Sim3)
    (h : m.Pairwise (fun a b => a.1 < b.1)) (hm : (K, v) ∈ m) : m.lookup K = some v := by
  induction m with
  | nil => cases hm
  | cons hd tl ih =>
    obtain ⟨k0, v0⟩ := hd
    obtain ⟨hhd, htl⟩ := List.pairwise_cons.mp h
    rcases List.mem_cons.mp hm with hm | hm
    · cases hm
      simp [List.lookup]
    · have hlt := hhd _ hm
      simp only at hlt
      have hne : (K == k0) = false := by
        simp only [beq_eq_false_iff_ne, ne_eq]
        exact ne_of_gt hlt
      simp only [List.lookup, hne]
      exact ih htl hm

theorem correctMapPoint_other (G : Geometry SE3 Sim3 Vec3) (W : World SE3 Sim3)
    (C K : KeyFramePtr) (Swi Siw : Sim3) (E : Entities SE3 Vec3) (q p : MapPointPtr)
    (h : q ≠ p) :
    (CorrectLoop.correctMapPoint G W C K Swi Siw E q).mapPoint p = E.mapPoint p := by
  simp only [CorrectLoop.correctMapPoint]
  split_ifs <;> simp [Function.update, Ne.symm h]

theorem correctMapPoint_stamped (G : Geometry SE3 Sim3 Vec3) (W : World SE3 Sim3)
    (C K : KeyFramePtr) (Swi Siw : Sim3) (E : Entities SE3 Vec3) (q p : MapPointPtr)
    (h : (E.mapPoint p).mnCorrectedByKF = W.mnId C) :
    (CorrectLoop.correctMapPoint G W C K Swi Siw E q).mapPoint p = E.mapPoint p := by
  by_cases hq : q = p
  · subst hq
    simp [CorrectLoop.correctMapPoint, h]
  · exact correctMapPoint_other G W C K Swi Siw E q p hq

theorem correctMapPoint_fresh (G : Geometry SE3 Sim3 Vec3) (W : World SE3 Sim3)
    (C K : KeyFramePtr) (Swi Siw : Sim3) (E : Entities SE3 Vec3) (p : MapPointPtr)
    (hp : p ≠ 0) (hbad : W.isBadMP p = false)
    (h : (E.mapPoint p).mnCorrectedByKF ≠ W.mnId C) :
    (CorrectLoop.correctMapPoint G W C K Swi Siw E p).mapPoint p =
      { mWorldPos := G.map Swi (G.map Siw (E.mapPoint p).mWorldPos)
        mnCorrectedByKF := W.mnId C
        mnCorrectedReference := W.mnId K } := by
  simp [CorrectLoop.correctMapPoint, hp, hbad, h]

theorem correctPoints_stamped (G : Geometry SE3 Sim3 Vec3) (W : World SE3 Sim3)
    (C K : KeyFramePtr) (Swi Siw : Sim3) (p : MapPointPtr) (l : List MapPointPtr) :
    ∀ E : Entities SE3 Vec3, (E.mapPoint p).mnCorrectedByKF = W.mnId C →
      (l.foldl (CorrectLoop.correctMapPoint G W C K Swi Siw) E).mapPoint p = E.mapPoint p := by
  induction l with
  | nil => intro E _; rfl
  | cons q qs ih =>
    intro E h
    have h1 := correctMapPoint_stamped G W C K Swi Siw E q p h
    simp only [List.foldl_cons]
    rw [ih _ (by rw [h1]; exact h), h1]

theorem correctPoints_fresh (G : Geometry SE3 Sim3 Vec3) (W : World SE3 Sim3)
    (C K : KeyFramePtr) (Swi Siw : Sim3) (p : MapPointPtr) (hp : p ≠ 0)
    (hbad : W.isBadMP p = false) (l : List MapPointPtr) :
    ∀ E : Entities SE3 Vec3, (E.mapPoint p).mnCorrectedByKF ≠ W.mnId C →
      (p ∉ l →
        (l.foldl (CorrectLoop.correctMapPoint G W C K Swi Siw) E).mapPoint p = E.mapPoint p) ∧
      (p ∈ l →
        (l.foldl (CorrectLoop.correctMapPoint G W C K Swi Siw) E).mapPoint p =
          { mWorldPos := G.map Swi (G.map Siw (E.mapPoint p).mWorldPos)
            mnCorrectedByKF := W.mnId C
            mnCorrectedReference := W.mnId K }) := by
  induction l with
  | nil => intro E _; simp
  | cons q qs ih =>
    intro E h
    simp only [List.foldl_cons]
    by_cases hq : q = p
    · subst hq
      have h1 := correctMapPoint_fresh G W C K Swi Siw E q hp hbad h
      have h2 := correctPoints_stamped G W C K Swi Siw q qs
        (CorrectLoop.correctMapPoint G W C K Swi Siw E q) (by rw [h1])
      constructor
      · intro hn; exact absurd (List.mem_cons_self _ _) hn
      · intro _; rw [h2, h1]
    · have h1 := correctMapPoint_other G W C K Swi Siw E q p hq
      obtain ⟨i1, i2⟩ := ih (CorrectLoop.correctMapPoint G W C K Swi Siw E q)
        (by rw [h1]; exact h)
      constructor
      · intro hn
        rw [i1 (fun hm => hn (List.mem_cons_of_mem _ hm)), h1]
      · intro hm
        rcases List.mem_cons.mp hm with hm | hm
        · exact absurd hm.symm hq
        · rw [i2 hm, h1]

theorem correctKeyFrames_stamped (G : Geometry SE3 Sim3 Vec3) (W : World SE3 Sim3)
    (C : KeyFramePtr) (NC : KeyFrameAndPose Sim3) (p : MapPointPtr)
    (cs : KeyFrameAndPose Sim3) :
    ∀ E : Entities SE3 Vec3, (E.mapPoint p).mnCorrectedByKF = W.mnId C →
      (cs.foldl (CorrectLoop.correctKeyFrame G W C NC) E).mapPoint p = E.mapPoint p := by
  induction cs with
  | nil => intro E _; rfl
  | cons e es ih =>
    intro E h
    have h1 : (CorrectLoop.correctKeyFrame G W C NC E e).mapPoint p = E.mapPoint p :=
      correctPoints_stamped G W C e.1 _ _ p _ E h
    simp only [List.foldl_cons]
    rw [ih _ (by rw [h1]; exact h), h1]

theorem correctKeyFrames_fresh (G : Geometry SE3 Sim3 Vec3) (W : World SE3 Sim3)
    (C : KeyFramePtr) (NC : KeyFrameAndPose Sim3) (p : MapPointPtr) (hp : p ≠ 0)
    (hbad : W.isBadMP p = false) (cs : KeyFrameAndPose Sim3) :
    ∀ E : Entities SE3 Vec3, (E.mapPoint p).mnCorrectedByKF ≠ W.mnId C →
      ((∀ e ∈ cs, p ∉ W.GetMapPointMatches e.1) ∧
        (cs.foldl (CorrectLoop.correctKeyFrame G W C NC) E).mapPoint p = E.mapPoint p) ∨
      (∃ e ∈ cs, p ∈ W.GetMapPointMatches e.1 ∧
        (cs.foldl (CorrectLoop.correctKeyFrame G W C NC) E).mapPoint p =
          { mWorldPos := G.map (G.inverse e.2)
              (G.map ((NC.lookup e.1).getD G.identity) (E.mapPoint p).mWorldPos)
            mnCorrectedByKF := W.mnId C
            mnCorrectedReference := W.mnId e.1 }) := by
  induction cs with
  | nil => intro E _; left; simp
  | cons e es ih =>
    intro E h
    simp only [List.foldl_cons]
    obtain ⟨f1, f2⟩ := correctPoints_fresh G W C e.1 (G.inverse e.2)
      ((NC.lookup e.1).getD G.identity) p hp hbad (W.GetMapPointMatches e.1) E h
    by_cases hobs : p ∈ W.GetMapPointMatches e.1
    · right
      refine ⟨e, List.mem_cons_self _ _, hobs, ?_⟩
      have h1 : (CorrectLoop.correctKeyFrame G W C NC E e).mapPoint p = _ := f2 hobs
      rw [correctKeyFrames_stamped G W C NC p es _ (by rw [h1]), h1]
    · have h1 : (CorrectLoop.correctKeyFrame G W C NC E e).mapPoint p = E.mapPoint p :=
        f1 hobs
      rcases ih (CorrectLoop.correctKeyFrame G W C NC E e) (by rw [h1]; exact h) with
        ⟨g1, g2⟩ | ⟨e2, he2, g1, g2⟩
      · left
        refine ⟨?_, by rw [g2, h1]⟩
        intro x hx
        rcases List.mem_cons.mp hx with hx | hx
        · subst hx; exact hobs
        · exact g1 x hx
      · right
        exact ⟨e2, List.mem_cons_of_mem _ he2, g1, by rw [g2, h1]⟩

theorem propagateKeyFrames_inv (G : Geometry SE3 Sim3 Vec3) (C : KeyFramePtr) (Twc : SE3)
    (S : Sim3) (mp : MapPointPtr → MapPointFields Vec3) (l : List KeyFramePtr) :
    ∀ P : Propagation SE3 Sim3 Vec3,
      P.CorrectedSim3.Pairwise (fun a b => a.1 < b.1) →
      P.NonCorrectedSim3.Pairwise (fun a b => a.1 < b.1) →
      (∀ K, K ∈ P.CorrectedSim3.map Prod.fst ↔ K ∈ P.NonCorrectedSim3.map Prod.fst) →
      P.entities.mapPoint = mp →
      (l.foldl (CorrectLoop.propagateKeyFrame G C Twc S) P).CorrectedSim3.Pairwise
        (fun a b => a.1 < b.1) ∧
      (l.foldl (CorrectLoop.propagateKeyFrame G C Twc S) P).NonCorrectedSim3.Pairwise
        (fun a b => a.1 < b.1) ∧
      (∀ K, K ∈ (l.foldl (CorrectLoop.propagateKeyFrame G C Twc S) P).CorrectedSim3.map
          Prod.fst ↔
        K ∈ (l.foldl (CorrectLoop.propagateKeyFrame G C Twc S) P).NonCorrectedSim3.map
          Prod.fst) ∧
      (l.foldl (CorrectLoop.propagateKeyFrame G C Twc S) P).entities.mapPoint = mp ∧
      (∀ K, K ∈ (l.foldl (CorrectLoop.propagateKeyFrame G C Twc S) P).CorrectedSim3.map
          Prod.fst ↔
        K ∈ P.CorrectedSim3.map Prod.fst ∨ (K ∈ l ∧ K ≠ C)) := by
  induction l with
  | nil => intro P h1 h2 h3 h4; exact ⟨h1, h2, h3, h4, by simp⟩
  | cons x xs ih =>
    intro P h1 h2 h3 h4
    simp only [List.foldl_cons]
    by_cases hx : x = C
    · have hP : CorrectLoop.propagateKeyFrame G C Twc S P x = P := by
        simp [CorrectLoop.propagateKeyFrame, hx]
      rw [hP]
      obtain ⟨i1, i2, i3, i4, i5⟩ := ih P h1 h2 h3 h4
      refine ⟨i1, i2, i3, i4, ?_⟩
      intro K
      rw [i5 K]
      simp only [List.mem_cons]
      constructor
      · rintro (h | ⟨h, hne⟩)
        · exact Or.inl h
        · exact Or.inr ⟨Or.inr h, hne⟩
      · rintro (h | ⟨h | h, hne⟩)
        · exact Or.inl h
        · exact absurd (h.trans hx) hne
        · exact Or.inr ⟨h, hne⟩
    · have hC : (CorrectLoop.propagateKeyFrame G C Twc S P x).CorrectedSim3 =
          P.CorrectedSim3.assign x
            (G.mul (G.ofSE3 (G.seMul (P.entities.Tcw x) Twc)) S) := by
        simp [CorrectLoop.propagateKeyFrame, hx]
      have hN : (CorrectLoop.propagateKeyFrame G C Twc S P x).NonCorrectedSim3 =
          P.NonCorrectedSim3.assign x (G.ofSE3 (P.entities.Tcw x)) := by
        simp [CorrectLoop.propagateKeyFrame, hx]
      have hE : (CorrectLoop.propagateKeyFrame G C Twc S P x).entities.mapPoint = mp := by
        simp [CorrectLoop.propagateKeyFrame, hx, h4]
      obtain ⟨i1, i2, i3, i4, i5⟩ := ih (CorrectLoop.propagateKeyFrame G C Twc S P x)
        (by rw [hC]; exact assign_sorted _ _ _ h1)
        (by rw [hN]; exact assign_sorted _ _ _ h2)
        (by intro K; rw [hC, hN, assign_keys, assign_keys, h3 K])
        hE
      refine ⟨i1, i2, i3, i4, ?_⟩
      intro K
      rw [i5 K, hC, assign_keys]
      simp only [List.mem_cons]
      constructor
      · rintro ((h | h) | ⟨h, hne⟩)
        · exact Or.inr ⟨Or.inl h, by rw [h]; exact hx⟩
        · exact Or.inl h
        · exact Or.inr ⟨Or.inr h, hne⟩
      · rintro (h | ⟨h | h, hne⟩)
        · exact Or.inl (Or.inr h)
        · exact Or.inl (Or.inl h)
        · exact Or.inr ⟨h, hne⟩

theorem propagatePoses_spec (G : Geometry SE3 Sim3 Vec3) (W : World SE3 Sim3)
    (C : KeyFramePtr) (S : Sim3) (E : Entities SE3 Vec3) :
    (CorrectLoop.propagatePoses G W C S E).CorrectedSim3.Pairwise (fun a b => a.1 < b.1) ∧
    (CorrectLoop.propagatePoses G W C S E).NonCorrectedSim3.Pairwise
      (fun a b => a.1 < b.1) ∧
    (∀ K, K ∈ (CorrectLoop.propagatePoses G W C S E).CorrectedSim3.map Prod.fst ↔
      K ∈ (CorrectLoop.propagatePoses G W C S E).NonCorrectedSim3.map Prod.fst) ∧
    (CorrectLoop.propagatePoses G W C S E).entities.mapPoint = E.mapPoint ∧
    (∀ K, K ∈ (CorrectLoop.propagatePoses G W C S E).CorrectedSim3.map Prod.fst ↔
      K ∈ W.GetVectorCovisibleKeyFrames C ++ [C]) := by
  obtain ⟨i1, i2, i3, i4, i5⟩ := propagateKeyFrames_inv G C (W.GetPoseInverse C) S E.mapPoint
    (W.GetVectorCovisibleKeyFrames C ++ [C])
    { CorrectedSim3 := KeyFrameAndPose.assign [] C S
      NonCorrectedSim3 := KeyFrameAndPose.assign [] C (G.ofSE3 (E.Tcw C))
      entities := { E with Tcw := Function.update E.Tcw C (G.toSE3 S) } }
    (by simp [KeyFrameAndPose.assign]) (by simp [KeyFrameAndPose.assign])
    (by intro K; simp [KeyFrameAndPose.assign]) rfl
  refine ⟨i1, i2, i3, i4, ?_⟩
  intro K
  have := i5 K
  simp only [CorrectLoop.propagatePoses]
  rw [this]
  simp only [KeyFrameAndPose.assign, List.map_cons, List.map_nil, List.mem_singleton,
    List.mem_append]
  constructor
  · rintro (h | ⟨h, -⟩)
    · exact Or.inr h
    · exact h
  · rintro (h | h)
    · by_cases hK : K = C
      · exact Or.inl hK
      · exact Or.inr ⟨Or.inl h, hK⟩
    · exact Or.inl h

/-- C10. MapPoint correction in `CorrectLoop` (lines 864-963), with `Ω` the covisible
KeyFrames of the current KeyFrame `C` and `C` itself. Every MapPoint that is not bad, is
observed by some KeyFrame of `Ω`, and was not stamped with `C.id` beforehand, is afterwards
stamped with `C.id`, and there is a KeyFrame `K` of `Ω`, the one recorded in
`mnCorrectedReference`, such that the new position is `CorrectedSim3[K]` inverted, applied
to `NonCorrectedSim3[K]` applied to the old position. -/
theorem map_point_correction (G : Geometry SE3 Sim3 Vec3) (W : World SE3 Sim3)
    (C : KeyFramePtr) (S : Sim3) (E : Entities SE3 Vec3) (p : MapPointPtr) (hp : p ≠ 0)
    (hbad : W.isBadMP p = false)
    (hobs : ∃ K0 ∈ W.GetVectorCovisibleKeyFrames C ++ [C], p ∈ W.GetMapPointMatches K0)
    (hstamp : (E.mapPoint p).mnCorrectedByKF ≠ W.mnId C) :
    let r := CorrectLoop.propagate G W C S E
    (r.entities.mapPoint p).mnCorrectedByKF = W.mnId C ∧
    ∃ K ∈ W.GetVectorCovisibleKeyFrames C ++ [C], ∃ Sc Sn,
      r.CorrectedSim3.lookup K = some Sc ∧ r.NonCorrectedSim3.lookup K = some Sn ∧
      (r.entities.mapPoint p).mnCorrectedReference = W.mnId K ∧
      (r.entities.mapPoint p).mWorldPos =
        G.map (G.inverse Sc) (G.map Sn (E.mapPoint p).mWorldPos) := by
  obtain ⟨i1, i2, i3, i4, i5⟩ := propagatePoses_spec G W C S E
  obtain ⟨K0, hK0, hK0p⟩ := hobs
  simp only [CorrectLoop.propagate, CorrectLoop.correctMapPoints]
  generalize CorrectLoop.propagatePoses G W C S E = P at i1 i2 i3 i4 i5 ⊢
  have hst : (P.entities.mapPoint p).mnCorrectedByKF ≠ W.mnId C := by rw [i4]; exact hstamp
  rcases correctKeyFrames_fresh G W C P.NonCorrectedSim3 p hp hbad P.CorrectedSim3
      P.entities hst with ⟨g1, -⟩ | ⟨e, he, -, g2⟩
  · exfalso
    obtain ⟨e, he, hek⟩ := List.mem_map.mp ((i5 K0).mpr hK0)
    exact g1 e he (by rw [hek]; exact hK0p)
  · have hkey : e.1 ∈ P.CorrectedSim3.map Prod.fst := List.mem_map.mpr ⟨e, he, rfl⟩
    obtain ⟨n, hn, hnk⟩ := List.mem_map.mp ((i3 e.1).mp hkey)
    have hlc : P.CorrectedSim3.lookup e.1 = some e.2 := lookup_of_mem_sorted _ _ _ i1 he
    have hln : P.NonCorrectedSim3.lookup e.1 = some n.2 :=
      lookup_of_mem_sorted _ _ _ i2 (by rw [← hnk]; exact hn)
    rw [g2]
    refine ⟨rfl, e.1, (i5 e.1).mp hkey, e.2, n.2, hlc, hln, rfl, ?_⟩
    simp only [hln, Option.getD_some, i4]

/-- Witness of C10: the correction for KeyFrame 5 in `loopWorld` with the loop similarity
of scale 2. MapPoint 71, observed by the KeyFrames 4 and 6, is stamped with 5 and moved
from 3 to 3/2 by the similarities of some KeyFrame of the neighbourhood. -/
theorem map_point_correction_witness :
    ((CorrectLoop.propagate scaleLine loopWorld 5 2 freshEntities).entities.mapPoint
      71).mnCorrectedByKF = loopWorld.mnId 5 ∧
    ∃ K ∈ loopWorld.GetVectorCovisibleKeyFrames 5 ++ [5], ∃ Sc Sn,
      (CorrectLoop.propagate scaleLine loopWorld 5 2 freshEntities).CorrectedSim3.lookup K =
        some Sc ∧
      (CorrectLoop.propagate scaleLine loopWorld 5 2 freshEntities).NonCorrectedSim3.lookup K =
        some Sn ∧
      ((CorrectLoop.propagate scaleLine loopWorld 5 2 freshEntities).entities.mapPoint
        71).mnCorrectedReference = loopWorld.mnId K ∧
      ((CorrectLoop.propagate scaleLine loopWorld 5 2 freshEntities).entities.mapPoint
        71).mWorldPos = scaleLine.map (scaleLine.inverse Sc)
          (scaleLine.map Sn (freshEntities.mapPoint 71).mWorldPos) :=
  map_point_correction scaleLine loopWorld 5 2 freshEntities 71 (by decide!) (by decide!)
    ⟨4, by decide!, by decide!⟩ (by decide!)

end LoopCorrectorTheorems

section MapMergerTheorems

variable {SE3 Sim3 : Type}

theorem moveKeyFrame_spec (a b : MapPtr) (hab : a ≠ b) (A : AtlasState) (k : KeyFramePtr) :
    (MergeLocal.moveKeyFrame a b A k).mspKeyFrames a = (A.mspKeyFrames a).erase k ∧
    (MergeLocal.moveKeyFrame a b A k).mspKeyFrames b = insert k (A.mspKeyFrames b) ∧
    (MergeLocal.moveKeyFrame a b A k).mspMapPoints = A.mspMapPoints ∧
    (MergeLocal.moveKeyFrame a b A k).mpCurrentMap = A.mpCurrentMap ∧
    (MergeLocal.moveKeyFrame a b A k).mbBad = A.mbBad ∧
    (MergeLocal.moveKeyFrame a b A k).mpMap = A.mpMap ∧
    (∀ x, x ≠ k → (MergeLocal.moveKeyFrame a b A k).kfMap x = A.kfMap x) := by
  refine ⟨?_, ?_, rfl, rfl, rfl, rfl, ?_⟩
  · simp [MergeLocal.moveKeyFrame, Map.EraseKeyFrame, Map.AddKeyFrame, KeyFrame.UpdateMap,
      Function.update, hab]
  · simp [MergeLocal.moveKeyFrame, Map.EraseKeyFrame, Map.AddKeyFrame, KeyFrame.UpdateMap,
      Function.update, hab, Ne.symm hab]
  · intro x hx
    simp [MergeLocal.moveKeyFrame, Map.EraseKeyFrame, Map.AddKeyFrame, KeyFrame.UpdateMap,
      Function.update, hx]

theorem moveMapPoint_spec (a b : MapPtr) (hab : a ≠ b) (A : AtlasState) (p : MapPointPtr) :
    (MergeLocal.moveMapPoint a b A p).mspMapPoints a = (A.mspMapPoints a).erase p ∧
    (MergeLocal.moveMapPoint a b A p).mspMapPoints b = insert p (A.mspMapPoints b) ∧
    (MergeLocal.moveMapPoint a b A p).mspKeyFrames = A.mspKeyFrames ∧
    (MergeLocal.moveMapPoint a b A p).mpCurrentMap = A.mpCurrentMap ∧
    (MergeLocal.moveMapPoint a b A p).mbBad = A.mbBad ∧
    (MergeLocal.moveMapPoint a b A p).kfMap = A.kfMap := by
  refine ⟨?_, ?_, rfl, rfl, rfl, rfl⟩
  · simp [MergeLocal.moveMapPoint, Map.EraseMapPoint, Map.AddMapPoint, MapPoint.UpdateMap,
      Function.update, hab]
  · simp [MergeLocal.moveMapPoint, Map.EraseMapPoint, Map.AddMapPoint, MapPoint.UpdateMap,
      Function.update, hab, Ne.symm hab]

theorem moveKeyFrames_rest (W : World SE3 Sim3) (a b : MapPtr) (hab : a ≠ b)
    (l : List KeyFramePtr) :
    ∀ A : AtlasState, l.Nodup → (∀ k ∈ l, k ≠ 0 ∧ W.isBad k = false ∧ A.kfMap k = a) →
      (l.foldl (fun A k => if k = 0 ∨ W.isBad k = true ∨ A.kfMap k ≠ a then A
        else MergeLocal.moveKeyFrame a b A k) A).mspKeyFrames a =
          A.mspKeyFrames a \ l.toFinset ∧
      (l.foldl (fun A k => if k = 0 ∨ W.isBad k = true ∨ A.kfMap k ≠ a then A
        else MergeLocal.moveKeyFrame a b A k) A).mspKeyFrames b =
          A.mspKeyFrames b ∪ l.toFinset ∧
      (l.foldl (fun A k => if k = 0 ∨ W.isBad k = true ∨ A.kfMap k ≠ a then A
        else MergeLocal.moveKeyFrame a b A k) A).mspMapPoints = A.mspMapPoints ∧
      (l.foldl (fun A k => if k = 0 ∨ W.isBad k = true ∨ A.kfMap k ≠ a then A
        else MergeLocal.moveKeyFrame a b A k) A).mpCurrentMap = A.mpCurrentMap ∧
      (l.foldl (fun A k => if k = 0 ∨ W.isBad k = true ∨ A.kfMap k ≠ a then A
        else MergeLocal.moveKeyFrame a b A k) A).mbBad = A.mbBad := by
  induction l with
  | nil => intro A _ _; simp
  | cons k ks ih =>
    intro A hnd h
    obtain ⟨hk0, hkb, hkm⟩ := h k (List.mem_cons_self _ _)
    obtain ⟨hkn, hnd2⟩ := List.nodup_cons.mp hnd
    obtain ⟨m1, m2, m3, m4, m5, -, m7⟩ := moveKeyFrame_spec a b hab A k
    obtain ⟨i1, i2, i3, i4, i5⟩ := ih (MergeLocal.moveKeyFrame a b A k) hnd2
      (fun x hx => by
        obtain ⟨x1, x2, x3⟩ := h x (List.mem_cons_of_mem _ hx)
        refine ⟨x1, x2, ?_⟩
        rw [m7 x (fun he => hkn (by rw [← he]; exact hx))]
        exact x3)
    simp only [List.foldl_cons, hk0, hkb, hkm, false_or, Bool.false_eq_true, ne_eq,
      not_true_eq_false, if_false]
    refine ⟨?_, ?_, by rw [i3, m3], by rw [i4, m4], by rw [i5, m5]⟩
    · rw [i1, m1]
      ext x
      simp only [Finset.mem_sdiff, Finset.mem_erase, List.toFinset_cons, Finset.mem_insert,
        List.mem_toFinset]
      tauto
    · rw [i2, m2]
      ext x
      simp only [Finset.mem_union, Finset.mem_insert, List.toFinset_cons, List.mem_toFinset]
      tauto

end MapMergerTheorems

section VisualMergerTheorems

variable {SE3 Sim3 : Type}

end VisualMergerTheorems

section QueueTheorems

variable {SE3 Sim3 Vec3 : Type}

theorem loopTrack_queue (cfg : Config) (G : Geometry SE3 Sim3 Vec3) (W : World SE3 Sim3)
    (s : State Sim3) :
    (NewDetectCommonRegions.loopTrack cfg G W s).2.1.mlpLoopKeyFrameQueue =
      s.mlpLoopKeyFrameQueue := by
  simp only [NewDetectCommonRegions.loopTrack]
  split_ifs <;> rfl

theorem mergeTrack_queue (cfg : Config) (G : Geometry SE3 Sim3 Vec3) (W : World SE3 Sim3)
    (s : State Sim3) :
    (NewDetectCommonRegions.mergeTrack cfg G W s).2.1.mlpLoopKeyFrameQueue =
      s.mlpLoopKeyFrameQueue := by
  simp only [NewDetectCommonRegions.mergeTrack]
  split_ifs <;> rfl

theorem detect_queue (cfg : Config) (G : Geometry SE3 Sim3 Vec3) (W : World SE3 Sim3)
    (s : State Sim3) :
    (NewDetectCommonRegions.detect cfg G W s).2.1.mlpLoopKeyFrameQueue =
        s.mlpLoopKeyFrameQueue ∧
      (NewDetectCommonRegions.detect cfg G W s).2.1.mpCurrentKF = s.mpCurrentKF := by
  have hl := loopTrack_queue cfg G W s
  have hl2 := (loopTrack_frame cfg G W s).1
  have hm := mergeTrack_queue cfg G W (NewDetectCommonRegions.loopTrack cfg G W s).2.1
  have hm2 := (mergeTrack_frame cfg G W (NewDetectCommonRegions.loopTrack cfg G W s).2.1).1
  simp only [NewDetectCommonRegions.detect]
  generalize NewDetectCommonRegions.loopTrack cfg G W s = l at hl hl2 hm hm2 ⊢
  generalize NewDetectCommonRegions.mergeTrack cfg G W l.2.1 = m at hm hm2 ⊢
  split_ifs <;>
    simp [NewDetectCommonRegions.loopBoW, NewDetectCommonRegions.mergeBoW, hm, hl, hm2, hl2]

theorem NewDetectCommonRegions_dequeue (cfg : Config) (G : Geometry SE3 Sim3 Vec3)
    (W : World SE3 Sim3) (s : State Sim3) (C : KeyFramePtr) (rest : List KeyFramePtr)
    (hact : cfg.mbActiveLC = true) (hq : s.mlpLoopKeyFrameQueue = C :: rest) :
    (NewDetectCommonRegions cfg G W s).2.1.mlpLoopKeyFrameQueue = rest ∧
      (NewDetectCommonRegions cfg G W s).2.1.mpCurrentKF = C ∧
      (NewDetectCommonRegions cfg G W s).2.2.head? = some (Event.SetNotErase C) := by
  have hd := detect_queue cfg G W (NewDetectCommonRegions.dequeue W C rest s)
  simp only [NewDetectCommonRegions, hact, hq, Bool.true_eq_false, if_false]
  split_ifs <;> first
    | exact ⟨rfl, rfl, rfl⟩
    | exact ⟨hd.1, hd.2, rfl⟩

theorem accepted_append (ops : List (QueueOp SE3 Sim3)) (op : QueueOp SE3 Sim3) :
    QueueOp.accepted (ops ++ [op]) = QueueOp.accepted ops ++ QueueOp.accepted [op] := by
  induction ops with
  | nil => simp [QueueOp.accepted]
  | cons x xs ih =>
    cases x with
    | insert W k =>
      simp only [List.cons_append, QueueOp.accepted, List.append_eq]
      rw [ih]
      split_ifs <;> simp
    | detect W =>
      simp only [List.cons_append, QueueOp.accepted, List.append_eq]
      rw [ih]

/-- C13. With place recognition active and the queue empty at the start, after any sequence
of calls of `InsertKeyFrame` and of passes through the head of the worker loop: the
KeyFrames dequeued so far by `NewDetectCommonRegions`, followed by the KeyFrames still in
the queue, are the KeyFrames handed to `InsertKeyFrame` with `mnId` other than 0, in the
order of insertion; and the first call of every dequeue is `SetNotErase` on the KeyFrame
dequeued. -/
theorem queue_is_filtered_fifo (cfg : Config) (G : Geometry SE3 Sim3 Vec3) (s : State Sim3)
    (ops : List (QueueOp SE3 Sim3)) (hact : cfg.mbActiveLC = true)
    (hq : s.mlpLoopKeyFrameQueue = []) :
    let r := ops.foldl (QueueOp.apply cfg G) (s, [])
    r.2.map Prod.fst ++ r.1.mlpLoopKeyFrameQueue = QueueOp.accepted ops ∧
    ∀ p ∈ r.2, p.2 = some (Event.SetNotErase p.1) := by
  induction ops using List.reverseRecOn with
  | nil => simp [QueueOp.accepted, hq]
  | append_singleton ops op ih =>
    simp only [List.foldl_append, List.foldl_cons, List.foldl_nil, accepted_append]
    simp only at ih
    generalize ops.foldl (QueueOp.apply cfg G) (s, []) = st at ih ⊢
    obtain ⟨ih1, ih2⟩ := ih
    cases op with
    | insert W k =>
      refine ⟨?_, ih2⟩
      rw [← ih1]
      by_cases h : W.mnId k ≠ 0
      · simp [QueueOp.apply, InsertKeyFrame, QueueOp.accepted, h]
      · simp [QueueOp.apply, InsertKeyFrame, QueueOp.accepted, h]
    | detect W =>
      cases hqq : st.1.mlpLoopKeyFrameQueue with
      | nil =>
        simp only [QueueOp.apply, CheckNewKeyFrames, hqq, List.isEmpty_nil, Bool.not_true,
          Bool.false_eq_true, if_false, QueueOp.accepted, List.append_nil]
        exact ⟨by rw [← ih1, hqq, List.append_nil], ih2⟩
      | cons C rest =>
        obtain ⟨d1, d2, d3⟩ := NewDetectCommonRegions_dequeue cfg G W st.1 C rest hact hqq
        simp only [QueueOp.apply, CheckNewKeyFrames, hqq, List.isEmpty_cons, Bool.not_false,
          if_true, QueueOp.accepted, List.append_nil, d1, d2, d3]
        refine ⟨?_, ?_⟩
        · rw [← ih1, hqq]; simp
        · intro p hp
          rcases List.mem_append.mp hp with h | h
          · exact ih2 p h
          · simp only [List.mem_singleton] at h
            subst h; rfl

/-- Witness of C13: in `queueOps` the KeyFrames 7 (of `mnId` 0), 1 and 2 are inserted, the
worker passes twice and KeyFrame 3 is inserted: the KeyFrames dequeued are 1 and 2, and
KeyFrame 3 waits. -/
theorem queue_is_filtered_fifo_witness :
    ((queueOps.foldl (QueueOp.apply plainStereo scaleLine) (LoopClosing scaleLine, [])).2.map
      Prod.fst = [1, 2]) ∧
    (queueOps.foldl (QueueOp.apply plainStereo scaleLine)
      (LoopClosing scaleLine, [])).1.mlpLoopKeyFrameQueue = [3] ∧
    (queueOps.foldl (QueueOp.apply plainStereo scaleLine) (LoopClosing scaleLine, [])).2.map
        Prod.fst ++
      (queueOps.foldl (QueueOp.apply plainStereo scaleLine)
        (LoopClosing scaleLine, [])).1.mlpLoopKeyFrameQueue = QueueOp.accepted queueOps :=
  ⟨by decide!, by decide!,
    (queue_is_filtered_fifo plainStereo scaleLine (LoopClosing scaleLine) queueOps
      (by decide) (by decide)).1⟩

/-- C12 (the code differs). The first pass of a stereo worker in `exampleWorld`: KeyFrame 1
is dequeued and pinned, the fresh search starts the Loop track with the candidate 10 and
one coincidence, so that `last_current_kf` is KeyFrame 1, and, no detection being
committed, line 458 calls `SetErase` on KeyFrame 1.  When `NewDetectCommonRegions` returns,
and when the pass ends, the Loop track is not empty and its `last_current_kf` is not pinned:
its latest call is `SetErase`, and it received as many `SetErase` as `SetNotErase`. -/
theorem last_current_kf_not_pinned :
    (firstDetection.2.1.track Track.Loop).num_coincidences = 1 ∧
    (firstDetection.2.1.track Track.Loop).last_current_kf = 1 ∧
    pinned firstDetection.2.2 1 = false ∧ pinCount firstDetection.2.2 1 = 0 ∧
    (firstPass.1.track Track.Loop).num_coincidences = 1 ∧
    (firstPass.1.track Track.Loop).last_current_kf = 1 ∧
    pinned firstPass.2 1 = false ∧ pinCount firstPass.2 1 = 0 ∧
    pinned firstPass.2 (firstPass.1.track Track.Loop).matched_kf = true := by
  decide!

end QueueTheorems

section SkipResetTheorems

variable {SE3 Sim3 Vec3 : Type}

/-- C14. Precondition skip. When `NewDetectCommonRegions` (place recognition active) takes
the KeyFrame `C` from the queue and the map of `C` meets one of the skip conditions
(inertial mode and IMU stage 2 not reached; sensor STEREO and fewer than 5 KeyFrames;
fewer than 12 KeyFrames), the function returns false, its calls are exactly `SetNotErase`
on `C`, one `add` of `C` to the BoW database and `SetErase` on `C`, and the detection
state of both tracks is as before. -/
theorem precondition_skip (cfg : Config) (G : Geometry SE3 Sim3 Vec3) (W : World SE3 Sim3)
    (s : State Sim3) (C : KeyFramePtr) (rest : List KeyFramePtr)
    (hact : cfg.mbActiveLC = true) (hq : s.mlpLoopKeyFrameQueue = C :: rest)
    (hskip : NewDetectCommonRegions.skips cfg W (W.GetMap C)) :
    let r := NewDetectCommonRegions cfg G W s
    r.1 = false ∧
    r.2.2 = [Event.SetNotErase C, Event.KeyFrameDB_add C, Event.SetErase C] ∧
    r.2.2.countP Event.isDatabaseAdd = 1 ∧
    ∀ k : Track, r.2.1.track k = s.track k := by
  have ht := dequeue_track W C rest s
  have hmap : (NewDetectCommonRegions.dequeue W C rest s).mpLastMap = W.GetMap C := rfl
  simp only [NewDetectCommonRegions.skips] at hskip
  simp only [NewDetectCommonRegions, hact, hq, Bool.true_eq_false, if_false, hmap]
  split_ifs with h1 h2 h3
  · exact ⟨rfl, rfl, rfl, ht⟩
  · exact ⟨rfl, rfl, rfl, ht⟩
  · exact ⟨rfl, rfl, rfl, ht⟩
  · exact absurd hskip (by tauto)

/-- Witness of C14: `queuedState` in a world whose map has 4 KeyFrames. -/
theorem precondition_skip_witness :
    (NewDetectCommonRegions plainStereo scaleLine smallMapWorld queuedState).1 = false ∧
    (NewDetectCommonRegions plainStereo scaleLine smallMapWorld queuedState).2.2 =
      [Event.SetNotErase 5, Event.KeyFrameDB_add 5, Event.SetErase 5] ∧
    (NewDetectCommonRegions plainStereo scaleLine smallMapWorld queuedState).2.2.countP
      Event.isDatabaseAdd = 1 ∧
    ∀ k : Track,
      (NewDetectCommonRegions plainStereo scaleLine smallMapWorld queuedState).2.1.track k =
        queuedState.track k :=
  precondition_skip plainStereo scaleLine smallMapWorld queuedState 5 [] (by decide)
    (by decide) (by decide)

theorem eraseLoop_eq_filter (W : World SE3 Sim3) (P : MapPtr) (q : List KeyFramePtr) :
    ResetIfRequested.eraseLoop W P q = q.filter (fun pKF => decide (W.GetMap pKF ≠ P)) := by
  induction q with
  | nil => rfl
  | cons x xs ih =>
    by_cases h : W.GetMap x = P
    · simp [ResetIfRequested.eraseLoop, h, ih]
    · simp [ResetIfRequested.eraseLoop, h, ih]

/-- C15. `ResetIfRequested` equals its reference definition: with a full reset requested
the queue becomes empty and both request flags are cleared; otherwise, with a reset of the
active map `P` requested, the queue keeps, in their order, exactly the entries whose
KeyFrame does not belong to `P`, and the flag is cleared; otherwise nothing changes.  In
every case the detection state of both tracks is unchanged. -/
theorem reset_equals_reference (W : World SE3 Sim3) (s : State Sim3) :
    ResetIfRequested W s = ResetIfRequested.reference W s ∧
    (ResetIfRequested W s).mlpLoopKeyFrameQueue.Sublist s.mlpLoopKeyFrameQueue ∧
    ∀ k : Track, (ResetIfRequested W s).track k = s.track k := by
  have he := eraseLoop_eq_filter W s.mpMapToReset s.mlpLoopKeyFrameQueue
  refine ⟨?_, ?_, ?_⟩
  · simp only [ResetIfRequested, ResetIfRequested.reference, he]
  · simp only [ResetIfRequested, he]
    split_ifs
    · exact List.nil_sublist _
    · exact List.filter_sublist _
    · exact List.Sublist.refl _
  · intro k
    simp only [ResetIfRequested]
    split_ifs <;> cases k <;> rfl

/-- Witness of C15: in `resetState` a reset of map 1 is requested and the queue holds the
KeyFrames 5, 40 and 6, of which 40 belongs to map 2; the queue becomes `[40]`. -/
theorem reset_equals_reference_witness :
    (ResetIfRequested resetWorld resetState).mlpLoopKeyFrameQueue = [40] ∧
    (ResetIfRequested resetWorld resetState).mbResetActiveMapRequested = false ∧
    ResetIfRequested resetWorld resetState = ResetIfRequested.reference resetWorld resetState :=
  ⟨by decide, by decide, (reset_equals_reference resetWorld resetState).1⟩

end SkipResetTheorems

section CheapPathTheorems

variable {SE3 Sim3 Vec3 : Type}

/-- C16. Cheap path acceptance. `DetectAndReffineSim3FromLastKF` returns true if and only if
the first projection search gives at least 30 matches, the Sim3 optimisation more than 50
inliers, and the second projection search at least 100 matches; with 95 matches in the
second projection search it returns false. -/
theorem cheap_path_acceptance (cfg : Config) (G : Geometry SE3 Sim3 Vec3) (W : World SE3 Sim3)
    (mpCurrentKF pCurrentKF pMatchedKF : KeyFramePtr) (gScw : Sim3) :
    let first := FindMatchesByProjection W pCurrentKF pMatchedKF gScw
    let bFixedScale :=
      if cfg.mSensor = CameraType.IMU_MONOCULAR ∧ W.GetIniertialBA2 (W.GetMap pCurrentKF) = false
      then false else cfg.mbFixScale
    let numOptMatches := (W.OptimizeSim3 mpCurrentKF pMatchedKF first.vpMatchedMapPoints
      (G.mul gScw (G.ofSE3 (W.GetPoseInverse pMatchedKF))) bFixedScale).1
    let second := FindMatchesByProjection W pCurrentKF pMatchedKF (G.unitScale gScw)
    let r := DetectAndReffineSim3FromLastKF cfg G W mpCurrentKF pCurrentKF pMatchedKF gScw
    (r.ret = true ↔ first.num ≥ 30 ∧ numOptMatches > 50 ∧ second.num ≥ 100) ∧
    (second.num = 95 → r.ret = false) := by
  simp only [DetectAndReffineSim3FromLastKF]
  constructor
  · split_ifs with h1 h2 h3 <;> simp_all
  · intro h95
    split_ifs with h1 h2 h3 <;> simp_all

/-- Witness of C16: the refinement of KeyFrame 5 against KeyFrame 10 where every projection
search gives 95 matches: it fails, although the first search and the optimisation pass. -/
theorem cheap_path_acceptance_witness :
    (FindMatchesByProjection subThresholdWorld 5 10 (1 : ℚ)).num = 95 ∧
    (DetectAndReffineSim3FromLastKF inertialStereo scaleLine subThresholdWorld 5 5 10 2).ret =
      false :=
  ⟨by decide!,
    (cheap_path_acceptance inertialStereo scaleLine subThresholdWorld 5 5 10 2).2
      (by decide!)⟩

theorem cheap_path_similarity (cfg : Config) (G : Geometry SE3 Sim3 Vec3) (W : World SE3 Sim3)
    (mpCurrentKF pCurrentKF pMatchedKF : KeyFramePtr) (gScw : Sim3) :
    let r := DetectAndReffineSim3FromLastKF cfg G W mpCurrentKF pCurrentKF pMatchedKF gScw
    r.ret = true →
      r.gScw = G.unitScale gScw ∧
      r.events.getLast? = some (Event.SearchByProjection pCurrentKF (G.unitScale gScw)) := by
  simp only [DetectAndReffineSim3FromLastKF]
  split_ifs <;> simp

/-- C17 (the code differs). The refinement of KeyFrame 5 against KeyFrame 10 from the
predicted similarity of scale 2, in a world where the optimiser leaves a relative
similarity `gScm` of scale 4/5: the refinement succeeds, the optimised similarity composed
with the pose of the matched KeyFrame has scale 4/5, but the second projection search is
made with, and the similarity returned is, the predicted similarity with its scale set to 1
(lines 487, 492, 494). -/
theorem cheap_path_discards_optimised_sim3 :
    refinedExample.ret = true ∧
    scaleLine.mul refinedExample.gScm (scaleLine.ofSE3 (refiningWorld.GetPose 10)) = 4 / 5 ∧
    refinedExample.gScw = scaleLine.unitScale 2 ∧
    refinedExample.gScw ≠
      scaleLine.mul refinedExample.gScm (scaleLine.ofSE3 (refiningWorld.GetPose 10)) ∧
    refinedExample.events.getLast? =
      some (Event.SearchByProjection 5 (scaleLine.unitScale 2)) := by
  decide!

end CheapPathTheorems

section GlobalBATheorems

theorem commit_discards_on_new_epoch (b isImuInitialized : Bool) (idx : Nat) (g : GBAState)
    (h : idx ≠ g.mnFullBAIdx) :
    RunGlobalBundleAdjustment.commit isImuInitialized g (GBARun.waiting b idx) =
      (g, GBARun.returned false) := by
  simp [RunGlobalBundleAdjustment.commit, h]

theorem commit_discards_on_stop (b isImuInitialized : Bool) (idx : Nat) (g : GBAState)
    (h : g.mbStopGBA = true) :
    (RunGlobalBundleAdjustment.commit isImuInitialized g (GBARun.waiting b idx)).2 =
      GBARun.returned false := by
  simp only [RunGlobalBundleAdjustment.commit]
  split_ifs <;> simp [h]

/-- C11 (the code differs). In `supersededSchedule` run 0 is launched with
`mnFullBAIdx = 0`; the second loop closure bumps the counter to 1 while the run is in the
optimiser and then launches run 1, which clears `mbStopGBA`; run 0 reads `idx = 1` at
line 1983, passes the check of line 1991 and executes the block that overwrites the poses of
the KeyFrames and the positions of the MapPoints. -/
theorem superseded_run_updates_map :
    (GBASystem.run (supersededSchedule.take 1) GBASystem.initial).flags.mnFullBAIdx = 0 ∧
    (GBASystem.run (supersededSchedule.take 2) GBASystem.initial).flags.mnFullBAIdx = 1 ∧
    (GBASystem.run (supersededSchedule.take 4) GBASystem.initial).runs.head? =
      some (GBARun.waiting false 1) ∧
    (GBASystem.run supersededSchedule GBASystem.initial).runs.head? =
      some (GBARun.returned true) := by
  decide

end GlobalBATheorems

section SelectionTheorems

variable {SE3 Sim3 Vec3 : Type}

theorem consensus_count (G : Geometry SE3 Sim3 Vec3) (W : World SE3 Sim3)
    (C K : KeyFramePtr) (S : Sim3) (l : List KeyFramePtr) :
    ∀ (n : Nat) (v : List MapPointPtr) (ev : List (Event Sim3)), n ≤ 3 →
      (DetectCommonRegionsFromBoW.consensus G W C K S l (n, v, ev)).1 =
        min 3 (n + l.countP (DetectCommonRegionsFromBoW.bValid G W C K S)) := by
  induction l with
  | nil => intro n v ev hn; simp [DetectCommonRegionsFromBoW.consensus, hn]
  | cons x xs ih =>
    intro n v ev hn
    by_cases h3 : n < 3
    · simp only [DetectCommonRegionsFromBoW.consensus, h3, if_true]
      by_cases hv : DetectCommonRegionsFromBoW.bValid G W C K S x = true
      · have hv2 := hv
        simp only [DetectCommonRegionsFromBoW.bValid] at hv2
        rw [if_pos hv2, ih _ _ _ (by omega), List.countP_cons_of_pos _ _ hv]
        congr 1; omega
      · have hv2 := hv
        simp only [DetectCommonRegionsFromBoW.bValid] at hv2
        rw [if_neg hv2, ih _ _ _ hn, List.countP_cons_of_neg _ _ hv]
    · simp only [DetectCommonRegionsFromBoW.consensus, h3, if_false]
      omega

theorem geometric_best (cfg : Config) (G : Geometry SE3 Sim3 Vec3) (W : World SE3 Sim3)
    (C K : KeyFramePtr) (st : BoWBest Sim3 × List (Event Sim3)) :
    ((DetectCommonRegionsFromBoW.solver cfg W C K).1 = true ∧
        (DetectCommonRegionsFromBoW.coarse cfg G W C K).1 ≥ 50 ∧
        (DetectCommonRegionsFromBoW.optimised cfg G W C K).1 ≥ 20 ∧
        (DetectCommonRegionsFromBoW.reprojection cfg G W C K).1 ≥ 100 ∧
        st.1.nBestMatchesReproj < (DetectCommonRegionsFromBoW.reprojection cfg G W C K).1 →
      DetectCommonRegionsFromBoW.holds cfg G W C K
        (DetectCommonRegionsFromBoW.geometric cfg G W C K
          (DetectCommonRegionsFromBoW.bowMatches W C K) st).1) ∧
    (¬((DetectCommonRegionsFromBoW.solver cfg W C K).1 = true ∧
        (DetectCommonRegionsFromBoW.coarse cfg G W C K).1 ≥ 50 ∧
        (DetectCommonRegionsFromBoW.optimised cfg G W C K).1 ≥ 20 ∧
        (DetectCommonRegionsFromBoW.reprojection cfg G W C K).1 ≥ 100 ∧
        st.1.nBestMatchesReproj < (DetectCommonRegionsFromBoW.reprojection cfg G W C K).1) →
      (DetectCommonRegionsFromBoW.geometric cfg G W C K
        (DetectCommonRegionsFromBoW.bowMatches W C K) st).1 = st.1) := by
  have hc := consensus_count G W C K (DetectCommonRegionsFromBoW.gScw cfg G W C K)
    (W.GetBestCovisibilityKeyFrames C 10) 0
  simp only [DetectCommonRegionsFromBoW.geometric, DetectCommonRegionsFromBoW.holds,
    DetectCommonRegionsFromBoW.solver, DetectCommonRegionsFromBoW.coarse,
    DetectCommonRegionsFromBoW.optimised, DetectCommonRegionsFromBoW.reprojection,
    DetectCommonRegionsFromBoW.gScw, DetectCommonRegionsFromBoW.points,
    DetectCommonRegionsFromBoW.bFixedScale] at hc ⊢
  split_ifs with h1 h2 h3 h4 h5
  · refine ⟨fun _ => ⟨rfl, rfl, ?_, rfl, rfl⟩, fun h => absurd ⟨h1, h2, h3, h4, h5⟩ h⟩
    rw [hc _ _ (by omega)]
    simp
  · exact ⟨fun h => absurd h.2.2.2.2 h5, fun _ => rfl⟩
  · exact ⟨fun h => absurd h.2.2.2.1 h4, fun _ => rfl⟩
  · exact ⟨fun h => absurd h.2.2.1 h3, fun _ => rfl⟩
  · exact ⟨fun h => absurd h.2.1 h2, fun _ => rfl⟩
  · exact ⟨fun h => absurd h.1 h1, fun _ => rfl⟩

theorem candidate_eq (cfg : Config) (G : Geometry SE3 Sim3 Vec3) (W : World SE3 Sim3)
    (C K : KeyFramePtr) (st : BoWBest Sim3 × List (Event Sim3)) :
    DetectCommonRegionsFromBoW.candidate cfg G W C K st =
      if K = 0 ∨ W.isBad K = true then st
      else if DetectCommonRegionsFromBoW.bAbortByNearKF W C K = true then st
      else if (DetectCommonRegionsFromBoW.bowMatches W C K).numBoWMatches ≥ 20 then
        DetectCommonRegionsFromBoW.geometric cfg G W C K
          (DetectCommonRegionsFromBoW.bowMatches W C K)
          (st.1, st.2 ++ ((DetectCommonRegionsFromBoW.vpCovKFi W K).filter
            (fun k => !(decide (k = 0) || W.isBad k))).map
              (fun k => Event.SearchByBoW C k))
      else
        (st.1, st.2 ++ ((DetectCommonRegionsFromBoW.vpCovKFi W K).filter
          (fun k => !(decide (k = 0) || W.isBad k))).map (fun k => Event.SearchByBoW C k)) :=
  rfl

theorem candidate_best (cfg : Config) (G : Geometry SE3 Sim3 Vec3) (W : World SE3 Sim3)
    (C K : KeyFramePtr) (st : BoWBest Sim3 × List (Event Sim3)) :
    (DetectCommonRegionsFromBoW.passes cfg G W C K ∧
        st.1.nBestMatchesReproj < (DetectCommonRegionsFromBoW.reprojection cfg G W C K).1 →
      DetectCommonRegionsFromBoW.holds cfg G W C K
        (DetectCommonRegionsFromBoW.candidate cfg G W C K st).1) ∧
    (¬(DetectCommonRegionsFromBoW.passes cfg G W C K ∧
        st.1.nBestMatchesReproj < (DetectCommonRegionsFromBoW.reprojection cfg G W C K).1) →
      (DetectCommonRegionsFromBoW.candidate cfg G W C K st).1 = st.1) := by
  have hg := geometric_best cfg G W C K
    (st.1, st.2 ++ ((DetectCommonRegionsFromBoW.vpCovKFi W K).filter
      (fun k => !(decide (k = 0) || W.isBad k))).map (fun k => Event.SearchByBoW C k))
  rw [candidate_eq]
  simp only [DetectCommonRegionsFromBoW.passes]
  split_ifs with h1 h2 h3
  · exact ⟨fun h => absurd h1 h.1.1, fun _ => rfl⟩
  · exact ⟨fun h => absurd h.1.2.1 (by simp [h2]), fun _ => rfl⟩
  · constructor
    · intro h
      exact hg.1 ⟨h.1.2.2.2.1, h.1.2.2.2.2.1, h.1.2.2.2.2.2.1, h.1.2.2.2.2.2.2, h.2⟩
    · intro h
      apply hg.2
      intro hh
      exact h ⟨⟨h1, by simpa using h2, h3, hh.1, hh.2.1, hh.2.2.1, hh.2.2.2.1⟩, hh.2.2.2.2⟩
  · exact ⟨fun h => absurd h.1.2.2.1 h3, fun _ => rfl⟩

theorem passes_reprojection (cfg : Config) (G : Geometry SE3 Sim3 Vec3) (W : World SE3 Sim3)
    (C K : KeyFramePtr) (h : DetectCommonRegionsFromBoW.passes cfg G W C K) :
    (DetectCommonRegionsFromBoW.reprojection cfg G W C K).1 ≥ 100 :=
  h.2.2.2.2.2.2

theorem best_selection (cfg : Config) (G : Geometry SE3 Sim3 Vec3) (W : World SE3 Sim3)
    (C : KeyFramePtr) (cands : List KeyFramePtr) :
    ((∀ K ∈ cands, ¬DetectCommonRegionsFromBoW.passes cfg G W C K) ∧
      (DetectCommonRegionsFromBoW.best cfg G W C cands).1 = ⟨0, 0, 0, G.identity, [], []⟩) ∨
    ∃ pre K post, cands = pre ++ K :: post ∧
      DetectCommonRegionsFromBoW.passes cfg G W C K ∧
      (∀ K2 ∈ pre, DetectCommonRegionsFromBoW.passes cfg G W C K2 →
        (DetectCommonRegionsFromBoW.reprojection cfg G W C K2).1 <
          (DetectCommonRegionsFromBoW.reprojection cfg G W C K).1) ∧
      (∀ K2 ∈ post, DetectCommonRegionsFromBoW.passes cfg G W C K2 →
        (DetectCommonRegionsFromBoW.reprojection cfg G W C K2).1 ≤
          (DetectCommonRegionsFromBoW.reprojection cfg G W C K).1) ∧
      DetectCommonRegionsFromBoW.holds cfg G W C K
        (DetectCommonRegionsFromBoW.best cfg G W C cands).1 := by
  induction cands using List.reverseRecOn with
  | nil => left; simp [DetectCommonRegionsFromBoW.best]
  | append_singleton l x ih =>
    simp only [DetectCommonRegionsFromBoW.best, List.foldl_append, List.foldl_cons,
      List.foldl_nil] at ih ⊢
    generalize l.foldl
      (fun st pKFi => DetectCommonRegionsFromBoW.candidate cfg G W C pKFi st)
      (⟨0, 0, 0, G.identity, [], []⟩, []) = st at ih ⊢
    have hc := candidate_best cfg G W C x st
    rcases ih with ⟨hnone, hb⟩ | ⟨pre, K, post, hl, hK, hpre, hpost, hhold⟩
    · by_cases hx : DetectCommonRegionsFromBoW.passes cfg G W C x
      · right
        refine ⟨l, x, [], rfl, hx, ?_, ?_, ?_⟩
        · intro K2 h2 hp; exact absurd hp (hnone K2 h2)
        · intro K2 h2; simp at h2
        · apply hc.1
          refine ⟨hx, ?_⟩
          have := passes_reprojection cfg G W C x hx
          rw [hb]
          show (0 : Int) < _
          omega
      · left
        refine ⟨?_, ?_⟩
        · intro K2 h2
          rcases List.mem_append.mp h2 with h | h
          · exact hnone K2 h
          · simp only [List.mem_singleton] at h
            subst h; exact hx
        · rw [hc.2 (fun h => hx h.1), hb]
    · right
      have hn : st.1.nBestMatchesReproj =
          (DetectCommonRegionsFromBoW.reprojection cfg G W C K).1 := hhold.2.1
      by_cases hx : DetectCommonRegionsFromBoW.passes cfg G W C x ∧
          st.1.nBestMatchesReproj < (DetectCommonRegionsFromBoW.reprojection cfg G W C x).1
      · refine ⟨l, x, [], rfl, hx.1, ?_, ?_, hc.1 hx⟩
        · intro K2 h2 hp
          have hlt := hx.2
          rw [hn] at hlt
          rw [hl] at h2
          rcases List.mem_append.mp h2 with h | h
          · exact lt_trans (hpre K2 h hp) hlt
          · rcases List.mem_cons.mp h with h | h
            · subst h; exact hlt
            · exact lt_of_le_of_lt (hpost K2 h hp) hlt
        · intro K2 h2; simp at h2
      · refine ⟨pre, K, post ++ [x], by rw [hl]; simp, hK, hpre, ?_, ?_⟩
        · intro K2 h2 hp
          rcases List.mem_append.mp h2 with h | h
          · exact hpost K2 h hp
          · simp only [List.mem_singleton] at h
            subst h
            rw [← hn]
            exact not_lt.mp (fun hlt => hx ⟨hp, hlt⟩)
        · rw [hc.2 hx]; exact hhold

/-- C18. Fresh search selection. When at least one BoW candidate passes every stage,
`DetectCommonRegionsFromBoW` selects a passing candidate `K` whose count of matches in the
projection search with the optimised similarity is greater than that of every passing
candidate before it in `vpBowCand` and not less than that of every passing candidate after
it; it sets `pMatchedKF2` to `K` and `pLastCurrentKF` to the current KeyFrame, calls
`SetNotErase` on `K`, stores the optimised similarity of `K`, sets `nNumCoincidences` to the
number, counted up to 3, of the 10 best covisible KeyFrames of the current KeyFrame that
verify against `K`, and returns true if and only if that number is 3.  When no candidate
passes, it returns false and leaves its reference arguments as they were. -/
theorem fresh_search_selection (cfg : Config) (G : Geometry SE3 Sim3 Vec3)
    (W : World SE3 Sim3) (C : KeyFramePtr) (cands : List KeyFramePtr)
    (p1 p2 : KeyFramePtr) (S : Sim3) (n : Nat) (l1 l2 : List MapPointPtr) :
    let r := DetectCommonRegionsFromBoW cfg G W C cands p1 p2 S n l1 l2
    ((∃ K ∈ cands, DetectCommonRegionsFromBoW.passes cfg G W C K) →
      ∃ pre K post, cands = pre ++ K :: post ∧
        DetectCommonRegionsFromBoW.passes cfg G W C K ∧
        (∀ K2 ∈ pre, DetectCommonRegionsFromBoW.passes cfg G W C K2 →
          (DetectCommonRegionsFromBoW.reprojection cfg G W C K2).1 <
            (DetectCommonRegionsFromBoW.reprojection cfg G W C K).1) ∧
        (∀ K2 ∈ post, DetectCommonRegionsFromBoW.passes cfg G W C K2 →
          (DetectCommonRegionsFromBoW.reprojection cfg G W C K2).1 ≤
            (DetectCommonRegionsFromBoW.reprojection cfg G W C K).1) ∧
        r.pMatchedKF2 = K ∧
        r.pLastCurrentKF = C ∧
        r.events.getLast? = some (Event.SetNotErase K) ∧
        r.g2oScw = DetectCommonRegionsFromBoW.gScw cfg G W C K ∧
        r.vpMatchedMPs = (DetectCommonRegionsFromBoW.reprojection cfg G W C K).2 ∧
        r.nNumCoincidences =
          min 3 ((W.GetBestCovisibilityKeyFrames C 10).countP
            (DetectCommonRegionsFromBoW.bValid G W C K
              (DetectCommonRegionsFromBoW.gScw cfg G W C K))) ∧
        (r.ret = true ↔ r.nNumCoincidences = 3)) ∧
    ((∀ K ∈ cands, ¬DetectCommonRegionsFromBoW.passes cfg G W C K) →
      r.ret = false ∧ r.pMatchedKF2 = p1 ∧ r.pLastCurrentKF = p2 ∧ r.g2oScw = S ∧
        r.nNumCoincidences = n ∧ r.vpMPs = l1 ∧ r.vpMatchedMPs = l2) := by
  have hb := best_selection cfg G W C cands
  simp only [DetectCommonRegionsFromBoW]
  generalize DetectCommonRegionsFromBoW.best cfg G W C cands = b at hb ⊢
  rcases hb with ⟨hnone, hb0⟩ | ⟨pre, K, post, hl, hK, hpre, hpost, h1, h2, h3, h4, h5⟩
  · have hz : ¬b.1.nBestMatchesReproj > 0 := by rw [hb0]; simp
    constructor
    · rintro ⟨K, hK, hp⟩
      exact absurd hp (hnone K hK)
    · intro _
      simp only [hz, if_false, and_self]
  · have hr := passes_reprojection cfg G W C K hK
    have hz : b.1.nBestMatchesReproj > 0 := by rw [h2]; omega
    constructor
    · intro _
      refine ⟨pre, K, post, hl, hK, hpre, hpost, ?_⟩
      simp only [hz, if_true, h1, h3, h4, h5, List.getLast?_append, List.getLast?_singleton,
        decide_eq_true_eq, true_and]
      refine ⟨rfl, ?_⟩
      have := Nat.min_le_left 3 ((W.GetBestCovisibilityKeyFrames C 10).countP
        (DetectCommonRegionsFromBoW.bValid G W C K
          (DetectCommonRegionsFromBoW.gScw cfg G W C K)))
      constructor
      · intro h; omega
      · intro h; omega
    · intro hnone
      exact absurd hK (hnone K (by rw [hl]; simp))

/-- Witness of C18: the candidates 10, 11 and 12 for KeyFrame 1 in `selectionWorld` pass with
120, 130 and 130 matches; the function selects candidate 11, with one coincidence, and
returns false. -/
theorem fresh_search_selection_witness :
    (DetectCommonRegionsFromBoW plainStereo scaleLine selectionWorld 1 [10, 11, 12] 0 0 1 0 []
      []).pMatchedKF2 = 11 ∧
    (DetectCommonRegionsFromBoW plainStereo scaleLine selectionWorld 1 [10, 11, 12] 0 0 1 0 []
      []).nNumCoincidences = 1 ∧
    (DetectCommonRegionsFromBoW plainStereo scaleLine selectionWorld 1 [10, 11, 12] 0 0 1 0 []
      []).ret = false ∧
    ∃ K, DetectCommonRegionsFromBoW.passes plainStereo scaleLine selectionWorld 1 K ∧
      (DetectCommonRegionsFromBoW plainStereo scaleLine selectionWorld 1 [10, 11, 12] 0 0 1 0
        [] []).pMatchedKF2 = K ∧
      (DetectCommonRegionsFromBoW plainStereo scaleLine selectionWorld 1 [10, 11, 12] 0 0 1 0
        [] []).pLastCurrentKF = 1 :=
  ⟨by decide!, by decide!, by decide!,
    let ⟨_, K, _, _, hK, _, _, hm, hl, _⟩ :=
      (fresh_search_selection plainStereo scaleLine selectionWorld 1 [10, 11, 12] 0 0 1 0 []
        []).1 ⟨10, by simp, by decide!⟩
    ⟨K, hK, hm, hl⟩⟩

end SelectionTheorems

section RejectionTheorems

variable {SE3 Sim3 Vec3 : Type}

theorem consensus_events (G : Geometry SE3 Sim3 Vec3) (W : World SE3 Sim3)
    (C K : KeyFramePtr) (S : Sim3) (P : Event Sim3 → Prop)
    (hP : ∀ k T, P (Event.SearchByProjection k T)) (l : List KeyFramePtr) :
    ∀ st : Nat × List MapPointPtr × List (Event Sim3), (∀ e ∈ st.2.2, P e) →
      ∀ e ∈ (DetectCommonRegionsFromBoW.consensus G W C K S l st).2.2, P e := by
  induction l with
  | nil => intro st h; simpa [DetectCommonRegionsFromBoW.consensus] using h
  | cons x xs ih =>
    rintro ⟨n, v, ev⟩ h
    by_cases hn : n < 3
    · simp only [DetectCommonRegionsFromBoW.consensus, hn, if_true]
      apply ih
      simp only [List.forall_mem_append]
      exact ⟨h, by simpa using hP _ _⟩
    · simp only [DetectCommonRegionsFromBoW.consensus, hn, if_false]
      exact h

theorem geometric_events (cfg : Config) (G : Geometry SE3 Sim3 Vec3) (W : World SE3 Sim3)
    (C K : KeyFramePtr) (bow : BoWMatches) (st : BoWBest Sim3 × List (Event Sim3))
    (P : Event Sim3 → Prop) (hst : ∀ e ∈ st.2, P e)
    (h2 : P (Event.Sim3Solver C K (DetectCommonRegionsFromBoW.bFixedScale cfg W C)))
    (h3 : ∀ k T, P (Event.SearchByProjection k T))
    (h4 : P (Event.OptimizeSim3 C K cfg.mbFixScale)) :
    ∀ e ∈ (DetectCommonRegionsFromBoW.geometric cfg G W C K bow st).2, P e := by
  have hc := consensus_events G W C K
  simp only [DetectCommonRegionsFromBoW.bFixedScale] at h2
  simp only [DetectCommonRegionsFromBoW.geometric]
  split_ifs <;>
    first
    | (apply hc _ P h3; simp only [List.forall_mem_append, List.forall_mem_singleton]
       exact ⟨⟨⟨⟨hst, h2⟩, h3 _ _⟩, h4⟩, h3 _ _⟩)
    | (simp only [List.forall_mem_append, List.forall_mem_singleton]
       first
       | exact ⟨⟨⟨⟨hst, h2⟩, h3 _ _⟩, h4⟩, h3 _ _⟩
       | exact ⟨⟨⟨hst, h2⟩, h3 _ _⟩, h4⟩
       | exact ⟨⟨hst, h2⟩, h3 _ _⟩
       | exact ⟨hst, h2⟩)

theorem candidate_events (cfg : Config) (G : Geometry SE3 Sim3 Vec3) (W : World SE3 Sim3)
    (C K : KeyFramePtr) (st : BoWBest Sim3 × List (Event Sim3))
    (P : Event Sim3 → Prop) (hst : ∀ e ∈ st.2, P e)
    (h1 : ∀ k, P (Event.SearchByBoW C k))
    (h2 : P (Event.Sim3Solver C K (DetectCommonRegionsFromBoW.bFixedScale cfg W C)))
    (h3 : ∀ k T, P (Event.SearchByProjection k T))
    (h4 : P (Event.OptimizeSim3 C K cfg.mbFixScale)) :
    ∀ e ∈ (DetectCommonRegionsFromBoW.candidate cfg G W C K st).2, P e := by
  have hs : ∀ l : List KeyFramePtr,
      ∀ e ∈ st.2 ++ l.map (fun k => (Event.SearchByBoW C k : Event Sim3)), P e := by
    intro l
    simp only [List.forall_mem_append]
    refine ⟨hst, ?_⟩
    intro e he
    obtain ⟨k, -, rfl⟩ := List.mem_map.mp he
    exact h1 k
  rw [candidate_eq]
  split_ifs
  · exact hst
  · exact hst
  · exact geometric_events cfg G W C K _ _ P (hs _) h2 h3 h4
  · exact hs _

theorem near_aborts (W : World SE3 Sim3) (C K : KeyFramePtr)
    (hnear : K ∈ W.GetConnectedKeyFrames C ∨
      ∃ k ∈ W.GetBestCovisibilityKeyFrames K 10, k ∈ W.GetConnectedKeyFrames C) :
    DetectCommonRegionsFromBoW.bAbortByNearKF W C K = true := by
  simp only [DetectCommonRegionsFromBoW.bAbortByNearKF, DetectCommonRegionsFromBoW.vpCovKFi,
    List.any_eq_true, decide_eq_true_eq]
  rcases hnear with h | ⟨k, hk, hc⟩
  · refine ⟨K, ?_, h⟩
    split <;> simp
  · refine ⟨k, ?_, hc⟩
    split
    · rename_i he; rw [he] at hk; simp at hk
    · rename_i c0 cs he
      rw [he] at hk
      rcases List.mem_cons.mp hk with h | h
      · simp [h]
      · simp [h]

theorem candidate_rejected (cfg : Config) (G : Geometry SE3 Sim3 Vec3) (W : World SE3 Sim3)
    (C K : KeyFramePtr) (st : BoWBest Sim3 × List (Event Sim3))
    (ha : DetectCommonRegionsFromBoW.bAbortByNearKF W C K = true) :
    DetectCommonRegionsFromBoW.candidate cfg G W C K st = st := by
  rw [candidate_eq]
  split_ifs <;> rfl

theorem best_events (cfg : Config) (G : Geometry SE3 Sim3 Vec3) (W : World SE3 Sim3)
    (C : KeyFramePtr) (P : Event Sim3 → Prop) (cands : List KeyFramePtr)
    (h : ∀ x ∈ cands, ∀ st : BoWBest Sim3 × List (Event Sim3), (∀ e ∈ st.2, P e) →
      ∀ e ∈ (DetectCommonRegionsFromBoW.candidate cfg G W C x st).2, P e) :
    ∀ e ∈ (DetectCommonRegionsFromBoW.best cfg G W C cands).2, P e := by
  have key : ∀ (l : List KeyFramePtr) (st : BoWBest Sim3 × List (Event Sim3)),
      (∀ x ∈ l, x ∈ cands) → (∀ e ∈ st.2, P e) →
      ∀ e ∈ (l.foldl
        (fun st pKFi => DetectCommonRegionsFromBoW.candidate cfg G W C pKFi st) st).2,
        P e := by
    intro l
    induction l with
    | nil => intro st _ hst; simpa using hst
    | cons x xs ih =>
      intro st hl hst
      simp only [List.foldl_cons]
      exact ih _ (fun y hy => hl y (List.mem_cons_of_mem _ hy))
        (h x (hl x (List.mem_cons_self _ _)) st hst)
  exact key cands _ (fun _ hx => hx) (by simp)

theorem best_all_rejected (cfg : Config) (G : Geometry SE3 Sim3 Vec3) (W : World SE3 Sim3)
    (C : KeyFramePtr) (cands : List KeyFramePtr)
    (h : ∀ x ∈ cands, DetectCommonRegionsFromBoW.bAbortByNearKF W C x = true) :
    DetectCommonRegionsFromBoW.best cfg G W C cands = (⟨0, 0, 0, G.identity, [], []⟩, []) := by
  have key : ∀ (l : List KeyFramePtr) (st : BoWBest Sim3 × List (Event Sim3)),
      (∀ x ∈ l, DetectCommonRegionsFromBoW.bAbortByNearKF W C x = true) →
      l.foldl (fun st pKFi => DetectCommonRegionsFromBoW.candidate cfg G W C pKFi st) st =
        st := by
    intro l
    induction l with
    | nil => intro st _; rfl
    | cons x xs ih =>
      intro st hl
      simp only [List.foldl_cons]
      rw [candidate_rejected cfg G W C x st (hl x (List.mem_cons_self _ _))]
      exact ih st (fun y hy => hl y (List.mem_cons_of_mem _ hy))
  exact key cands _ h

/-- C19. Same-neighbourhood rejection. Let `K` be a BoW candidate such that `K` or one of its
10 best covisible KeyFrames is connected to the current KeyFrame `C`.  The body of the loop
over the candidates does nothing for `K`: no call (no BoW matching, no solver) and no change
of the selection.  In a whole call of `DetectCommonRegionsFromBoW`, whatever the list of
candidates, no `Sim3Solver` is built for `K`, `K` does not receive `SetNotErase`, and `K` is
in `pMatchedKF2` afterwards only if it was there before the call.  When every candidate is
rejected this way, the function makes no call, returns false and leaves its reference
arguments as they were. -/
theorem same_neighbourhood_rejection (cfg : Config) (G : Geometry SE3 Sim3 Vec3)
    (W : World SE3 Sim3) (C K : KeyFramePtr)
    (hnear : K ∈ W.GetConnectedKeyFrames C ∨
      ∃ k ∈ W.GetBestCovisibilityKeyFrames K 10, k ∈ W.GetConnectedKeyFrames C) :
    (∀ st, DetectCommonRegionsFromBoW.candidate cfg G W C K st = st) ∧
    (∀ (cands : List KeyFramePtr) (p1 p2 : KeyFramePtr) (S : Sim3) (n : Nat)
        (l1 l2 : List MapPointPtr),
      (∀ b, Event.Sim3Solver C K b ∉
        (DetectCommonRegionsFromBoW cfg G W C cands p1 p2 S n l1 l2).events) ∧
      Event.SetNotErase K ∉
        (DetectCommonRegionsFromBoW cfg G W C cands p1 p2 S n l1 l2).events ∧
      ((DetectCommonRegionsFromBoW cfg G W C cands p1 p2 S n l1 l2).pMatchedKF2 = K →
        p1 = K)) ∧
    (∀ (cands : List KeyFramePtr) (p1 p2 : KeyFramePtr) (S : Sim3) (n : Nat)
        (l1 l2 : List MapPointPtr),
      (∀ x ∈ cands, x ∈ W.GetConnectedKeyFrames C ∨
        ∃ k ∈ W.GetBestCovisibilityKeyFrames x 10, k ∈ W.GetConnectedKeyFrames C) →
      (DetectCommonRegionsFromBoW cfg G W C cands p1 p2 S n l1 l2).ret = false ∧
      (DetectCommonRegionsFromBoW cfg G W C cands p1 p2 S n l1 l2).events = [] ∧
      (DetectCommonRegionsFromBoW cfg G W C cands p1 p2 S n l1 l2).pMatchedKF2 = p1 ∧
      (DetectCommonRegionsFromBoW cfg G W C cands p1 p2 S n l1 l2).pLastCurrentKF = p2 ∧
      (DetectCommonRegionsFromBoW cfg G W C cands p1 p2 S n l1 l2).g2oScw = S ∧
      (DetectCommonRegionsFromBoW cfg G W C cands p1 p2 S n l1 l2).nNumCoincidences = n ∧
      (DetectCommonRegionsFromBoW cfg G W C cands p1 p2 S n l1 l2).vpMPs = l1 ∧
      (DetectCommonRegionsFromBoW cfg G W C cands p1 p2 S n l1 l2).vpMatchedMPs = l2) := by
  have ha := near_aborts W C K hnear
  have hnp : ¬DetectCommonRegionsFromBoW.passes cfg G W C K := fun h => by
    have := h.2.1
    rw [ha] at this
    exact Bool.noConfusion this
  refine ⟨fun st => candidate_rejected cfg G W C K st ha, ?_, ?_⟩
  · intro cands p1 p2 S n l1 l2
    have e1 : ∀ e ∈ (DetectCommonRegionsFromBoW.best cfg G W C cands).2,
        (∀ b, e ≠ Event.Sim3Solver C K b) ∧ ∀ k, e ≠ Event.SetNotErase k := by
      apply best_events cfg G W C
        (fun e => (∀ b, e ≠ Event.Sim3Solver C K b) ∧ ∀ k, e ≠ Event.SetNotErase k)
      intro x _ st hst
      by_cases hx : DetectCommonRegionsFromBoW.bAbortByNearKF W C x = true
      · rw [candidate_rejected cfg G W C x st hx]; exact hst
      · have hxK : x ≠ K := fun h => hx (h ▸ ha)
        apply candidate_events cfg G W C x st _ hst
        · intro k; exact ⟨fun b h => Event.noConfusion h, fun k h => Event.noConfusion h⟩
        · refine ⟨fun b h => ?_, fun k h => Event.noConfusion h⟩
          exact hxK (Event.Sim3Solver.inj h).2.1
        · intro k T; exact ⟨fun b h => Event.noConfusion h, fun k h => Event.noConfusion h⟩
        · exact ⟨fun b h => Event.noConfusion h, fun k h => Event.noConfusion h⟩
    have hsel := best_selection cfg G W C cands
    simp only [DetectCommonRegionsFromBoW]
    generalize DetectCommonRegionsFromBoW.best cfg G W C cands = b at e1 hsel ⊢
    have hbest : b.1.nBestMatchesReproj > 0 → b.1.pBestMatchedKF ≠ K := by
      intro hpos
      rcases hsel with ⟨_, hb0⟩ | ⟨pre, K2, post, _, hK2, _, _, h1, _⟩
      · rw [hb0] at hpos; simp at hpos
      · rw [h1]; intro h; exact hnp (h ▸ hK2)
    by_cases hpos : b.1.nBestMatchesReproj > 0
    · simp only [hpos, if_true, List.mem_append, List.mem_singleton, not_or]
      refine ⟨fun bb => ⟨fun h => (e1 _ h).1 bb rfl, fun h => Event.noConfusion h⟩,
        ⟨fun h => (e1 _ h).2 K rfl, fun h => hbest hpos (Event.SetNotErase.inj h).symm⟩,
        fun h => absurd h (hbest hpos)⟩
    · simp only [hpos, if_false]
      exact ⟨fun bb h => (e1 _ h).1 bb rfl, fun h => (e1 _ h).2 K rfl, fun h => h⟩
  · intro cands p1 p2 S n l1 l2 hall
    have hb := best_all_rejected cfg G W C cands
      (fun x hx => near_aborts W C x (hall x hx))
    simp only [DetectCommonRegionsFromBoW, hb]
    simp

/-- Witness of C19: in `nearWorld` the candidate 10 for KeyFrame 1 has the covisible
KeyFrame 31, which is connected to KeyFrame 1; the fresh search over `[10]` makes no call
and leaves the arguments as they were. -/
theorem same_neighbourhood_rejection_witness :
    (DetectCommonRegionsFromBoW plainStereo scaleLine nearWorld 1 [10] 7 8 2 1 [] []).ret =
      false ∧
    (DetectCommonRegionsFromBoW plainStereo scaleLine nearWorld 1 [10] 7 8 2 1 [] []).events =
      [] ∧
    (DetectCommonRegionsFromBoW plainStereo scaleLine nearWorld 1 [10] 7 8 2 1 [] []).pMatchedKF2
      = 7 :=
  have h := (same_neighbourhood_rejection plainStereo scaleLine nearWorld 1 10
    (Or.inr ⟨31, by decide, by decide⟩)).2.2 [10] 7 8 2 1 [] []
    (fun x hx => by
      rw [List.mem_singleton.mp hx]
      exact Or.inr ⟨31, by decide, by decide⟩)
  ⟨h.1, h.2.1, h.2.2.1⟩

theorem bow_scale_flags (cfg : Config) (G : Geometry SE3 Sim3 Vec3) (W : World SE3 Sim3)
    (C : KeyFramePtr) (cands : List KeyFramePtr) (p1 p2 : KeyFramePtr) (S : Sim3) (n : Nat)
    (l1 l2 : List MapPointPtr) :
    ∀ e ∈ (DetectCommonRegionsFromBoW cfg G W C cands p1 p2 S n l1 l2).events,
      (∀ a b f, e = Event.Sim3Solver a b f →
        f = DetectCommonRegionsFromBoW.bFixedScale cfg W C) ∧
      (∀ a b f, e = Event.OptimizeSim3 a b f → f = cfg.mbFixScale) := by
  have hb : ∀ e ∈ (DetectCommonRegionsFromBoW.best cfg G W C cands).2,
      (∀ a b f, e = Event.Sim3Solver a b f →
        f = DetectCommonRegionsFromBoW.bFixedScale cfg W C) ∧
      (∀ a b f, e = Event.OptimizeSim3 a b f → f = cfg.mbFixScale) := by
    apply best_events cfg G W C
      (fun e => (∀ a b f, e = Event.Sim3Solver a b f →
        f = DetectCommonRegionsFromBoW.bFixedScale cfg W C) ∧
        (∀ a b f, e = Event.OptimizeSim3 a b f → f = cfg.mbFixScale))
    intro x _ st hst
    apply candidate_events cfg G W C x st _ hst
    · intro k
      exact ⟨fun a b f h => Event.noConfusion h, fun a b f h => Event.noConfusion h⟩
    · exact ⟨fun a b f h => ((Event.Sim3Solver.inj h).2.2).symm,
        fun a b f h => Event.noConfusion h⟩
    · intro k T
      exact ⟨fun a b f h => Event.noConfusion h, fun a b f h => Event.noConfusion h⟩
    · exact ⟨fun a b f h => Event.noConfusion h,
        fun a b f h => ((Event.OptimizeSim3.inj h).2.2).symm⟩
  simp only [DetectCommonRegionsFromBoW]
  split_ifs
  · intro e he
    rcases List.mem_append.mp he with h | h
    · exact hb e h
    · rw [List.mem_singleton.mp h]
      exact ⟨fun a b f h => Event.noConfusion h, fun a b f h => Event.noConfusion h⟩
  · exact hb

/-- C20 (the code differs). A worker whose tracker reports `IMU_MONOCULAR`, with
`mbFixScale` set, takes KeyFrame 1 in a map that has not reached IMU stage 2; the fresh
search validates the candidate 10.  The scale-fixing policy gives false, and the
`Sim3Solver` is built with false, but `OptimizeSim3` (line 669) receives `mbFixScale`, which
is true. -/
theorem bow_optimisation_fixes_scale :
    DetectCommonRegionsFromBoW.bFixedScale monoInertialTracker beforeStage2World 1 = false ∧
    Event.Sim3Solver 1 10 false ∈ beforeStage2Detection.2.2 ∧
    Event.OptimizeSim3 1 10 true ∈ beforeStage2Detection.2.2 := by
  decide!

end RejectionTheorems

section LaterTheorems

variable {SE3 Sim3 Vec3 : Type}

theorem mergeDetected_commits (cfg : Config) (G : Geometry SE3 Sim3 Vec3) (W : World SE3 Sim3)
    (s : State Sim3) (himu : W.isImuInitialized (W.GetMap s.mpCurrentKF) = true)
    (hscale : ¬Run.badScale G (Run.mSold_new G W s)) :
    let r := Run.mergeDetected cfg G W s
    r.2.2 = false ∧ (∃ e ∈ r.2.1, e.isMerge = true) ∧ r.1.mbLoopDetected = false ∧
    (cfg.mbInertial = true ∧ isImuSensor cfg.mSensor = true ∧
        W.GetIniertialBA1 (W.GetMap s.mpCurrentKF) = true →
      r.1.mSold_new = G.yawOnly (Run.mSold_new G W s)) ∧
    (isImuSensor cfg.mSensor = true →
      Event.MergeLocal2 s.mnMergeNumCoincidences ∈ r.2.1) ∧
    (isImuSensor cfg.mSensor = false →
      Event.MergeLocal s.mnMergeNumCoincidences ∈ r.2.1) := by
  simp only [Run.mergeDetected, Run.afterMerge, Run.resetMerge, Run.resetLoop]
  split_ifs <;> simp_all [Event.isMerge]

theorem ResetIfRequested_mSold_new (W : World SE3 Sim3) (s : State Sim3) :
    (ResetIfRequested W s).mSold_new = s.mSold_new := by
  simp only [ResetIfRequested]
  split_ifs <;> rfl

/-- C21, amended. In inertial mode, when a pass of the worker takes a KeyFrame and the
detector reports a merge for it, the pass executes `MergeLocal` or `MergeLocal2` if and only
if the IMU of the map of the KeyFrame is initialised and the scale of `mSold_new` is within
[0.9, 1.1]: the rotation of `mSold_new` is not tested.  When the merge is executed it is
`MergeLocal2` with an IMU sensor and `MergeLocal` otherwise; with an IMU sensor and a map
past IMU stage 1, `mSold_new` is replaced beforehand by
`g2o::Sim3(ExpSO3(0, 0, yaw), t, 1.0)`, `yaw` being the third component of the logarithm of
its rotation and `t` its translation, so that it has scale 1 and a rotation with roll and
pitch 0 as soon as `g2o::Sim3` returns the scale and the rotation it was built from. -/
theorem merge_rotation_forced_to_yaw (cfg : Config) (G : Geometry SE3 Sim3 Vec3)
    (W : World SE3 Sim3) (s : State Sim3) (hin : cfg.mbInertial = true)
    (hq : CheckNewKeyFrames s = true)
    (hret : (NewDetectCommonRegions cfg G W s).1 = true)
    (hdet : (NewDetectCommonRegions cfg G W s).2.1.mbMergeDetected = true) :
    let d := (NewDetectCommonRegions cfg G W s).2.1
    let r := Run.iteration cfg G W s
    let yaw := (G.LogSO3 (Run.mSold_new G W d)).2.2
    let t := G.translation (Run.mSold_new G W d)
    ((∃ e ∈ r.2.1, e.isMerge = true) ↔
      W.isImuInitialized (W.GetMap d.mpCurrentKF) = true ∧
        ¬Run.badScale G (Run.mSold_new G W d)) ∧
    (W.isImuInitialized (W.GetMap d.mpCurrentKF) = true →
      ¬Run.badScale G (Run.mSold_new G W d) →
      (isImuSensor cfg.mSensor = true → Event.MergeLocal2 d.mnMergeNumCoincidences ∈ r.2.1) ∧
      (isImuSensor cfg.mSensor = false → Event.MergeLocal d.mnMergeNumCoincidences ∈ r.2.1) ∧
      (isImuSensor cfg.mSensor = true → W.GetIniertialBA1 (W.GetMap d.mpCurrentKF) = true →
        r.1.mSold_new = G.ofExpSO3 (0, 0, yaw) t 1 ∧
        (G.scale (G.ofExpSO3 (0, 0, yaw) t 1) = 1 → G.scale r.1.mSold_new = 1) ∧
        (G.LogSO3 (G.ofExpSO3 (0, 0, yaw) t 1) = (0, 0, yaw) →
          G.LogSO3 r.1.mSold_new = (0, 0, yaw)))) := by
  intro d r yaw t
  constructor
  · obtain ⟨n1, -⟩ := noMerge_of_noCommit _ (NewDetectCommonRegions_noCommit cfg G W s)
    obtain ⟨z1, -⟩ := noMerge_of_noCommit _ (@clearCand_noCommit Sim3 s.mpLastCurrentKF)
    obtain ⟨m1, -, m3, -⟩ := mergeDetected_spec cfg G W d
    obtain ⟨-, l2, -⟩ := loopDetected_spec cfg G W (Run.mergeDetected cfg G W d).1
    have l2' : ¬∃ e ∈ (Run.loopDetected cfg G W (Run.mergeDetected cfg G W d).1).2,
        e.isMerge = true := by
      rintro ⟨e, he, hq⟩; rw [l2 e he] at hq; cases hq
    have hiff : (∃ e ∈ (Run.mergeDetected cfg G W d).2.1, e.isMerge = true) ↔
        W.isImuInitialized (W.GetMap d.mpCurrentKF) = true ∧
          ¬Run.badScale G (Run.mSold_new G W d) := by
      rw [m1]
      simp only [hin, true_and, Bool.not_eq_false]
    simp only [r, Run.iteration, hq, if_true, Run.process, hret, hdet]
    by_cases hc : (Run.mergeDetected cfg G W d).2.2 = true
    · simp only [d] at hc
      simp only [hc, if_true, exists_mem_append_iff, n1, z1, false_or]
      exact hiff
    · have hl := m3 (by simpa using hc)
      simp only [d] at hc hl
      simp only [hc, hl, Bool.false_eq_true, if_false, exists_mem_append_iff, n1, z1,
        false_or, List.not_mem_nil, false_and, exists_false, or_false]
      exact hiff
  · intro himu hscale
    obtain ⟨m1, -, m3, m4, m5, m6⟩ := mergeDetected_commits cfg G W d himu hscale
    simp only [r, Run.iteration, hq, if_true, Run.process, hret, hdet]
    simp only [d] at m1 m3 m4 m5 m6
    simp only [m1, m3, Bool.false_eq_true, if_false, ResetIfRequested_mSold_new,
      List.append_nil]
    refine ⟨fun h => List.mem_append_right _ (m5 h), fun h => List.mem_append_right _ (m6 h),
      fun h1 h2 => ?_⟩
    have he := m4 ⟨hin, h1, h2⟩
    refine ⟨he, fun h => ?_, fun h => ?_⟩
    · rw [he]; exact h
    · rw [he]; exact h

/-- C21, counterexample. The second pass of the inertial stereo worker with the
similarities of `rotatedLine`, in a world where the merge candidate 21 verifies with scale 1
and a roll of 1/2 rad: the detector reports a merge for KeyFrame 2, the map is past IMU
stage 1, `mSold_new` has the rotation vector `(-1/2, 0, -1/10)`, whose roll is above 0.008
rad, and the pass executes `MergeLocal2`; no merge variable was cleared by an abort, the
third coincidence being handed to `MergeLocal2`. -/
theorem merge_runs_with_large_roll :
    rolledDetection.2.1.mbMergeDetected = true ∧
    rolledWorld.GetIniertialBA1 (rolledWorld.GetMap rolledDetection.2.1.mpCurrentKF) = true ∧
    rotatedLine.LogSO3 (Run.mSold_new rotatedLine rolledWorld rolledDetection.2.1) =
      (-1 / 2, 0, -1 / 10) ∧
    |(rotatedLine.LogSO3 (Run.mSold_new rotatedLine rolledWorld rolledDetection.2.1)).1| >
      8 / 1000 ∧
    Event.MergeLocal2 3 ∈ rolledPass.2.1 := by
  decide!

/-- Witness of C21 as amended: the pass of the counterexample.  The IMU of the map is
initialised and the scale of `mSold_new` is 1, so `MergeLocal2` runs; `mSold_new` ends with
scale 1 and the rotation vector `(0, 0, -1/10)`.  The same pass in a world where the IMU of
the map is not initialised executes no merge. -/
theorem merge_rotation_forced_to_yaw_witness :
    (∃ e ∈ (Run.iteration inertialStereo rotatedLine rolledWorld rolledSecondPass).2.1,
      e.isMerge = true) ∧
    Event.MergeLocal2
        (NewDetectCommonRegions inertialStereo rotatedLine rolledWorld
          rolledSecondPass).2.1.mnMergeNumCoincidences ∈
      (Run.iteration inertialStereo rotatedLine rolledWorld rolledSecondPass).2.1 ∧
    (Run.iteration inertialStereo rotatedLine rolledWorld rolledSecondPass).1.mSold_new =
      (1, 0, 0, -1 / 10) ∧
    rotatedLine.scale
      (Run.iteration inertialStereo rotatedLine rolledWorld rolledSecondPass).1.mSold_new =
        1 ∧
    rotatedLine.LogSO3
      (Run.iteration inertialStereo rotatedLine rolledWorld rolledSecondPass).1.mSold_new =
        (0, 0, -1 / 10) ∧
    ¬∃ e ∈ (Run.iteration inertialStereo rotatedLine rolledWorldNoImu rolledSecondPass).2.1,
      e.isMerge = true :=
  have h := merge_rotation_forced_to_yaw inertialStereo rotatedLine rolledWorld
    rolledSecondPass (by decide!) (by decide!) (by decide!) (by decide!)
  have h2 := (h.2 (by decide!) (by decide!)).2.2 (by decide!) (by decide!)
  have h3 := merge_rotation_forced_to_yaw inertialStereo rotatedLine rolledWorldNoImu
    rolledSecondPass (by decide!) (by decide!) (by decide!) (by decide!)
  ⟨h.1.mpr ⟨by decide!, by decide!⟩, (h.2 (by decide!) (by decide!)).1 (by decide!),
    h2.1.trans (by decide!), h2.2.1 (by decide!), (h2.2.2 (by decide!)).trans (by decide!),
    fun he => absurd (h3.1.mp he).1 (by decide!)⟩

theorem correctPoints_noop (G : Geometry SE3 Sim3 Vec3) (W : World SE3 Sim3)
    (C K : KeyFramePtr) (Swi Siw : Sim3) (E : Entities SE3 Vec3) (l : List MapPointPtr)
    (h : ∀ q ∈ l, q = 0 ∨ W.isBadMP q = true ∨
      (E.mapPoint q).mnCorrectedByKF = W.mnId C) :
    l.foldl (CorrectLoop.correctMapPoint G W C K Swi Siw) E = E := by
  induction l with
  | nil => rfl
  | cons q qs ih =>
    have hq : CorrectLoop.correctMapPoint G W C K Swi Siw E q = E := by
      simp only [CorrectLoop.correctMapPoint]
      rcases h q (List.mem_cons_self _ _) with h0 | hb | hs
      · simp [h0]
      · simp [hb]
      · simp [hs]
    simp only [List.foldl_cons, hq]
    exact ih (fun x hx => h x (List.mem_cons_of_mem _ hx))

theorem correctKeyFrames_noop (G : Geometry SE3 Sim3 Vec3) (W : World SE3 Sim3)
    (C : KeyFramePtr) (NC : KeyFrameAndPose Sim3) (E : Entities SE3 Vec3)
    (cs : KeyFrameAndPose Sim3)
    (h : ∀ e ∈ cs, ∀ q ∈ W.GetMapPointMatches e.1, q = 0 ∨ W.isBadMP q = true ∨
      (E.mapPoint q).mnCorrectedByKF = W.mnId C) :
    cs.foldl (CorrectLoop.correctKeyFrame G W C NC) E = E := by
  induction cs with
  | nil => rfl
  | cons e es ih =>
    have he : CorrectLoop.correctKeyFrame G W C NC E e = E :=
      correctPoints_noop G W C e.1 _ _ E _ (h e (List.mem_cons_self _ _))
    simp only [List.foldl_cons, he]
    exact ih (fun x hx => h x (List.mem_cons_of_mem _ hx))

theorem propagate_stamps (G : Geometry SE3 Sim3 Vec3) (W : World SE3 Sim3)
    (C : KeyFramePtr) (S : Sim3) (E : Entities SE3 Vec3) (p : MapPointPtr) (hp : p ≠ 0)
    (hbad : W.isBadMP p = false)
    (hobs : ∃ K0 ∈ W.GetVectorCovisibleKeyFrames C ++ [C], p ∈ W.GetMapPointMatches K0) :
    ((CorrectLoop.propagate G W C S E).entities.mapPoint p).mnCorrectedByKF = W.mnId C := by
  obtain ⟨-, -, -, i4, i5⟩ := propagatePoses_spec G W C S E
  obtain ⟨K0, hK0, hK0p⟩ := hobs
  simp only [CorrectLoop.propagate, CorrectLoop.correctMapPoints]
  generalize CorrectLoop.propagatePoses G W C S E = P at i4 i5 ⊢
  by_cases hst : (P.entities.mapPoint p).mnCorrectedByKF = W.mnId C
  · rw [correctKeyFrames_stamped G W C P.NonCorrectedSim3 p P.CorrectedSim3 P.entities hst]
    exact hst
  · rcases correctKeyFrames_fresh G W C P.NonCorrectedSim3 p hp hbad P.CorrectedSim3
        P.entities hst with ⟨g1, -⟩ | ⟨e, -, -, g2⟩
    · exfalso
      obtain ⟨e, he, hek⟩ := List.mem_map.mp ((i5 K0).mpr hK0)
      exact g1 e he (by rw [hek]; exact hK0p)
    · rw [g2]

/-- C22. Idempotence of the MapPoint correction. When lines 864-963 of `CorrectLoop` are run
a second time with the same current KeyFrame `C` (whatever the loop similarity of the
second run), the second run changes the fields of no MapPoint, neither position nor stamps:
every MapPoint it visits is null, bad, or already stamped with the `mnId` of `C`. -/
theorem map_point_correction_idempotent (G : Geometry SE3 Sim3 Vec3) (W : World SE3 Sim3)
    (C : KeyFramePtr) (S1 S2 : Sim3) (E : Entities SE3 Vec3) :
    ∀ p : MapPointPtr,
      (CorrectLoop.propagate G W C S2
          (CorrectLoop.propagate G W C S1 E).entities).entities.mapPoint p =
        (CorrectLoop.propagate G W C S1 E).entities.mapPoint p := by
  intro p
  have hst := propagate_stamps G W C S1 E
  generalize (CorrectLoop.propagate G W C S1 E).entities = E1 at hst ⊢
  obtain ⟨-, -, -, i4, i5⟩ := propagatePoses_spec G W C S2 E1
  simp only [CorrectLoop.propagate, CorrectLoop.correctMapPoints]
  generalize CorrectLoop.propagatePoses G W C S2 E1 = P at i4 i5 ⊢
  rw [correctKeyFrames_noop G W C P.NonCorrectedSim3 P.entities P.CorrectedSim3, i4]
  intro e he q hq
  by_cases h0 : q = 0
  · exact Or.inl h0
  · by_cases hb : W.isBadMP q = true
    · exact Or.inr (Or.inl hb)
    · right; right
      rw [i4]
      exact hst q h0 (by simpa using hb)
        ⟨e.1, (i5 e.1).mp (List.mem_map.mpr ⟨e, he, rfl⟩), hq⟩

/-- C25 (the code differs). Two runs of `RunGlobalBundleAdjustment` that leave through the
early returns of lines 1991 and 1993. In `imuInitSchedule` the IMU of the map is
initialised during the optimisation; in `abortedSchedule` the counter is bumped by
`MergeLocal2` between line 1983 and the commit block.  In both the run has returned without
updating the map, no other run exists, and `mbRunningGBA` is still true and `mbFinishedGBA`
still false, so that `isRunningGBA()` reports true. -/
theorem early_return_keeps_running_flag :
    (GBASystem.run imuInitSchedule GBASystem.initial).runs = [GBARun.returned false] ∧
    isRunningGBA (GBASystem.run imuInitSchedule GBASystem.initial).flags = true ∧
    (GBASystem.run imuInitSchedule GBASystem.initial).flags.mbFinishedGBA = false ∧
    (GBASystem.run abortedSchedule GBASystem.initial).runs = [GBARun.returned false] ∧
    isRunningGBA (GBASystem.run abortedSchedule GBASystem.initial).flags = true ∧
    (GBASystem.run abortedSchedule GBASystem.initial).flags.mbFinishedGBA = false := by
  decide

/-- C29 (the code differs). The third pass of the inertial worker in the run
`staleFlagTicks`: `mbLoopDetected` is true when the pass starts, left by the second pass,
which ended through the bad-scale abort of the merge.  For KeyFrame 3 the step of the Loop
track fails and the BoW database proposes no candidate, yet the pass calls
`CorrectLoop`. -/
theorem correct_loop_from_stale_flag :
    thirdPass.mbLoopDetected = true ∧
    (NewDetectCommonRegions.loopTrack inertialStereo scaleLine exampleWorld
      (NewDetectCommonRegions.dequeue exampleWorld 3 [] thirdPass)).1 = false ∧
    exampleWorld.DetectNBestCandidates 3 = ([], []) ∧
    ∃ e ∈ (Run.iteration inertialStereo scaleLine exampleWorld thirdPass).2.1,
      e.isCorrectLoop = true := by
  decide!

theorem noPin_of_inactive (cfg : Config) (G : Geometry SE3 Sim3 Vec3) (W : World SE3 Sim3)
    (s : State Sim3) (hact : cfg.mbActiveLC = false) :
    NewDetectCommonRegions cfg G W s = (false, s, []) := by
  simp [NewDetectCommonRegions, hact]

/-- C30, amended. When place recognition is deactivated, `NewDetectCommonRegions` returns
false, makes no call and leaves every member as it was: the queue, `mpCurrentKF` and the
detection state of both tracks.  A pass of the worker then makes no call `SetNotErase` or
`SetErase`, leaves the detection state of both tracks as it was, and leaves the queue as it
was unless a reset is requested, in which case `ResetIfRequested` removes KeyFrames from
it. -/
theorem inactive_detector_is_frame (cfg : Config) (G : Geometry SE3 Sim3 Vec3)
    (W : World SE3 Sim3) (s : State Sim3) (hact : cfg.mbActiveLC = false) :
    NewDetectCommonRegions cfg G W s = (false, s, []) ∧
    (∀ pKF, Event.SetNotErase pKF ∉ (Run.iteration cfg G W s).2.1 ∧
      Event.SetErase pKF ∉ (Run.iteration cfg G W s).2.1) ∧
    (∀ k : Track, (Run.iteration cfg G W s).1.track k = s.track k) ∧
    (Run.iteration cfg G W s).1.mpCurrentKF = s.mpCurrentKF ∧
    (s.mbResetRequested = false → s.mbResetActiveMapRequested = false →
      (Run.iteration cfg G W s).1.mlpLoopKeyFrameQueue = s.mlpLoopKeyFrameQueue) := by
  have hn := noPin_of_inactive cfg G W s hact
  have hp : Run.process cfg G W s =
      ({ s with mpLastCurrentKF := s.mpCurrentKF },
        (if s.mpLastCurrentKF ≠ 0 then [Event.ClearCandKFs s.mpLastCurrentKF] else []) ++ [],
        false) := by
    simp only [Run.process, hn, Bool.false_eq_true, if_false]
  refine ⟨hn, ?_, ?_, ?_, ?_⟩
  · intro pKF
    simp only [Run.iteration, hp]
    split_ifs <;> simp
  · intro k
    simp only [Run.iteration, hp]
    split_ifs <;> simp only [ResetIfRequested_track] <;> cases k <;> rfl
  · simp only [Run.iteration, hp, ResetIfRequested]
    split_ifs <;> rfl
  · intro h1 h2
    simp only [Run.iteration, hp, ResetIfRequested]
    split_ifs <;> simp_all

/-- C30, counterexample. A worker with place recognition deactivated holds KeyFrame 5 in
its queue and a reset is requested: the pass empties the queue. -/
theorem inactive_pass_shortens_queue :
    inactiveStereo.mbActiveLC = false ∧
    resetRequested.mlpLoopKeyFrameQueue = [5] ∧
    (Run.iteration inactiveStereo scaleLine exampleWorld
      resetRequested).1.mlpLoopKeyFrameQueue = [] := by
  decide!

/-- Witness of C30 as amended: `queuedState`, with no reset requested, in a worker with place
recognition deactivated; KeyFrame 5 stays in the queue. -/
theorem inactive_detector_is_frame_witness :
    NewDetectCommonRegions inactiveStereo scaleLine exampleWorld queuedState =
      (false, queuedState, []) ∧
    (Run.iteration inactiveStereo scaleLine exampleWorld
      queuedState).1.mlpLoopKeyFrameQueue = [5] :=
  have h := inactive_detector_is_frame inactiveStereo scaleLine exampleWorld queuedState
    (by decide)
  ⟨h.1, h.2.2.2.2 (by decide) (by decide)⟩

end LaterTheorems

section LaunchTheorems

/-- C26, amended. `CorrectLoop` launches `RunGlobalBundleAdjustment`, on the map of the
loop, exactly when that map is not IMU-initialised, or has fewer than 200 KeyFrames while
the Atlas holds a single map.  `MergeLocal` launches it only on the merge map and only if it
stopped a running Global Bundle Adjustment at its start; when the predicate has the same
value on the old current map and on the merge map, as it has when neither is
IMU-initialised, `MergeLocal` launches exactly when it stopped a running Global Bundle
Adjustment at its start and the predicate holds of the merge map. -/
theorem launch_gating (M : MapStatus) (pLoopMap pCurrentMap pMergeMap : MapPtr)
    (g0 g : GBAState) (hsame : launchGate M pCurrentMap ↔ launchGate M pMergeMap) :
    ((CorrectLoop.launch M pLoopMap g).2 = some pLoopMap ↔ launchGate M pLoopMap) ∧
    ((CorrectLoop.launch M pLoopMap g).2 = none ↔ ¬launchGate M pLoopMap) ∧
    ((MergeLocal.launch M (MergeLocal.abort g0).2 pCurrentMap pMergeMap g).2 = some pMergeMap ↔
      isRunningGBA g0 = true ∧ launchGate M pMergeMap) ∧
    ((MergeLocal.launch M (MergeLocal.abort g0).2 pCurrentMap pMergeMap g).2 = none ↔
      ¬(isRunningGBA g0 = true ∧ launchGate M pMergeMap)) ∧
    (∀ P, (MergeLocal.launch M (MergeLocal.abort g0).2 pCurrentMap pMergeMap g).2 = some P →
      P = pMergeMap ∧ isRunningGBA g0 = true) ∧
    (M.isImuInitialized pCurrentMap = false → M.isImuInitialized pMergeMap = false →
      ((MergeLocal.launch M (MergeLocal.abort g0).2 pCurrentMap pMergeMap g).2 =
        some pMergeMap ↔ isRunningGBA g0 = true)) := by
  rw [← hsame]
  simp only [CorrectLoop.launch, MergeLocal.launch, MergeLocal.abort, launchGate]
  refine ⟨?_, ?_, ?_, ?_, ?_, ?_⟩
  · split_ifs with h <;> simp [h]
  · split_ifs with h <;> simp [h]
  · by_cases hr : isRunningGBA g0 = true
    · simp only [hr, if_true, true_and]
      split_ifs with h <;> simp [h]
    · simp [hr]
  · by_cases hr : isRunningGBA g0 = true
    · simp only [hr, if_true, true_and]
      split_ifs with h <;> simp [h]
    · simp [hr]
  · intro P
    by_cases hr : isRunningGBA g0 = true
    · simp only [hr, if_true, true_and]
      split_ifs with h
      · intro hP; exact ⟨(Option.some.inj hP).symm, trivial⟩
      · intro hP; cases hP
    · simp [hr]
  · intro h1 h2
    by_cases hr : isRunningGBA g0 = true
    · simp [hr, h1]
    · simp [hr]

/-- Witness of C26 as amended: a system without IMU at the end of a merge of the map 1
into the map 2; the predicate holds of both maps, a Global Bundle Adjustment was running
when `MergeLocal` started, and `MergeLocal` launches a new one on the map 2. -/
theorem launch_gating_witness :
    (MergeLocal.launch visualStatus (MergeLocal.abort runningGBA).2 1 2
      (MergeLocal.abort runningGBA).1).2 = some 2 :=
  (launch_gating visualStatus 2 1 2 runningGBA (MergeLocal.abort runningGBA).1
    (by decide)).2.2.1.mpr (by decide)

/-- C26, counterexample. A system without IMU at the end of a merge of the map 1 into the
map 2, the merge map, which holds 330 KeyFrames; no map is IMU-initialised, so the
predicate of the launch holds of the map 2, and of the map 1, and `CorrectLoop` would launch
on the map 2.  No Global Bundle Adjustment was running when `MergeLocal` started, and
`MergeLocal` launches nothing. -/
theorem merge_launch_differs :
    launchGate visualStatus 2 ∧ launchGate visualStatus 1 ∧
    (CorrectLoop.launch visualStatus 2 GBAState.initial).2 = some 2 ∧
    isRunningGBA GBAState.initial = false ∧
    (MergeLocal.launch visualStatus (MergeLocal.abort GBAState.initial).2 1 2
      (MergeLocal.abort GBAState.initial).1).2 = none := by
  decide

theorem erase_all (l : List KeyFramePtr) :
    ∀ s : Finset KeyFramePtr, l.foldl (fun s k => s.erase k) s = s \ l.toFinset := by
  induction l with
  | nil => intro s; simp
  | cons x xs ih =>
    intro s
    simp only [List.foldl_cons, ih, List.toFinset_cons]
    ext y
    simp only [Finset.mem_sdiff, Finset.mem_erase, Finset.mem_insert, List.mem_toFinset]
    tauto

theorem newLinks_eq (before : List KeyFramePtr) (after : Finset KeyFramePtr)
    (Ω : List KeyFramePtr) :
    CorrectLoop.newLinks before after Ω = after \ (before.toFinset ∪ Ω.toFinset) := by
  simp only [CorrectLoop.newLinks, erase_all]
  ext y
  simp only [Finset.mem_sdiff, Finset.mem_union, List.mem_toFinset]
  tauto

theorem loopConnections_fold (before : KeyFramePtr → List KeyFramePtr)
    (after : KeyFramePtr → Finset KeyFramePtr) (Ω : List KeyFramePtr) (l : List KeyFramePtr) :
    ∀ LC : KeyFramePtr → Option (Finset KeyFramePtr), ∀ K,
      (l.foldl (fun LC pKFi => Function.update LC pKFi
        (some (CorrectLoop.newLinks (before pKFi) (after pKFi) Ω))) LC) K =
        if K ∈ l then some (CorrectLoop.newLinks (before K) (after K) Ω) else LC K := by
  induction l with
  | nil => intro LC K; simp
  | cons x xs ih =>
    intro LC K
    simp only [List.foldl_cons, ih, List.mem_cons]
    by_cases hK : K ∈ xs
    · simp [hK]
    · by_cases hx : K = x
      · subst hx; simp [hK]
      · simp [hK, hx, Function.update]

/-- C27. New loop edges in `CorrectLoop`. With `Ω` the vector `mvpCurrentConnectedKFs`, the
covisible KeyFrames of the current KeyFrame and the current KeyFrame itself: for every `K`
of `Ω`, `LoopConnections[K]` is the set of the KeyFrames connected to `K` after its
`UpdateConnections`, minus the neighbours `K` had just before and minus `Ω`; it is
disjoint from `Ω` and from the previous neighbours.  A KeyFrame outside `Ω` has no entry. -/
theorem new_loop_edges (GetVectorCovisibleKeyFrames : KeyFramePtr → List KeyFramePtr)
    (GetConnectedKeyFrames : KeyFramePtr → Finset KeyFramePtr) (Ω : List KeyFramePtr)
    (K : KeyFramePtr) :
    (K ∈ Ω →
      CorrectLoop.LoopConnections GetVectorCovisibleKeyFrames GetConnectedKeyFrames Ω K =
        some (GetConnectedKeyFrames K \
          ((GetVectorCovisibleKeyFrames K).toFinset ∪ Ω.toFinset)) ∧
      Disjoint (GetConnectedKeyFrames K \
        ((GetVectorCovisibleKeyFrames K).toFinset ∪ Ω.toFinset)) Ω.toFinset ∧
      Disjoint (GetConnectedKeyFrames K \
        ((GetVectorCovisibleKeyFrames K).toFinset ∪ Ω.toFinset))
        (GetVectorCovisibleKeyFrames K).toFinset) ∧
    (K ∉ Ω →
      CorrectLoop.LoopConnections GetVectorCovisibleKeyFrames GetConnectedKeyFrames Ω K =
        none) := by
  have h := loopConnections_fold GetVectorCovisibleKeyFrames GetConnectedKeyFrames Ω Ω
    (fun _ => none) K
  simp only [CorrectLoop.LoopConnections]
  constructor
  · intro hK
    rw [h, if_pos hK, newLinks_eq]
    refine ⟨rfl, ?_, ?_⟩
    · rw [Finset.disjoint_left]
      intro y hy hy2
      simp only [Finset.mem_sdiff, Finset.mem_union] at hy
      exact hy.2 (Or.inr hy2)
    · rw [Finset.disjoint_left]
      intro y hy hy2
      simp only [Finset.mem_sdiff, Finset.mem_union] at hy
      exact hy.2 (Or.inl hy2)
  · intro hK
    rw [h, if_neg hK]

/-- Witness of C27: the neighbourhood `[4, 6, 5]` of KeyFrame 5; the new link of KeyFrame 4
is KeyFrame 12. -/
theorem new_loop_edges_witness :
    CorrectLoop.LoopConnections connectionsBefore connectionsAfter [4, 6, 5] 4 =
      some {12} :=
  ((new_loop_edges connectionsBefore connectionsAfter [4, 6, 5] 4).1 (by decide)).1.trans
    (by decide)

end LaunchTheorems

section WalkTheorems

theorem forwardWalk_spins (T : TemporalChain) (C : KeyFramePtr) (h : T.mNextKF C ≠ 0)
    (fuel : Nat) :
    ∀ acc : Finset KeyFramePtr × Finset MapPointPtr,
      MergeLocal.forwardWalk T C fuel (T.mNextKF C) acc = Walk.outOfFuel := by
  induction fuel with
  | zero => intro acc; rfl
  | succ n ih =>
    rintro ⟨a, b⟩
    simp only [MergeLocal.forwardWalk, h, ne_eq, not_false_eq_true, if_true]
    exact ih _

theorem localWindowWalk_spins (T : TemporalChain) (C : KeyFramePtr) (h : T.mNextKF C ≠ 0)
    (fuel : Nat) (r : Finset KeyFramePtr × Finset MapPointPtr) :
    MergeLocal.localWindowWalk T C fuel ≠ Walk.done r := by
  simp only [MergeLocal.localWindowWalk]
  split
  · rw [forwardWalk_spins T C h]; exact fun hh => Walk.noConfusion hh
  · exact fun hh => Walk.noConfusion hh
  · exact fun hh => Walk.noConfusion hh

theorem mergeBackwardWalk_count (T : TemporalChain) (C : KeyFramePtr) (fuel : Nat) :
    ∀ (p : KeyFramePtr) (n : Nat) (s : Finset KeyFramePtr) (r : Finset KeyFramePtr × Nat),
      n ≤ 12 → MergeLocal.mergeBackwardWalk T C fuel p n s = Walk.done r → r.2 ≤ 12 := by
  induction fuel with
  | zero => intro p n s r _ h; exact Walk.noConfusion h
  | succ k ih =>
    intro p n s r hn h
    simp only [MergeLocal.mergeBackwardWalk, MergeLocal.numTemporalKFs] at h
    split_ifs at h with hc
    · exact ih _ _ _ r (by omega) h
    · cases h; exact hn

theorem mergeForwardWalk_spins (T : TemporalChain) (C : KeyFramePtr) (n : Nat)
    (h : T.mNextKF C ≠ 0) (hn : n < 25) (fuel : Nat) :
    ∀ (p : KeyFramePtr) (s : Finset KeyFramePtr), p ≠ 0 →
      MergeLocal.mergeForwardWalk T C n fuel p s = Walk.outOfFuel := by
  induction fuel with
  | zero => intro p s _; rfl
  | succ k ih =>
    intro p s hp
    simp only [MergeLocal.mergeForwardWalk, MergeLocal.numTemporalKFs, hp, hn, ne_eq,
      not_false_eq_true, and_self, if_true]
    exact ih _ _ h

theorem mergeWindowWalk_spins (T : TemporalChain) (C M : KeyFramePtr)
    (hC : T.mNextKF C ≠ 0) (hM : T.mNextKF M ≠ 0) (fuel : Nat) (r : Finset KeyFramePtr) :
    MergeLocal.mergeWindowWalk T C M fuel ≠ Walk.done r := by
  simp only [MergeLocal.mergeWindowWalk]
  split
  · rename_i r0 h0
    have hn := mergeBackwardWalk_count T C fuel M 0 ∅ r0 (by omega) h0
    rw [mergeForwardWalk_spins T C r0.2 hC (by omega) fuel _ _ hM]
    exact fun hh => Walk.noConfusion hh
  · exact fun hh => Walk.noConfusion hh
  · exact fun hh => Walk.noConfusion hh

/-- C28 (the code differs). The temporal walks of `MergeLocal` on the chain of the four
KeyFrames 3, 4, 5, 6.  From the newest KeyFrame 6 the walk of the local window ends after 25
iterations with the KeyFrames 6 and 5 only: the predecessors 4 and 3 are not inserted.  From
the oldest KeyFrame 3, which has no predecessor, the walk calls `GetMapPoints` through a
null pointer.  From KeyFrame 5, which has a successor, the walk of the local window does not
end, whatever the number of iterations allowed.  The walk of the merge window from the
matched KeyFrame 4, with the current KeyFrame 6, inserts 4 and 5, the predecessor of the
current KeyFrame, and not 3, the predecessor of the matched one; with the current
KeyFrame 5 it does not end either. -/
theorem temporal_walk_rereads_neighbour :
    MergeLocal.localWindowWalk fourKeyFrames 6 26 = Walk.done ({5, 6}, {50}) ∧
    MergeLocal.localWindowWalk fourKeyFrames 3 26 = Walk.nullDereference ∧
    (∀ (fuel : Nat) (r : Finset KeyFramePtr × Finset MapPointPtr),
      MergeLocal.localWindowWalk fourKeyFrames 5 fuel ≠ Walk.done r) ∧
    MergeLocal.mergeWindowWalk fourKeyFrames 6 4 26 = Walk.done {5, 4} ∧
    ∀ (fuel : Nat) (r : Finset KeyFramePtr),
      MergeLocal.mergeWindowWalk fourKeyFrames 5 4 fuel ≠ Walk.done r := by
  refine ⟨by decide!, by decide!, fun fuel r => ?_, by decide!, fun fuel r => ?_⟩
  · exact localWindowWalk_spins fourKeyFrames 5 (by decide) fuel r
  · exact mergeWindowWalk_spins fourKeyFrames 5 4 (by decide) (by decide) fuel r

end WalkTheorems

section TreeTheorems

theorem consistentBut_zero (t : SpanningTree) (q : KeyFramePtr) (h : SpanningTree.consistentBut t 0 q) :
    t.consistent := by
  intro a b
  rw [h a b]
  constructor
  · rintro ⟨ha, hb, h1 | ⟨h2, -⟩⟩
    · exact ⟨ha, hb, h1⟩
    · exact absurd h2 ha
  · rintro ⟨ha, hb, h1⟩
    exact ⟨ha, hb, Or.inl h1⟩

theorem eraseChild_consistent (t : SpanningTree) (c q : KeyFramePtr)
    (h : SpanningTree.consistentBut t c q) (hq : t.mpParent q ≠ c) :
    (KeyFrame.EraseChild t c q).consistent := by
  intro a b
  simp only [KeyFrame.EraseChild, Function.update_apply]
  by_cases hac : a = c
  · subst hac
    simp only [if_true, Finset.mem_erase, h a b]
    constructor
    · rintro ⟨hbq, ha, hb, h1 | ⟨-, h2⟩⟩
      · exact ⟨ha, hb, h1⟩
      · exact absurd h2 hbq
    · rintro ⟨ha, hb, h1⟩
      refine ⟨?_, ha, hb, Or.inl h1⟩
      intro hbq
      rw [hbq] at h1
      exact hq h1
  · simp only [hac, if_false, h a b, false_and, or_false]

theorem changeParent_consistentBut (t : SpanningTree) (c q : KeyFramePtr)
    (h : t.consistent) (hc : c ≠ 0) (hq : q ≠ 0) :
    SpanningTree.consistentBut (KeyFrame.ChangeParent t c q) (t.mpParent c) c := by
  intro a b
  simp only [KeyFrame.ChangeParent, KeyFrame.AddChild, Function.update_apply]
  by_cases hbc : b = c
  · subst hbc
    by_cases haq : a = q
    · subst haq
      simp [hc, hq]
    · simp only [haq, if_false, if_true, h a b, and_true]
      constructor
      · rintro ⟨ha, hb, h1⟩
        exact ⟨ha, hb, Or.inr h1.symm⟩
      · rintro ⟨ha, hb, h1 | h2⟩
        · exact absurd h1.symm haq
        · exact ⟨ha, hb, h2.symm⟩
  · by_cases haq : a = q
    · subst haq
      simp only [if_true, Finset.mem_insert, hbc, false_or, if_false, h a b, and_false,
        or_false]
    · simp only [haq, if_false, hbc, h a b, and_false, or_false]

theorem rewire_spec :
    ∀ (L : List KeyFramePtr) (t : SpanningTree) (q : KeyFramePtr) (fuel : Nat),
      (∀ p ∈ L.zip (L.tail ++ [0]), t.mpParent p.1 = p.2) →
      (∀ x ∈ L, x ≠ 0) → (q :: L).Nodup → q ≠ 0 → t.mpParent q ∉ L →
      SpanningTree.consistentBut t (L.headD 0) q → L.length < fuel →
      ∃ t2, MergeLocal.rewire fuel t (L.headD 0) q = some (t2, L.length) ∧
        t2.consistent ∧ (∀ x, x ∉ L → t2.mpParent x = t.mpParent x) ∧
        ∀ p ∈ (q :: L).zip L, t2.mpParent p.2 = p.1 := by
  intro L
  induction L with
  | nil =>
    intro t q fuel _ _ _ _ _ hc hf
    obtain ⟨k, rfl⟩ : ∃ k, fuel = k + 1 := ⟨fuel - 1, by simp at hf; omega⟩
    refine ⟨t, ?_, consistentBut_zero t q hc, fun _ _ => rfl, by simp⟩
    simp [MergeLocal.rewire]
  | cons c rest ih =>
    intro t q fuel hchain hnz hnd hq0 hpq hc hf
    obtain ⟨k, rfl⟩ : ∃ k, fuel = k + 1 := ⟨fuel - 1, by simp at hf; omega⟩
    have hc0 : c ≠ 0 := hnz c (List.mem_cons_self _ _)
    have hqc : q ≠ c := fun h => by
      rw [h] at hnd
      exact (List.nodup_cons.mp hnd).1 (List.mem_cons_self _ _)
    have hqrest : q ∉ rest := fun h =>
      (List.nodup_cons.mp hnd).1 (List.mem_cons_of_mem _ h)
    have hnd2 : (c :: rest).Nodup := (List.nodup_cons.mp hnd).2
    have hcrest : c ∉ rest := (List.nodup_cons.mp hnd2).1
    have hpc : t.mpParent c = rest.headD 0 := by
      cases rest with
      | nil => exact hchain (c, 0) (by simp)
      | cons r rs => exact hchain (c, r) (by simp)
    have hc1 : (KeyFrame.EraseChild t c q).consistent :=
      eraseChild_consistent t c q hc (fun h => hpq (h ▸ List.mem_cons_self _ _))
    have hc2 := changeParent_consistentBut (KeyFrame.EraseChild t c q) c q hc1 hc0 hq0
    have hpar : ∀ x, x ≠ c →
        (KeyFrame.ChangeParent (KeyFrame.EraseChild t c q) c q).mpParent x = t.mpParent x := by
      intro x hx
      simp [KeyFrame.ChangeParent, KeyFrame.AddChild, KeyFrame.EraseChild, Function.update, hx]
    have hparc :
        (KeyFrame.ChangeParent (KeyFrame.EraseChild t c q) c q).mpParent c = q := by
      simp [KeyFrame.ChangeParent, KeyFrame.AddChild, KeyFrame.EraseChild, Function.update]
    have he : (KeyFrame.EraseChild t c q).mpParent c = rest.headD 0 := hpc
    rw [he] at hc2
    obtain ⟨t2, h1, h2, h3, h4⟩ := ih
      (KeyFrame.ChangeParent (KeyFrame.EraseChild t c q) c q) c k
      (by
        intro p hp
        have hp1 : p.1 ∈ rest := (List.of_mem_zip hp).1
        rw [hpar p.1 (fun h => hcrest (h ▸ hp1))]
        apply hchain p
        cases rest with
        | nil => simp at hp
        | cons r rs =>
          simp only [List.tail_cons, List.cons_append, List.zip_cons_cons, List.mem_cons]
          exact Or.inr hp)
      (fun x hx => hnz x (List.mem_cons_of_mem _ hx)) hnd2 hc0
      (by rw [hparc]; exact hqrest) hc2 (by simp at hf ⊢; omega)
    refine ⟨t2, ?_, h2, ?_, ?_⟩
    · simp only [MergeLocal.rewire, List.headD_cons, ne_eq, hc0, not_false_eq_true, if_true,
        he, h1, Option.map_some', List.length_cons]
    · intro x hx
      have hxc : x ≠ c := fun h => hx (h ▸ List.mem_cons_self _ _)
      rw [h3 x (fun h => hx (List.mem_cons_of_mem _ h)), hpar x hxc]
    · intro p hp
      simp only [List.zip_cons_cons, List.mem_cons] at hp
      rcases hp with hp | hp
      · rw [hp]
        show t2.mpParent c = q
        rw [h3 c hcrest, hparc]
      · exact h4 p hp

theorem reaches_step (t : SpanningTree) (x r : KeyFramePtr) (h : t.reaches (t.mpParent x) r) :
    t.reaches x r := by
  obtain ⟨n, hn⟩ := h
  exact ⟨n + 1, by rw [Function.iterate_succ_apply]; exact hn⟩

theorem reaches_chain (t : SpanningTree) (r : KeyFramePtr) :
    ∀ (L : List KeyFramePtr) (q : KeyFramePtr), t.reaches q r →
      (∀ p ∈ (q :: L).zip L, t.mpParent p.2 = p.1) → ∀ x ∈ L, t.reaches x r := by
  intro L
  induction L with
  | nil => intro q _ _ x hx; simp at hx
  | cons c rest ih =>
    intro q hq hz x hx
    have hc : t.reaches c r := by
      apply reaches_step
      rw [hz (q, c) (by simp)]
      exact hq
    rcases List.mem_cons.mp hx with h | h
    · rw [h]; exact hc
    · exact ih c hc (fun p hp => hz p (by simp only [List.zip_cons_cons, List.mem_cons]; exact Or.inr hp)) x h

theorem reaches_unchanged (t t2 : SpanningTree) (r : KeyFramePtr) (S : List KeyFramePtr)
    (hsame : ∀ x, x ∉ S → t2.mpParent x = t.mpParent x)
    (hin : ∀ x ∈ S, t2.reaches x r) (n : Nat) :
    ∀ x, t.mpParent^[n] x ∈ S ∨ t.mpParent^[n] x = r → t2.reaches x r := by
  induction n with
  | zero =>
    intro x h
    rcases h with h | h
    · exact hin x h
    · exact ⟨0, h⟩
  | succ k ih =>
    intro x h
    by_cases hx : x ∈ S
    · exact hin x hx
    · apply reaches_step
      rw [hsame x hx]
      apply ih
      rw [Function.iterate_succ_apply] at h
      exact h

theorem reaches_inside (t t2 : SpanningTree) (R : KeyFramePtr) (B : Finset KeyFramePtr)
    (hsame : ∀ x ∈ B, t2.mpParent x = t.mpParent x)
    (hclosed : ∀ x ∈ B, x ≠ R → t.mpParent x ∈ B) (n : Nat) :
    ∀ x ∈ B, t.mpParent^[n] x = R → t2.reaches x R := by
  induction n with
  | zero => intro x _ h; exact ⟨0, h⟩
  | succ k ih =>
    intro x hx h
    by_cases hxR : x = R
    · exact ⟨0, hxR⟩
    · apply reaches_step
      rw [hsame x hx]
      apply ih _ (hclosed x hx hxR)
      rw [Function.iterate_succ_apply] at h
      exact h

/-- C24. Spanning-tree re-rooting in `MergeLocal`, and in `MergeLocal2` with the two
KeyFrames exchanged.  Let `A` and `B` be two disjoint finite parent-pointer trees, `B` with
the root `R` and the KeyFrame `M` in it, `A` with the KeyFrame `C` whose chain of parents is
`C -> p1 -> ... -> pk`, `pk` being the root of `A`, and let every KeyFrame be among the
children of exactly its parent.  Then the rewiring loop ends after `k` iterations, and
afterwards the parent of `C` is `M`, the parent of each `p(i+1)` is `p(i)`, the parent of
every other KeyFrame is as before, every KeyFrame is among the children of exactly its
parent, and every KeyFrame of `A` and of `B` reaches `R`, which has no parent, along the
parents. -/
theorem spanning_tree_rerooting (t : SpanningTree) (C M R : KeyFramePtr)
    (L : List KeyFramePtr) (A B : Finset KeyFramePtr) (fuel : Nat)
    (hchain : ∀ p ∈ (C :: L).zip (L ++ [0]), t.mpParent p.1 = p.2)
    (hnz : ∀ x ∈ C :: L, x ≠ 0) (hM : M ≠ 0) (hnd : (C :: L).Nodup)
    (hcons : t.consistent) (hAB : Disjoint A B) (hLA : ∀ x ∈ C :: L, x ∈ A)
    (hMB : M ∈ B) (hRB : R ∈ B) (hR : t.mpParent R = 0)
    (hclosed : ∀ x ∈ B, x ≠ R → t.mpParent x ∈ B)
    (hBreach : ∀ x ∈ B, t.reaches x R)
    (hAreach : ∀ x ∈ A, t.reaches x ((C :: L).getLast (List.cons_ne_nil C L)))
    (hfuel : L.length < fuel) :
    (∀ a b, MergeLocal2.rebuildEssentialGraph fuel t a b =
      MergeLocal.rebuildEssentialGraph fuel t b a) ∧
    ∃ t2, MergeLocal.rebuildEssentialGraph fuel t C M = some (t2, L.length) ∧
      t2.mpParent C = M ∧
      (∀ p ∈ (C :: L).zip L, t2.mpParent p.2 = p.1) ∧
      (∀ x, x ∉ C :: L → t2.mpParent x = t.mpParent x) ∧
      t2.consistent ∧
      (∀ x ∈ A ∪ B, t2.reaches x R) ∧
      t2.mpParent R = 0 := by
  refine ⟨fun a b => rfl, ?_⟩
  have hC0 : C ≠ 0 := hnz C (List.mem_cons_self _ _)
  have hnotB : ∀ x ∈ C :: L, x ∉ B := fun x hx hxB =>
    (Finset.disjoint_left.mp hAB) (hLA x hx) hxB
  have hMnot : M ∉ C :: L := fun h => hnotB M h hMB
  have hCL : C ∉ L := (List.nodup_cons.mp hnd).1
  have hpC : t.mpParent C = L.headD 0 := by
    cases L with
    | nil => exact hchain (C, 0) (by simp)
    | cons r rs => exact hchain (C, r) (by simp)
  have hpar : ∀ x, x ≠ C → (KeyFrame.ChangeParent t C M).mpParent x = t.mpParent x := by
    intro x hx
    simp [KeyFrame.ChangeParent, KeyFrame.AddChild, Function.update, hx]
  have hparC : (KeyFrame.ChangeParent t C M).mpParent C = M := by
    simp [KeyFrame.ChangeParent, KeyFrame.AddChild, Function.update]
  have hcb := changeParent_consistentBut t C M hcons hC0 hM
  rw [hpC] at hcb
  obtain ⟨t2, h1, h2, h3, h4⟩ := rewire_spec L (KeyFrame.ChangeParent t C M) C fuel
    (by
      intro p hp
      have hp1 : p.1 ∈ L := (List.of_mem_zip hp).1
      rw [hpar p.1 (fun h => hCL (h ▸ hp1))]
      apply hchain p
      cases L with
      | nil => simp at hp
      | cons r rs =>
        simp only [List.tail_cons, List.cons_append, List.zip_cons_cons, List.mem_cons] at hp ⊢
        exact Or.inr hp)
    (fun x hx => hnz x (List.mem_cons_of_mem _ hx)) hnd hC0
    (by rw [hparC]; exact fun h => hMnot (List.mem_cons_of_mem _ h)) hcb hfuel
  have hC2 : t2.mpParent C = M := by rw [h3 C hCL, hparC]
  have hsame : ∀ x, x ∉ C :: L → t2.mpParent x = t.mpParent x := by
    intro x hx
    rw [h3 x (fun h => hx (List.mem_cons_of_mem _ h)),
      hpar x (fun h => hx (h ▸ List.mem_cons_self _ _))]
  have hB2 : ∀ x ∈ B, t2.reaches x R := by
    intro x hx
    obtain ⟨n, hn⟩ := hBreach x hx
    exact reaches_inside t t2 R B (fun y hy => hsame y (fun h => hnotB y h hy)) hclosed n x
      hx hn
  have hCr : t2.reaches C R := by
    apply reaches_step
    rw [hC2]
    exact hB2 M hMB
  have hLr : ∀ x ∈ C :: L, t2.reaches x R := by
    intro x hx
    rcases List.mem_cons.mp hx with h | h
    · rw [h]; exact hCr
    · exact reaches_chain t2 R L C hCr h4 x h
  refine ⟨t2, ?_, hC2, h4, hsame, h2, ?_, ?_⟩
  · simp only [MergeLocal.rebuildEssentialGraph, hpC, h1]
  · intro x hx
    rcases Finset.mem_union.mp hx with hA | hB
    · obtain ⟨n, hn⟩ := hAreach x hA
      exact reaches_unchanged t t2 R (C :: L) hsame hLr n x
        (Or.inl (hn ▸ List.getLast_mem _))
    · exact hB2 x hB
  · rw [hsame R (fun h => hnotB R h hRB), hR]

theorem twoTrees_consistent : twoTrees.consistent := by
  intro a b
  by_cases ha : a = 0
  · subst ha
    simp [twoTrees]
  · simp only [twoTrees, ha, if_false, Finset.mem_filter, Finset.mem_insert,
      Finset.mem_singleton, ne_eq, not_false_eq_true, true_and]
    constructor
    · rintro ⟨hb, hp⟩
      refine ⟨?_, hp⟩
      rcases hb with h | h | h | h <;> (rw [h]; decide)
    · rintro ⟨-, hp⟩
      refine ⟨?_, hp⟩
      simp only [twoTrees.parent] at hp
      split_ifs at hp with h1 h2 h3 h4
      · exact Or.inl h1
      · exact Or.inr (Or.inl h2)
      · exact Or.inr (Or.inr (Or.inl h3))
      · exact Or.inr (Or.inr (Or.inr h4))
      · exact absurd hp.symm ha

/-- Witness of C24: in `twoTrees` the KeyFrame 3, whose chain of parents is 3, 2, 1, is
grafted under KeyFrame 11; the loop makes 2 iterations, and afterwards the parents of 3, 2
and 1 are 11, 3 and 2, and the parent of 4 is still 2. -/
theorem spanning_tree_rerooting_witness :
    ∃ t2, MergeLocal.rebuildEssentialGraph 3 twoTrees 3 11 = some (t2, 2) ∧
      t2.mpParent 3 = 11 ∧ t2.mpParent 2 = 3 ∧ t2.mpParent 1 = 2 ∧ t2.mpParent 4 = 2 ∧
      t2.consistent ∧ t2.reaches 1 10 :=
  have h := (spanning_tree_rerooting twoTrees 3 11 10 [2, 1] {1, 2, 3, 4} {10, 11} 3
    (by decide) (by decide) (by decide) (by decide) twoTrees_consistent (by decide)
    (by decide) (by decide) (by decide) (by decide) (by decide)
    (by
      intro x hx
      simp only [Finset.mem_insert, Finset.mem_singleton] at hx
      rcases hx with h | h
      · exact ⟨0, h⟩
      · exact ⟨1, by rw [h]; rfl⟩)
    (by
      intro x hx
      simp only [Finset.mem_insert, Finset.mem_singleton] at hx
      rcases hx with h | h | h | h
      · exact ⟨0, h⟩
      · exact ⟨1, by rw [h]; rfl⟩
      · exact ⟨2, by rw [h]; rfl⟩
      · exact ⟨2, by rw [h]; rfl⟩)
    (by decide)).2
  let ⟨t2, h1, h2, h3, h4, h5, h6, _⟩ := h
  ⟨t2, h1, h2, h3 (3, 2) (by decide), h3 (2, 1) (by decide),
    (h4 4 (by decide)).trans rfl, h5, h6 1 (by decide)⟩

end TreeTheorems

section InertialMergerTheorems

variable {SE3 Sim3 Vec3 : Type}

theorem moveKeyFrames_mpMap (W : World SE3 Sim3) (a b : MapPtr) (l : List KeyFramePtr) :
    ∀ A : AtlasState,
      (l.foldl (fun A k => if k = 0 ∨ W.isBad k = true ∨ A.kfMap k ≠ a then A
        else MergeLocal.moveKeyFrame a b A k) A).mpMap = A.mpMap := by
  induction l with
  | nil => intro A; rfl
  | cons k ks ih =>
    intro A
    simp only [List.foldl_cons]
    split_ifs
    · exact ih A
    · rw [ih]; rfl

theorem moveMapPoints_checked (W : World SE3 Sim3) (a b : MapPtr) (hab : a ≠ b)
    (l : List MapPointPtr) :
    ∀ A : AtlasState, l.Nodup → (∀ p ∈ l, p ≠ 0 ∧ W.isBadMP p = false ∧ A.mpMap p = a) →
      (l.foldl (fun A p => if p = 0 ∨ W.isBadMP p = true ∨ A.mpMap p ≠ a then A
        else MergeLocal.moveMapPoint a b A p) A).mspMapPoints a =
          A.mspMapPoints a \ l.toFinset ∧
      (l.foldl (fun A p => if p = 0 ∨ W.isBadMP p = true ∨ A.mpMap p ≠ a then A
        else MergeLocal.moveMapPoint a b A p) A).mspMapPoints b =
          A.mspMapPoints b ∪ l.toFinset ∧
      (l.foldl (fun A p => if p = 0 ∨ W.isBadMP p = true ∨ A.mpMap p ≠ a then A
        else MergeLocal.moveMapPoint a b A p) A).mspKeyFrames = A.mspKeyFrames := by
  induction l with
  | nil => intro A _ _; simp
  | cons k ks ih =>
    intro A hnd h
    obtain ⟨hk0, hkb, hkm⟩ := h k (List.mem_cons_self _ _)
    obtain ⟨hkn, hnd2⟩ := List.nodup_cons.mp hnd
    obtain ⟨m1, m2, m3, -, -, -⟩ := moveMapPoint_spec a b hab A k
    have m7 : ∀ x, x ≠ k → (MergeLocal.moveMapPoint a b A k).mpMap x = A.mpMap x := by
      intro x hx
      simp [MergeLocal.moveMapPoint, Map.EraseMapPoint, Map.AddMapPoint, MapPoint.UpdateMap,
        Function.update, hx]
    obtain ⟨i1, i2, i3⟩ := ih (MergeLocal.moveMapPoint a b A k) hnd2
      (fun x hx => by
        obtain ⟨x1, x2, x3⟩ := h x (List.mem_cons_of_mem _ hx)
        refine ⟨x1, x2, ?_⟩
        rw [m7 x (fun he => hkn (by rw [← he]; exact hx))]
        exact x3)
    simp only [List.foldl_cons, hk0, hkb, hkm, false_or, Bool.false_eq_true, ne_eq,
      not_true_eq_false, if_false]
    refine ⟨?_, ?_, by rw [i3, m3]⟩
    · rw [i1, m1]
      ext x
      simp only [Finset.mem_sdiff, Finset.mem_erase, List.toFinset_cons, Finset.mem_insert,
        List.mem_toFinset]
      tauto
    · rw [i2, m2]
      ext x
      simp only [Finset.mem_union, Finset.mem_insert, List.toFinset_cons, List.mem_toFinset]
      tauto

theorem rebuild_returns (t : SpanningTree) (C M : KeyFramePtr) (L : List KeyFramePtr)
    (fuel : Nat) (hchain : ∀ p ∈ (C :: L).zip (L ++ [0]), t.mpParent p.1 = p.2)
    (hnz : ∀ x ∈ C :: L, x ≠ 0) (hM : M ≠ 0) (hnd : (C :: L).Nodup) (hMnot : M ∉ C :: L)
    (hcons : t.consistent) (hfuel : L.length < fuel) :
    ∃ t2, MergeLocal.rebuildEssentialGraph fuel t C M = some (t2, L.length) ∧
      t2.mpParent C = M ∧ ∀ x, x ∉ C :: L → t2.mpParent x = t.mpParent x := by
  have hC0 : C ≠ 0 := hnz C (List.mem_cons_self _ _)
  have hCL : C ∉ L := (List.nodup_cons.mp hnd).1
  have hpC : t.mpParent C = L.headD 0 := by
    cases L with
    | nil => exact hchain (C, 0) (by simp)
    | cons r rs => exact hchain (C, r) (by simp)
  have hpar : ∀ x, x ≠ C → (KeyFrame.ChangeParent t C M).mpParent x = t.mpParent x := by
    intro x hx
    simp [KeyFrame.ChangeParent, KeyFrame.AddChild, Function.update, hx]
  have hparC : (KeyFrame.ChangeParent t C M).mpParent C = M := by
    simp [KeyFrame.ChangeParent, KeyFrame.AddChild, Function.update]
  have hcb := changeParent_consistentBut t C M hcons hC0 hM
  rw [hpC] at hcb
  obtain ⟨t2, h1, -, h3, -⟩ := rewire_spec L (KeyFrame.ChangeParent t C M) C fuel
    (by
      intro p hp
      have hp1 : p.1 ∈ L := (List.of_mem_zip hp).1
      rw [hpar p.1 (fun h => hCL (h ▸ hp1))]
      apply hchain p
      cases L with
      | nil => simp at hp
      | cons r rs =>
        simp only [List.tail_cons, List.cons_append, List.zip_cons_cons, List.mem_cons] at hp ⊢
        exact Or.inr hp)
    (fun x hx => hnz x (List.mem_cons_of_mem _ hx)) hnd hC0
    (by rw [hparC]; exact fun h => hMnot (List.mem_cons_of_mem _ h)) hcb hfuel
  refine ⟨t2, ?_, ?_, ?_⟩
  · simp only [MergeLocal.rebuildEssentialGraph, hpC, h1]
  · rw [h3 C hCL, hparC]
  · intro x hx
    rw [h3 x (fun h => hx (List.mem_cons_of_mem _ h)),
      hpar x (fun h => hx (h ▸ List.mem_cons_self _ _))]

theorem tenAndOne_consistent : tenAndOne.tree.consistent := by
  intro a b
  by_cases ha : a = 0
  · subst ha
    simp [tenAndOne]
  · simp only [tenAndOne, ha, if_false, Finset.mem_filter, Finset.mem_Icc, ne_eq,
      not_false_eq_true, true_and]
    constructor
    · rintro ⟨⟨h1, -⟩, h2⟩
      exact ⟨fun h => by rw [h] at h1; exact absurd h1 (by decide), h2⟩
    · rintro ⟨-, h2⟩
      refine ⟨?_, h2⟩
      unfold tenAndOne.parent at h2
      split_ifs at h2 with h
      · exact h
      · exact absurd h2.symm ha

/-- C23, as the code has it.  In `MergeLocal2`, the null check of the tracker's last
KeyFrame stands after the mutations.  Let the matched KeyFrame `M` have the chain of parents
`M -> p1 -> ... -> pk`, let every KeyFrame be among the children of exactly its parent, and
let the KeyFrames and MapPoints of the merge map be neither null nor bad and name the merge
map as theirs.  When the tracker has no last KeyFrame, `MergeLocal2` returns, its last call
is `Release`, it has not called `MergeInertialBA` and `hasMergedLocalMap` is as before; but
it has called `ApplyScaledRotation` on the current map of the Atlas, it has set the three
IMU flags of the current map when the sensor is inertial and the map had not reached IMU
stage 2, it has moved every KeyFrame and MapPoint of the merge map to the current map, and
the parent of `M` is the current KeyFrame. -/
theorem null_check_follows_mutations (cfg : Config) (G : Geometry SE3 Sim3 Vec3)
    (W : World SE3 Sim3) (fuel : Nat) (C M : KeyFramePtr) (S : Sim3) (st : MergeState Sim3)
    (L : List KeyFramePtr)
    (hchain : ∀ p ∈ (M :: L).zip (L ++ [0]), st.tree.mpParent p.1 = p.2)
    (hnz : ∀ x ∈ M :: L, x ≠ 0) (hC : C ≠ 0) (hnd : (M :: L).Nodup) (hCL : C ∉ M :: L)
    (hcons : st.tree.consistent) (hfuel : L.length < fuel)
    (hmaps : st.atlas.kfMap M ≠ st.atlas.kfMap C)
    (hKF : ∀ k ∈ st.atlas.mspKeyFrames (st.atlas.kfMap M),
      k ≠ 0 ∧ W.isBad k = false ∧ st.atlas.kfMap k = st.atlas.kfMap M)
    (hMP : ∀ p ∈ st.atlas.mspMapPoints (st.atlas.kfMap M),
      p ≠ 0 ∧ W.isBadMP p = false ∧ st.atlas.mpMap p = st.atlas.kfMap M) :
    ∃ r cs, MergeLocal2 cfg G W fuel C M S 0 st = some r ∧
      r.calls = st.calls ++ cs ∧
      cs.getLast? = some MergeCall.Release ∧
      (∀ a b m, MergeCall.MergeInertialBA a b m ∉ cs) ∧
      r.hasMergedLocalMap = st.hasMergedLocalMap ∧
      MergeCall.ApplyScaledRotation st.atlas.mpCurrentMap S (decide (G.scale S ≠ 1)) ∈ cs ∧
      (isImuSensor cfg.mSensor = true → st.mbIMU_BA2 (st.atlas.kfMap C) = false →
        r.mbIMU_BA2 (st.atlas.kfMap C) = true ∧ r.mbIMU_BA1 (st.atlas.kfMap C) = true ∧
        r.mbImuInitialized (st.atlas.kfMap C) = true) ∧
      r.atlas.mspKeyFrames (st.atlas.kfMap M) = ∅ ∧
      r.atlas.mspKeyFrames (st.atlas.kfMap C) =
        st.atlas.mspKeyFrames (st.atlas.kfMap C) ∪ st.atlas.mspKeyFrames (st.atlas.kfMap M) ∧
      r.atlas.mspMapPoints (st.atlas.kfMap M) = ∅ ∧
      r.atlas.mspMapPoints (st.atlas.kfMap C) =
        st.atlas.mspMapPoints (st.atlas.kfMap C) ∪ st.atlas.mspMapPoints (st.atlas.kfMap M) ∧
      r.tree.mpParent M = C := by
  obtain ⟨t2, hre, hpM, -⟩ := rebuild_returns st.tree M C L fuel hchain hnz hC hnd hCL hcons
    hfuel
  have hre2 : MergeLocal2.rebuildEssentialGraph fuel st.tree C M = some (t2, L.length) := hre
  obtain ⟨k1, k2, k3, -, -⟩ := moveKeyFrames_rest W (st.atlas.kfMap M) (st.atlas.kfMap C)
    hmaps ((st.atlas.mspKeyFrames (st.atlas.kfMap M)).sort (· ≤ ·)) st.atlas
    (Finset.sort_nodup _ _) (fun k hk => hKF k ((Finset.mem_sort _).mp hk))
  have k4 := moveKeyFrames_mpMap W (st.atlas.kfMap M) (st.atlas.kfMap C)
    ((st.atlas.mspKeyFrames (st.atlas.kfMap M)).sort (· ≤ ·)) st.atlas
  obtain ⟨p1, p2, p3⟩ := moveMapPoints_checked W (st.atlas.kfMap M) (st.atlas.kfMap C) hmaps
    ((st.atlas.mspMapPoints (st.atlas.kfMap M)).sort (· ≤ ·))
    (MergeLocal2.moveKeyFrames W (st.atlas.kfMap C) (st.atlas.kfMap M) st.atlas)
    (Finset.sort_nodup _ _)
    (fun p hp => by
      obtain ⟨x1, x2, x3⟩ := hMP p ((Finset.mem_sort _).mp hp)
      refine ⟨x1, x2, ?_⟩
      unfold MergeLocal2.moveKeyFrames
      rw [k4]
      exact x3)
  have hA : ∀ A : AtlasState, A = MergeLocal2.moveMapPoints W (st.atlas.kfMap C)
      (st.atlas.kfMap M) ((st.atlas.mspMapPoints (st.atlas.kfMap M)).sort (· ≤ ·))
      (MergeLocal2.moveKeyFrames W (st.atlas.kfMap C) (st.atlas.kfMap M) st.atlas) →
      A.mspKeyFrames (st.atlas.kfMap M) = ∅ ∧
      A.mspKeyFrames (st.atlas.kfMap C) =
        st.atlas.mspKeyFrames (st.atlas.kfMap C) ∪ st.atlas.mspKeyFrames (st.atlas.kfMap M) ∧
      A.mspMapPoints (st.atlas.kfMap M) = ∅ ∧
      A.mspMapPoints (st.atlas.kfMap C) =
        st.atlas.mspMapPoints (st.atlas.kfMap C) ∪ st.atlas.mspMapPoints (st.atlas.kfMap M) := by
    intro A hAeq
    subst hAeq
    unfold MergeLocal2.moveMapPoints
    refine ⟨?_, ?_, ?_, ?_⟩
    · rw [p3]
      unfold MergeLocal2.moveKeyFrames
      rw [k1, Finset.sort_toFinset, Finset.sdiff_self]
    · rw [p3]
      unfold MergeLocal2.moveKeyFrames
      rw [k2, Finset.sort_toFinset]
    · rw [p1]
      unfold MergeLocal2.moveKeyFrames
      rw [k3, Finset.sort_toFinset, Finset.sdiff_self]
    · rw [p2]
      unfold MergeLocal2.moveKeyFrames
      rw [k3, Finset.sort_toFinset]
  by_cases hinit : isImuSensor cfg.mSensor = true ∧ st.mbIMU_BA2 (st.atlas.kfMap C) = false
  · simp only [MergeLocal2, hinit, and_self, if_true, hre2, ite_self]
    refine ⟨_, _, rfl, by simp only [List.append_assoc]; rfl, ?_, ?_, rfl, ?_, ?_, ?_⟩
    · simp [List.getLast?_append, List.getLast?_cons]
    · intro a b m
      simp
    · simp
    · intro _ _
      simp
    · obtain ⟨a1, a2, a3, a4⟩ := hA _ rfl
      exact ⟨a1, a2, a3, a4, hpM⟩
  · simp only [MergeLocal2, hinit, if_false, if_true, hre2, ite_self]
    refine ⟨_, _, rfl, by simp only [List.append_assoc]; rfl, ?_, ?_, rfl, ?_, ?_, ?_⟩
    · simp [List.getLast?_append, List.getLast?_cons]
    · intro a b m
      simp
    · simp
    · intro h1 h2
      exact absurd ⟨h1, h2⟩ hinit
    · obtain ⟨a1, a2, a3, a4⟩ := hA _ rfl
      exact ⟨a1, a2, a3, a4, hpM⟩

theorem null_check_follows_mutations_witness :
    ∃ r cs, MergeLocal2 inertialStereo scaleLine exampleWorld 1 5 20 1 0 tenAndOne = some r ∧
      r.calls = tenAndOne.calls ++ cs ∧
      cs.getLast? = some MergeCall.Release ∧
      (∀ a b m, MergeCall.MergeInertialBA a b m ∉ cs) ∧
      r.hasMergedLocalMap = tenAndOne.hasMergedLocalMap ∧
      MergeCall.ApplyScaledRotation tenAndOne.atlas.mpCurrentMap 1
        (decide (scaleLine.scale 1 ≠ 1)) ∈ cs ∧
      (isImuSensor inertialStereo.mSensor = true →
        tenAndOne.mbIMU_BA2 (tenAndOne.atlas.kfMap 5) = false →
        r.mbIMU_BA2 (tenAndOne.atlas.kfMap 5) = true ∧
        r.mbIMU_BA1 (tenAndOne.atlas.kfMap 5) = true ∧
        r.mbImuInitialized (tenAndOne.atlas.kfMap 5) = true) ∧
      r.atlas.mspKeyFrames (tenAndOne.atlas.kfMap 20) = ∅ ∧
      r.atlas.mspKeyFrames (tenAndOne.atlas.kfMap 5) =
        tenAndOne.atlas.mspKeyFrames (tenAndOne.atlas.kfMap 5) ∪
          tenAndOne.atlas.mspKeyFrames (tenAndOne.atlas.kfMap 20) ∧
      r.atlas.mspMapPoints (tenAndOne.atlas.kfMap 20) = ∅ ∧
      r.atlas.mspMapPoints (tenAndOne.atlas.kfMap 5) =
        tenAndOne.atlas.mspMapPoints (tenAndOne.atlas.kfMap 5) ∪
          tenAndOne.atlas.mspMapPoints (tenAndOne.atlas.kfMap 20) ∧
      r.tree.mpParent 20 = 5 :=
  null_check_follows_mutations inertialStereo scaleLine exampleWorld 1 5 20 1 tenAndOne []
    (by decide) (by decide) (by decide) (by decide) (by decide) tenAndOne_consistent
    (by decide) (by decide)
    (by
      intro k hk
      have hk20 : k = 20 := by simpa [tenAndOne] using hk
      subst hk20
      exact ⟨by decide, rfl, rfl⟩)
    (by
      intro p hp
      have hp90 : p = 90 := by simpa [tenAndOne] using hp
      subst hp90
      exact ⟨by decide, rfl, rfl⟩)

/-- C23, as the specification has it, fails.  The map 1, current, holds the KeyFrames 1 to
10 and has not reached IMU stage 2; the map 2 holds the KeyFrame 20 and the MapPoint 90;
the sensor is inertial and the tracker has no last KeyFrame.  `MergeLocal2` for the current
KeyFrame 5 and the matched KeyFrame 20 returns with `Release` as its last call and without
`MergeInertialBA`, but the KeyFrame 20 and the MapPoint 90 are now in the map 1,
`ApplyScaledRotation` has been called on the map 1, the flag of IMU stage 2 of the map 1 is
set, and the parent of the KeyFrame 20, which had none, is the KeyFrame 5. -/
theorem null_last_keyframe_mutates :
    tenAndOne.atlas.kfMap 20 = 2 ∧ tenAndOne.atlas.mpMap 90 = 2 ∧
    tenAndOne.mbIMU_BA2 1 = false ∧ tenAndOne.tree.mpParent 20 = 0 ∧
    nullLastKeyFrameMerge.map (fun r => r.calls.getLast?) = some (some MergeCall.Release) ∧
    nullLastKeyFrameMerge.map
      (fun r => decide (MergeCall.MergeInertialBA 0 20 1 ∈ r.calls)) = some false ∧
    nullLastKeyFrameMerge.map
      (fun r => (r.atlas.kfMap 20, decide (20 ∈ r.atlas.mspKeyFrames 1),
        decide (20 ∈ r.atlas.mspKeyFrames 2))) = some (1, true, false) ∧
    nullLastKeyFrameMerge.map
      (fun r => (r.atlas.mpMap 90, decide (90 ∈ r.atlas.mspMapPoints 1),
        decide (90 ∈ r.atlas.mspMapPoints 2))) = some (1, true, false) ∧
    nullLastKeyFrameMerge.map
      (fun r => decide (MergeCall.ApplyScaledRotation 1 1 false ∈ r.calls)) = some true ∧
    nullLastKeyFrameMerge.map (fun r => r.mbIMU_BA2 1) = some true ∧
    nullLastKeyFrameMerge.map (fun r => r.tree.mpParent 20) = some 5 := by
  decide!

end InertialMergerTheorems

end MORB_SLAM
